import Mathlib

/-!
# LaunchPad: role matching and opportunity fit scoring

A shallow embedding of the matching core of the LaunchPad front end
(`src/utils/roleMatching.js`, `src/utils/matching.js`, `src/config/skillsTaxonomy.js`,
`src/config/roleProfiles.js`, `src/types/careerMatching.js` and `AIService.chat` of
`src/services/ai.js`), followed by theorems about it.

Modelling conventions.

* JavaScript numbers are `JsNum`: `NaN`, the two infinities, or a finite value, held as a
  rational. The operators `+`, `-`, `*` and `/` round their exact result to the nearest double
  (`roundToDouble`: 53 significant bits, ties to even), and a decimal literal such as `0.8`
  denotes the double nearest to it. The exponent of a double is not bounded in the model:
  overflow and gradual underflow need magnitudes from `2^1024` or below `2^-1022`, which quotients
  of list lengths (below `2^32`), the constants of the code and scores clamped to `[0, 100]` do
  not reach. The sign of zero is not modelled.
* JavaScript values that come out of `JSON.parse` are `JsVal`.
* Built-ins of the JavaScript runtime that the code calls but that are no part of the repository
  (`String.prototype.toLowerCase`, `String.prototype.trim`, `JSON.parse`, and the `ToNumber`
  coercion of strings, arrays and objects) are fields of `JsRuntime`; every definition takes the
  runtime as its first argument and the theorems hold for every runtime.
* A skill list typed `string[]` in the source is a `List String`; a profile field that may be
  absent is an `Option`.
* A property read with a computed key on an object literal (`roleProfiles[roleId]`) finds the own
  properties of the object and the properties it inherits from `Object.prototype`, whose names
  are listed in `objectPrototypeNames`.
* A loop with `break` is a recursive function over the elements that are left
  (`nextStepsLoop`).
-/

namespace LaunchPad

/-! ## Numbers -/

/-- The number `⌊log₂ n⌋` for `n ≥ 1`, by halving; `fuel` bounds the number of halvings. -/
def log2Fuel : ℕ → ℕ → ℕ
  | 0, _ => 0
  | fuel + 1, n => if n < 2 then 0 else log2Fuel fuel (n / 2) + 1

/-- The number `⌊log₂ n⌋` for `n ≥ 1`. -/
def natLog2 (n : ℕ) : ℕ := log2Fuel n n

/-- The binary exponent of a positive rational `q`: the integer `e` with `2^e ≤ q < 2^(e+1)`. It
is the difference of the exponents of numerator and denominator, or one less. -/
def floorLog2 (q : ℚ) : ℤ :=
  let d : ℤ := (natLog2 q.num.natAbs : ℤ) - (natLog2 q.den : ℤ)
  if (2 : ℚ) ^ d ≤ q then d else d - 1

/-- The integer nearest to `r`, a tie going to the even neighbour. -/
def roundHalfEven (r : ℚ) : ℤ :=
  if r - ⌊r⌋ < 1 / 2 then ⌊r⌋
  else if 1 / 2 < r - ⌊r⌋ then ⌊r⌋ + 1
  else if ⌊r⌋ % 2 = 0 then ⌊r⌋ else ⌊r⌋ + 1

/-- The double nearest to `q` (IEEE 754 binary64, round to nearest, ties to even): for
`2^e ≤ |q| < 2^(e+1)` the doubles around `q` are the multiples of `2^(e-52)`. -/
def roundToDouble (q : ℚ) : ℚ :=
  if q = 0 then 0
  else roundHalfEven (q / 2 ^ (floorLog2 |q| - 52)) * 2 ^ (floorLog2 |q| - 52)

/-- A JavaScript number: `NaN`, `-Infinity`, a finite value, or `+Infinity`. -/
inductive JsNum where
  | nan
  | negInf
  | num (q : ℚ)
  | posInf
  deriving DecidableEq

namespace JsNum

/-- The number denoted by a natural-number literal or an array length. -/
def ofNat (n : ℕ) : JsNum := num (n : ℚ)

/-- The number denoted by an integer. -/
def ofInt (n : ℤ) : JsNum := num (n : ℚ)

/-- The number denoted by a decimal literal of value `q`: the double nearest to `q`. -/
def ofLiteral (q : ℚ) : JsNum := num (roundToDouble q)

/-- Unary minus. -/
def neg : JsNum → JsNum
  | nan => nan
  | negInf => posInf
  | num q => num (-q)
  | posInf => negInf

/-- The `+` operator on numbers: the exact sum of finite numbers, rounded to a double. -/
def add : JsNum → JsNum → JsNum
  | num a, num b => num (roundToDouble (a + b))
  | nan, _ => nan
  | _, nan => nan
  | posInf, negInf => nan
  | negInf, posInf => nan
  | posInf, _ => posInf
  | _, posInf => posInf
  | negInf, _ => negInf
  | _, negInf => negInf

/-- The binary `-` operator on numbers: the exact difference, rounded to a double. -/
def sub (a b : JsNum) : JsNum := add a (neg b)

/-- An infinity with the sign of `q`, `NaN` for `q = 0`: the product of `+Infinity` and `q`. -/
def infTimes (q : ℚ) : JsNum :=
  if q = 0 then nan else if 0 < q then posInf else negInf

/-- The `*` operator on numbers: the exact product of finite numbers, rounded to a double. -/
def mul : JsNum → JsNum → JsNum
  | num a, num b => num (roundToDouble (a * b))
  | nan, _ => nan
  | _, nan => nan
  | posInf, num b => infTimes b
  | num a, posInf => infTimes a
  | negInf, num b => infTimes (-b)
  | num a, negInf => infTimes (-a)
  | posInf, posInf => posInf
  | negInf, negInf => posInf
  | posInf, negInf => negInf
  | negInf, posInf => negInf

/-- The `/` operator on numbers: the exact quotient of finite numbers, rounded to a double (a
zero divisor is `+0`). -/
def div : JsNum → JsNum → JsNum
  | num a, num b => if b = 0 then infTimes a else num (roundToDouble (a / b))
  | nan, _ => nan
  | _, nan => nan
  | num _, posInf => num 0
  | num _, negInf => num 0
  | posInf, num b => if 0 ≤ b then posInf else negInf
  | negInf, num b => if 0 ≤ b then negInf else posInf
  | posInf, posInf => nan
  | posInf, negInf => nan
  | negInf, posInf => nan
  | negInf, negInf => nan

/-- The `<=` operator on numbers: false as soon as one side is `NaN`. -/
def le : JsNum → JsNum → Bool
  | nan, _ => false
  | _, nan => false
  | negInf, _ => true
  | _, posInf => true
  | num a, num b => decide (a ≤ b)
  | num _, negInf => false
  | posInf, _ => false

/-- The `>=` operator on numbers. -/
def ge (a b : JsNum) : Bool := le b a

/-- The function `Math.min` on two arguments. -/
def min (a b : JsNum) : JsNum :=
  match a, b with
  | nan, _ => nan
  | _, nan => nan
  | a, b => if le a b then a else b

/-- The function `Math.max` on two arguments. -/
def max (a b : JsNum) : JsNum :=
  match a, b with
  | nan, _ => nan
  | _, nan => nan
  | a, b => if le a b then b else a

/-- The function `Math.round`: the nearest integer, a tie going up. -/
def round : JsNum → JsNum
  | num q => num ((⌊q + 1 / 2⌋ : ℤ) : ℚ)
  | x => x

end JsNum

/-! ## Values -/

/-- A JavaScript value as `JSON.parse` can return it, or `undefined`. -/
inductive JsVal where
  | undefined
  | null
  | bool (b : Bool)
  | num (x : JsNum)
  | str (s : String)
  | arr (items : List JsVal)
  | obj (props : List (String × JsVal))

namespace JsVal

/-- The coercion `ToBoolean`, as used by `||` and `!`. -/
def truthy : JsVal → Bool
  | undefined => false
  | null => false
  | bool b => b
  | num x => !(decide (x = JsNum.nan) || decide (x = JsNum.num 0))
  | str s => !(decide (s = ""))
  | arr _ => true
  | obj _ => true

/-- The property read `v.key` for one of the keys the matcher reads (none of them is a built-in
property of strings, arrays, numbers or booleans): the own property of an object, `undefined`
otherwise. The read throws on `null` and `undefined`; the callers test for them first. -/
def getProp (v : JsVal) (key : String) : JsVal :=
  match v with
  | obj props => (props.lookup key).getD undefined
  | _ => undefined

/-- The expression `a || b`. -/
def orElse (a b : JsVal) : JsVal := if a.truthy then a else b

/-- A `string[]` as a value. -/
def strArr (l : List String) : JsVal := arr (l.map str)

end JsVal

/-- The built-ins of the JavaScript runtime that the matching code relies on. -/
structure JsRuntime where
  /-- The method `String.prototype.toLowerCase`. -/
  toLowerCase : String → String
  /-- The method `String.prototype.trim`. -/
  trim : String → String
  /-- The function `JSON.parse`; `none` when it throws a `SyntaxError`. -/
  jsonParse : String → Option JsVal
  /-- The coercion `ToNumber` of a string, an array or an object; `none` when it throws. -/
  toNumberOther : JsVal → Option JsNum

/-- The coercion `ToNumber`; `none` when it throws. -/
def JsRuntime.toNumber (rt : JsRuntime) : JsVal → Option JsNum
  | JsVal.undefined => some JsNum.nan
  | JsVal.null => some (JsNum.num 0)
  | JsVal.bool b => some (JsNum.num (if b then 1 else 0))
  | JsVal.num x => some x
  | v => rt.toNumberOther v

/-! ## Strings and arrays -/

/-- Whether `t` occurs in `s` as a contiguous block. -/
def includesChars : List Char → List Char → Bool
  | [], t => t.isEmpty
  | c :: s, t => t.isPrefixOf (c :: s) || includesChars s t

/-- The method `String.prototype.includes`. -/
def jsIncludes (s t : String) : Bool := includesChars s.data t.data

/-- The segments of `s` between the occurrences of `sep`, `cur` being the segment read so far
(reversed). -/
def splitChars (sep : Char) (cur : List Char) : List Char → List (List Char)
  | [] => [cur.reverse]
  | c :: s => if c = sep then cur.reverse :: splitChars sep [] s else splitChars sep (c :: cur) s

/-- The method `String.prototype.split` for a one-character separator. -/
def jsSplit (s : String) (sep : Char) : List String :=
  (splitChars sep [] s.data).map String.mk

/-- The method `Array.prototype.join`. -/
def jsJoin (l : List String) (sep : String) : String :=
  match l with
  | [] => ""
  | x :: xs => xs.foldl (fun acc y => acc ++ sep ++ y) x

/-- The elements of a list in order of first occurrence, `seen` being those already met. -/
def uniqueFrom (seen : List String) : List String → List String
  | [] => []
  | x :: xs => if x ∈ seen then uniqueFrom seen xs else x :: uniqueFrom (x :: seen) xs

/-- The expression `[...new Set(l)]`: the distinct elements in order of first occurrence. -/
def unique (l : List String) : List String := uniqueFrom [] l

/-! ## The skills taxonomy (`src/config/skillsTaxonomy.js`) -/

/-- The table `skillsTaxonomy`: each canonical skill with its listed variations, in source
order. -/
def skillsTaxonomy : List (String × List String) := [
  ("javascript", ["js", "javascript", "ecmascript", "es6", "es2015"]),
  ("typescript", ["ts", "typescript"]),
  ("python", ["python", "python3", "py"]),
  ("java", ["java", "java se", "java ee"]),
  ("c++", ["c++", "cpp", "cplusplus"]),
  ("c#", ["c#", "csharp", "c sharp"]),
  ("c", ["c", "c programming"]),
  ("go", ["go", "golang"]),
  ("rust", ["rust"]),
  ("ruby", ["ruby", "rb"]),
  ("php", ["php"]),
  ("swift", ["swift"]),
  ("kotlin", ["kotlin"]),
  ("scala", ["scala"]),
  ("r", ["r", "r programming"]),
  ("matlab", ["matlab"]),
  ("sql", ["sql", "structured query language"]),
  ("html", ["html", "html5"]),
  ("css", ["css", "css3"]),
  ("react", ["react", "reactjs", "react.js"]),
  ("vue", ["vue", "vuejs", "vue.js"]),
  ("angular", ["angular", "angularjs"]),
  ("svelte", ["svelte"]),
  ("next.js", ["next", "nextjs", "next.js"]),
  ("nuxt", ["nuxt", "nuxtjs"]),
  ("gatsby", ["gatsby", "gatsbyjs"]),
  ("node.js", ["node", "nodejs", "node.js"]),
  ("express", ["express", "expressjs", "express.js"]),
  ("django", ["django"]),
  ("flask", ["flask"]),
  ("fastapi", ["fastapi"]),
  ("spring", ["spring", "spring boot", "spring framework"]),
  ("asp.net", ["asp.net", "aspnet", ".net"]),
  ("rails", ["rails", "ruby on rails", "ror"]),
  ("mongodb", ["mongodb", "mongo"]),
  ("postgresql", ["postgresql", "postgres", "psql"]),
  ("mysql", ["mysql"]),
  ("redis", ["redis"]),
  ("dynamodb", ["dynamodb"]),
  ("firebase", ["firebase", "firestore"]),
  ("sqlite", ["sqlite"]),
  ("cassandra", ["cassandra"]),
  ("elasticsearch", ["elasticsearch", "elastic"]),
  ("aws", ["aws", "amazon web services"]),
  ("azure", ["azure", "microsoft azure"]),
  ("gcp", ["gcp", "google cloud", "google cloud platform"]),
  ("docker", ["docker"]),
  ("kubernetes", ["kubernetes", "k8s"]),
  ("terraform", ["terraform"]),
  ("jenkins", ["jenkins"]),
  ("github actions", ["github actions", "gh actions"]),
  ("ci/cd", ["ci/cd", "cicd", "continuous integration"]),
  ("tensorflow", ["tensorflow", "tf"]),
  ("pytorch", ["pytorch", "torch"]),
  ("scikit-learn", ["scikit-learn", "sklearn", "scikit learn"]),
  ("pandas", ["pandas"]),
  ("numpy", ["numpy"]),
  ("jupyter", ["jupyter", "jupyter notebook"]),
  ("keras", ["keras"]),
  ("opencv", ["opencv", "cv2"]),
  ("git", ["git", "version control"]),
  ("github", ["github"]),
  ("gitlab", ["gitlab"]),
  ("jira", ["jira"]),
  ("figma", ["figma"]),
  ("vscode", ["vscode", "vs code", "visual studio code"]),
  ("postman", ["postman"]),
  ("linux", ["linux", "unix"]),
  ("bash", ["bash", "shell"]),
  ("jest", ["jest"]),
  ("pytest", ["pytest"]),
  ("selenium", ["selenium"]),
  ("cypress", ["cypress"]),
  ("junit", ["junit"]),
  ("agile", ["agile", "scrum", "kanban"]),
  ("leadership", ["leadership", "team lead"]),
  ("communication", ["communication", "collaboration"]),
  ("problem solving", ["problem solving", "debugging"]),
  ("project management", ["project management", "pm"])
]

/-- The function `normalizeSkill`: `none` is the source's `null`. A key of the table is returned
as is, a listed variation gives the first key it is listed under, anything else passes through
lower-cased and trimmed. (In the source the test `skillsTaxonomy[normalized]` also succeeds on an
inherited property name such as `constructor`; the string is then returned as is, which is what
the pass-through returns.) -/
def normalizeSkill (rt : JsRuntime) (skill : JsVal) : Option String :=
  match skill with
  | JsVal.str s =>
    if s = "" then none
    else
      let normalized := rt.trim (rt.toLowerCase s)
      if (skillsTaxonomy.lookup normalized).isSome then some normalized
      else
        match skillsTaxonomy.find? (fun entry => entry.2.contains normalized) with
        | some entry => some entry.1
        | none => some normalized
  | _ => none

/-- The function `normalizeSkills`: the distinct canonical names of the entries that are
non-empty strings; the empty list for an argument that is no array. -/
def normalizeSkills (rt : JsRuntime) (skills : JsVal) : List String :=
  match skills with
  | JsVal.arr items => unique (items.filterMap (normalizeSkill rt))
  | _ => []

/-! ## Types and constants (`src/types/careerMatching.js`) -/

/-- The constant `ExperienceLevels.BEGINNER`. -/
def ExperienceLevels.BEGINNER : ℤ := 0

/-- The constant `ExperienceLevels.INTERMEDIATE`. -/
def ExperienceLevels.INTERMEDIATE : ℤ := 1

/-- The constant `ExperienceLevels.ADVANCED`. -/
def ExperienceLevels.ADVANCED : ℤ := 2

/-- The constant `MatchLevels.EXCELLENT.min`. -/
def MatchLevels.EXCELLENT.min : ℚ := 80

/-- The constant `MatchLevels.GOOD.min`. -/
def MatchLevels.GOOD.min : ℚ := 60

/-- The constant `MatchLevels.FAIR.min`. -/
def MatchLevels.FAIR.min : ℚ := 40

/-- The fields of a `RoleProfile` that the matcher reads (the descriptive texts are left out). -/
structure RoleProfile where
  id : String
  name : String
  requiredSkills : List String
  preferredSkills : List String
  minExperienceLevel : ℤ
  deriving DecidableEq

/-- The typedef `ParsedResumeContent`, reduced to the field the matcher reads. -/
structure ParsedResumeContent where
  normalizedSkills : Option (List String)

/-- The typedef `ResumeData`, reduced to the field the matcher reads. -/
structure ResumeData where
  parsed : Option ParsedResumeContent

/-- The fields of a `UserProfile` that the matching code reads; `none` is an absent field. -/
structure UserProfile where
  currentSkills : Option (List String)
  interests : Option (List String)
  experienceLevel : Option String
  location : Option String
  targetRoles : Option (List String)
  resumeData : Option ResumeData

/-- The typedef `RoleMatchResult`. The deterministic matcher fills the skill lists with arrays of
strings and `matchLevel` and `recommendation` with strings; the AI matcher copies whatever the
response holds. -/
structure RoleMatchResult where
  roleId : String
  roleName : String
  score : JsNum
  matchedSkills : JsVal
  gapSkills : JsVal
  bonusSkills : JsVal
  matchLevel : JsVal
  recommendation : JsVal

/-! ## The role catalog (`src/config/roleProfiles.js`) -/

/-- The values of the object `roleProfiles`, in source order: what `getAllRoleProfiles`
returns. -/
def getAllRoleProfiles : List RoleProfile := [
  { id := "software-engineer",
    name := "Software Engineer",
    requiredSkills := ["programming", "data structures", "algorithms", "git", "debugging"],
    preferredSkills := ["java", "python", "c++", "javascript", "sql", "testing", "agile"],
    minExperienceLevel := ExperienceLevels.BEGINNER },
  { id := "frontend-engineer",
    name := "Frontend Engineer",
    requiredSkills := ["html", "css", "javascript", "responsive design", "git"],
    preferredSkills := [
      "react", "vue", "typescript", "tailwind", "webpack", "figma", "accessibility"],
    minExperienceLevel := ExperienceLevels.BEGINNER },
  { id := "backend-engineer",
    name := "Backend Engineer",
    requiredSkills := ["programming", "databases", "apis", "sql", "git"],
    preferredSkills := [
      "node.js", "python", "java", "postgresql", "redis", "docker", "aws", "microservices"],
    minExperienceLevel := ExperienceLevels.BEGINNER },
  { id := "full-stack-engineer",
    name := "Full-Stack Engineer",
    requiredSkills := ["html", "css", "javascript", "databases", "apis", "git"],
    preferredSkills := ["react", "node.js", "typescript", "postgresql", "docker", "aws", "testing"],
    minExperienceLevel := ExperienceLevels.INTERMEDIATE },
  { id := "data-scientist",
    name := "Data Scientist",
    requiredSkills := ["python", "statistics", "sql", "data analysis", "machine learning"],
    preferredSkills := [
      "pandas", "numpy", "scikit-learn", "tensorflow", "jupyter", "r", "tableau", "a/b testing"],
    minExperienceLevel := ExperienceLevels.INTERMEDIATE },
  { id := "data-analyst",
    name := "Data Analyst",
    requiredSkills := ["sql", "excel", "data analysis", "data visualization"],
    preferredSkills := [
      "python", "tableau", "power bi", "statistics", "r", "business intelligence"],
    minExperienceLevel := ExperienceLevels.BEGINNER },
  { id := "ml-engineer",
    name := "Machine Learning Engineer",
    requiredSkills := ["python", "machine learning", "deep learning", "programming", "mathematics"],
    preferredSkills := [
      "tensorflow", "pytorch", "scikit-learn", "docker", "kubernetes", "aws", "mlops"],
    minExperienceLevel := ExperienceLevels.INTERMEDIATE },
  { id := "devops-engineer",
    name := "DevOps/Cloud Engineer",
    requiredSkills := ["linux", "networking", "scripting", "ci/cd", "cloud platforms"],
    preferredSkills := [
      "docker", "kubernetes", "terraform", "aws", "jenkins", "python", "bash", "monitoring"],
    minExperienceLevel := ExperienceLevels.INTERMEDIATE },
  { id := "cybersecurity-analyst",
    name := "Cybersecurity Analyst",
    requiredSkills := ["networking", "security fundamentals", "linux", "incident response"],
    preferredSkills := [
      "python", "security tools", "siem", "penetration testing", "security+", "cryptography"],
    minExperienceLevel := ExperienceLevels.BEGINNER },
  { id := "product-manager",
    name := "Product Manager",
    requiredSkills := [
      "product strategy", "communication", "data analysis", "agile", "user research"],
    preferredSkills := [
      "sql", "jira", "figma", "analytics tools", "a/b testing", "technical writing"],
    minExperienceLevel := ExperienceLevels.INTERMEDIATE }
]

/-- The keys of the object `roleProfiles`, in source order. -/
def roleProfileKeys : List String := [
  "software-engineer", "frontend-engineer", "backend-engineer", "full-stack-engineer",
  "data-scientist", "data-analyst", "ml-engineer", "devops-engineer", "cybersecurity-analyst",
  "product-manager"]

/-- The object `roleProfiles`: each key with its value, in source order. -/
def roleProfiles : List (String × RoleProfile) := roleProfileKeys.zip getAllRoleProfiles

/-- The names of the properties that an object literal inherits from `Object.prototype`. Each of
them holds a function, `__proto__` holds the prototype object: a truthy value in every case. -/
def objectPrototypeNames : List String := [
  "constructor", "hasOwnProperty", "isPrototypeOf", "propertyIsEnumerable", "toLocaleString",
  "toString", "valueOf", "__proto__", "__defineGetter__", "__defineSetter__",
  "__lookupGetter__", "__lookupSetter__"]

/-- What `getRoleProfile` can return: an entry of the catalog, the value of the named inherited
property of the catalog object, or `null`. -/
inductive RoleLookup where
  | profile (roleProfile : RoleProfile)
  | inherited (name : String)
  | null
  deriving DecidableEq

/-- The function `getRoleProfile`: the expression `roleProfiles[roleId] || null`. The property
read finds an own property of the catalog object, else a property of `Object.prototype`, else it
gives `undefined`, which `||` turns into `null`; entries and inherited values are truthy. -/
def getRoleProfile (roleId : String) : RoleLookup :=
  match roleProfiles.lookup roleId with
  | some roleProfile => RoleLookup.profile roleProfile
  | none =>
    if objectPrototypeNames.contains roleId then RoleLookup.inherited roleId
    else RoleLookup.null

/-! ## The deterministic matcher (`src/utils/roleMatching.js`) -/

/-- The array `normalizeSkills(l).map(s => s.toLowerCase())`. -/
def normalizedLower (rt : JsRuntime) (l : List String) : List String :=
  (normalizeSkills rt (JsVal.strArr l)).map rt.toLowerCase

/-- The function `calculateSkillMatch`. -/
def calculateSkillMatch (rt : JsRuntime) (userSkills requiredSkills : List String) : JsNum :=
  if requiredSkills.length = 0 then JsNum.ofNat 100
  else
    let normalizedUserSkills := normalizedLower rt userSkills
    let normalizedRequired := normalizedLower rt requiredSkills
    let matchCount := (normalizedRequired.filter (fun skill =>
      normalizedUserSkills.contains skill)).length
    JsNum.round (JsNum.mul
      (JsNum.div (JsNum.ofNat matchCount) (JsNum.ofNat normalizedRequired.length))
      (JsNum.ofNat 100))

/-- The function `calculateBonusScore`. -/
def calculateBonusScore (rt : JsRuntime) (userSkills preferredSkills : List String) : JsNum :=
  if preferredSkills.length = 0 then JsNum.ofNat 0
  else
    let normalizedUserSkills := normalizedLower rt userSkills
    let normalizedPreferred := normalizedLower rt preferredSkills
    let matchCount := (normalizedPreferred.filter (fun skill =>
      normalizedUserSkills.contains skill)).length
    JsNum.min (JsNum.ofNat 20) (JsNum.round (JsNum.mul
      (JsNum.div (JsNum.ofNat matchCount) (JsNum.ofNat normalizedPreferred.length))
      (JsNum.ofNat 20)))

/-- The function `mapExperienceLevel`; `none` is a missing experience level. -/
def mapExperienceLevel (rt : JsRuntime) (experienceLevel : Option String) : ℤ :=
  match experienceLevel with
  | none => ExperienceLevels.BEGINNER
  | some s =>
    let level := rt.toLowerCase s
    if jsIncludes level "beginner" || jsIncludes level "no experience" then
      ExperienceLevels.BEGINNER
    else if jsIncludes level "intermediate" || jsIncludes level "some experience" then
      ExperienceLevels.INTERMEDIATE
    else if jsIncludes level "advanced" || jsIncludes level "expert" then
      ExperienceLevels.ADVANCED
    else ExperienceLevels.BEGINNER

/-- The function `calculateExperienceAdjustment`, on integer levels. -/
def calculateExperienceAdjustment (userLevel roleMinLevel : ℤ) : ℤ :=
  let difference := userLevel - roleMinLevel
  if difference ≥ 0 then min 10 (difference * 5)
  else max (-10) (difference * 5)

/-- The function `getMatchLevel`. -/
def getMatchLevel (score : JsNum) : String :=
  if JsNum.ge score (JsNum.num MatchLevels.EXCELLENT.min) then "excellent"
  else if JsNum.ge score (JsNum.num MatchLevels.GOOD.min) then "good"
  else if JsNum.ge score (JsNum.num MatchLevels.FAIR.min) then "fair"
  else "needs-development"

/-- The function `generateRecommendation`, given the fields it reads: the match level and the gap
skills of the result and the name of the role. -/
def generateRecommendation (matchLevel : String) (gapSkills : List String) (roleName : String) :
    String :=
  if matchLevel = "excellent" then
    "Excellent match! You have most skills needed for " ++ roleName ++
      ". Consider applying to " ++ roleName ++ " positions."
  else if matchLevel = "good" then
    "Good fit for " ++ roleName ++ ". Focus on gaining " ++
      jsJoin (gapSkills.take 2) " and " ++ " to strengthen your candidacy."
  else if matchLevel = "fair" then
    roleName ++ " is achievable with effort. Build skills in " ++
      jsJoin (gapSkills.take 3) ", " ++ " through projects and courses."
  else
    roleName ++ " is a longer-term goal. Start with foundational skills: " ++
      jsJoin (gapSkills.take 3) ", " ++ "."

/-- The array `allUserSkills` that `calculateRoleMatch` and `calculateAIRoleMatch` build. -/
def allUserSkills (userProfile : UserProfile) : List String :=
  userProfile.currentSkills.getD [] ++ userProfile.interests.getD [] ++
    ((userProfile.resumeData.bind (fun r => r.parsed)).bind
      (fun p => p.normalizedSkills)).getD []

/-- The function `calculateRoleMatch`. -/
def calculateRoleMatch (rt : JsRuntime) (userProfile : UserProfile) (roleProfile : RoleProfile) :
    RoleMatchResult :=
  let skills := allUserSkills userProfile
  let requiredMatch := calculateSkillMatch rt skills roleProfile.requiredSkills
  let requiredScore := JsNum.mul requiredMatch (JsNum.ofLiteral (4 / 5))
  let bonusScore := calculateBonusScore rt skills roleProfile.preferredSkills
  let userExperienceLevel := mapExperienceLevel rt userProfile.experienceLevel
  let expAdjustment :=
    calculateExperienceAdjustment userExperienceLevel roleProfile.minExperienceLevel
  let finalScore := JsNum.add (JsNum.add requiredScore bonusScore) (JsNum.ofInt expAdjustment)
  let finalScore :=
    JsNum.max (JsNum.ofNat 0) (JsNum.min (JsNum.ofNat 100) (JsNum.round finalScore))
  let normalizedUserSkills := normalizedLower rt skills
  let normalizedRequired := normalizedLower rt roleProfile.requiredSkills
  let normalizedPreferred := normalizedLower rt roleProfile.preferredSkills
  let matchedSkills := normalizedRequired.filter (fun skill => normalizedUserSkills.contains skill)
  let gapSkills := normalizedRequired.filter (fun skill => !normalizedUserSkills.contains skill)
  let bonusSkills := normalizedPreferred.filter (fun skill => normalizedUserSkills.contains skill)
  let matchLevel := getMatchLevel finalScore
  { roleId := roleProfile.id,
    roleName := roleProfile.name,
    score := finalScore,
    matchedSkills := JsVal.strArr matchedSkills,
    gapSkills := JsVal.strArr gapSkills,
    bonusSkills := JsVal.strArr bonusSkills,
    matchLevel := JsVal.str matchLevel,
    recommendation := JsVal.str (generateRecommendation matchLevel gapSkills roleProfile.name) }

/-- The value the sort comparator `(a, b) => b.score - a.score` returns. -/
def scoreComparator (a b : RoleMatchResult) : JsNum := JsNum.sub b.score a.score

/-- Whether `Array.prototype.sort` may leave `a` before `b` when the comparator returns `v` for
`(a, b)`: `v` is not positive, a `NaN` counting as zero. -/
def notAfter (v : JsNum) : Bool :=
  match v with
  | JsNum.nan => true
  | v => JsNum.le v (JsNum.num 0)

/-- The relation that `sortByScore` sorts by. -/
def scoreOrder (a b : RoleMatchResult) : Prop := notAfter (scoreComparator a b) = true

instance scoreOrderDecidable : DecidableRel scoreOrder :=
  fun a b => inferInstanceAs (Decidable (notAfter (scoreComparator a b) = true))

/-- Whether the sort of V8 reads the comparator result for `(x, y)` as negative: its
`sortState.Compare` turns a `NaN` into zero. -/
def comparesNegative (x y : RoleMatchResult) : Bool :=
  match scoreComparator x y with
  | JsNum.negInf => true
  | JsNum.num q => decide (q < 0)
  | _ => false

/-- The loop of `CountAndMakeRun` of V8: the number of elements after `previous` that continue
the run, which is strictly descending or not descending. -/
def runContinues (isDescending : Bool) : RoleMatchResult → List RoleMatchResult → ℕ
  | _, [] => 0
  | previous, current :: rest =>
    if isDescending then
      if comparesNegative current previous then runContinues isDescending current rest + 1
      else 0
    else
      if comparesNegative current previous then 0
      else runContinues isDescending current rest + 1

/-- The macro `CountAndMakeRun` of V8 at the start of the array: the length of the run the array
starts with, and the array with that run reversed if it is descending. -/
def countAndMakeRun (work : List RoleMatchResult) : List RoleMatchResult × ℕ :=
  match work with
  | first :: second :: rest =>
    let isDescending := comparesNegative second first
    let runLength := runContinues isDescending second rest + 2
    if isDescending then ((work.take runLength).reverse ++ work.drop runLength, runLength)
    else (work, runLength)
  | _ => (work, 1)

/-- The binary search of `BinaryInsertionSort` of V8: the place of `pivot` among the elements
`left`, ..., `right - 1` of `work`; `fuel` bounds the number of halvings. -/
def insertionPoint (work : List RoleMatchResult) (pivot : RoleMatchResult) : ℕ → ℕ → ℕ → ℕ
  | 0, left, _ => left
  | fuel + 1, left, right =>
    if left < right then
      let mid := left + (right - left) / 2
      match work.get? mid with
      | some element =>
        if comparesNegative pivot element then insertionPoint work pivot fuel left mid
        else insertionPoint work pivot fuel (mid + 1) right
      | none => left
    else left

/-- The macro `BinaryInsertionSort` of V8: each of the `count` elements from index `start` on is
moved to its place among the elements before it. -/
def binaryInsertionSort : List RoleMatchResult → ℕ → ℕ → List RoleMatchResult
  | work, _, 0 => work
  | work, start, count + 1 =>
    match work.get? start with
    | some pivot =>
      let left := insertionPoint work pivot start 0 start
      binaryInsertionSort
        (((work.take start).take left ++ pivot :: (work.take start).drop left) ++
          work.drop (start + 1))
        (start + 1) count
    | none => work

/-- The sort of V8 (`ArrayTimSortImpl`) for an array of fewer than 64 elements: the run at the
start of the array is made ascending, the other elements are inserted by binary search. -/
def engineSort (l : List RoleMatchResult) : List RoleMatchResult :=
  if l.length < 2 then l
  else binaryInsertionSort (countAndMakeRun l).1 (countAndMakeRun l).2
    (l.length - (countAndMakeRun l).2)

/-- Whether a number is finite: neither `NaN` nor an infinity. -/
def JsNum.isFinite : JsNum → Bool
  | JsNum.num _ => true
  | _ => false

/-- The statement `matches.sort((a, b) => b.score - a.score)`. When every score is finite the
comparator is a consistent ordering and the standard fixes the result, that of a stable sort; it
is computed by a stable insertion sort. Otherwise the comparator can return `NaN`, the standard
leaves the order to the engine, and the model follows V8, for arrays of fewer than 64 elements
(`engineSort`). -/
def sortByScore (l : List RoleMatchResult) : List RoleMatchResult :=
  if l.all (fun m => m.score.isFinite) then l.insertionSort scoreOrder
  else engineSort l

/-- The function `calculateAllRoleMatches`. -/
def calculateAllRoleMatches (rt : JsRuntime) (userProfile : UserProfile) :
    List RoleMatchResult :=
  sortByScore (getAllRoleProfiles.map (fun roleProfile =>
    calculateRoleMatch rt userProfile roleProfile))

/-- The function `getTopRoleMatches`. -/
def getTopRoleMatches (rt : JsRuntime) (userProfile : UserProfile) (limit : ℕ) :
    List RoleMatchResult :=
  (calculateAllRoleMatches rt userProfile).take limit

/-! ## The AI service (`AIService.chat` of `src/services/ai.js`) -/

/-- The outcome of one request to the completion endpoint: it rejects (with an `Error`), or it
resolves with the text of the reply. -/
inductive Completion where
  | throws
  | text (content : String)
  deriving DecidableEq

/-- The state of the `AIService` singleton: the flag `demoMode` and whether `client` is set. -/
structure AIService where
  demoMode : Bool
  hasClient : Bool

/-- The entries of the object `responses` of `generateMockChatResponse`, in source order. -/
def mockResponses : List (String × String) := [
  ("what should i", "Based on your roadmap, I recommend focusing on your current milestone: " ++
    "building core programming skills. Start with data structures and algorithms, as " ++
    "they\x27re fundamental for tech interviews. Would you like specific resource " ++
    "recommendations?"),
  ("difference between", "Great question! A Data Analyst typically focuses on analyzing " ++
    "existing data to derive insights using SQL, Excel, and visualization tools. A Data " ++
    "Scientist builds predictive models and uses machine learning. Both are excellent career " ++
    "paths with lots of demand!"),
  ("only 5 hours", "Absolutely! Let\x27s adjust your roadmap to be more realistic. With 5 " ++
    "hours per week, I recommend focusing on one skill at a time. We can extend your timeline " ++
    "and prioritize the most impactful activities. Would you like me to suggest a modified " ++
    "schedule?"),
  ("default", "I\x27m here to help with your career journey! You can ask me about specific " ++
    "roles, skills to learn, how to adjust your roadmap, or anything else about your tech " ++
    "career path.")
]

/-- The method `generateMockChatResponse`: the response of the first key that the lower-cased
message contains, `responses.default` when there is none. -/
def generateMockChatResponse (rt : JsRuntime) (userMessage : String) : String :=
  let lowerMessage := rt.toLowerCase userMessage
  match mockResponses.find? (fun entry => jsIncludes lowerMessage entry.1) with
  | some entry => entry.2
  | none => (mockResponses.lookup "default").getD ""

/-- The method `chat`, for the content `message` of the last message and the outcome `api` that
the completion request has when it is sent; `Except.error` is a thrown `Error` with its
message. A rejection of the request is logged and thrown again. -/
def AIService.chat (rt : JsRuntime) (svc : AIService) (api : Completion) (message : String) :
    Except String String :=
  if svc.demoMode then Except.ok (generateMockChatResponse rt message)
  else if !svc.hasClient then Except.error "AI Service not initialized. Call initialize() first."
  else
    match api with
    | Completion.text content => Except.ok content
    | Completion.throws => Except.error "OpenAI API Error"

/-! ## The AI matcher (`src/utils/roleMatching.js`) -/

/-- The object `finalResult` that `calculateAIRoleMatch` builds from the parsed response `result`
once `result.score` has been coerced to the number `score`. -/
def aiResult (roleProfile : RoleProfile) (result : JsVal) (score : JsNum) : RoleMatchResult :=
  { roleId := roleProfile.id,
    roleName := roleProfile.name,
    score := JsNum.max (JsNum.ofNat 0) (JsNum.min (JsNum.ofNat 100) score),
    matchedSkills := JsVal.orElse (result.getProp "matchedSkills") (JsVal.arr []),
    gapSkills := JsVal.orElse (result.getProp "gapSkills") (JsVal.arr []),
    bonusSkills := JsVal.orElse (result.getProp "bonusSkills") (JsVal.arr []),
    matchLevel := JsVal.orElse (result.getProp "matchLevel") (JsVal.str (getMatchLevel score)),
    recommendation := JsVal.orElse (result.getProp "recommendation")
      (JsVal.str ("Based on your profile, " ++ roleProfile.name ++ " could be a good fit.")) }

/-- The `try` block of `calculateAIRoleMatch`; `Except.error` is an exception thrown inside it:
the one of `chat`, the `SyntaxError` of `JSON.parse`, or a `TypeError` (the read of `score` on a
`null` response, a coercion of the score that throws). -/
def aiAttempt (rt : JsRuntime) (svc : AIService) (prompt : String) (api : Completion)
    (roleProfile : RoleProfile) : Except String RoleMatchResult :=
  match AIService.chat rt svc api prompt with
  | Except.error e => Except.error e
  | Except.ok response =>
    match rt.jsonParse response with
    | none => Except.error "SyntaxError"
    | some JsVal.null => Except.error "TypeError"
    | some JsVal.undefined => Except.error "TypeError"
    | some result =>
      match rt.toNumber (result.getProp "score") with
      | none => Except.error "TypeError"
      | some score => Except.ok (aiResult roleProfile result score)

/-- The function `calculateAIRoleMatch`: the `try` block, and the `catch` block that returns the
deterministic match. `Except.ok` is the value its promise resolves with, `Except.error` a
rejection. `prompt` is the text of the template literal the function sends (only the demo mode of
`chat` reads it) and `api` the outcome of the request. -/
def calculateAIRoleMatch (rt : JsRuntime) (svc : AIService) (prompt : String) (api : Completion)
    (userProfile : UserProfile) (roleProfile : RoleProfile) : Except String RoleMatchResult :=
  match aiAttempt rt svc prompt api roleProfile with
  | Except.ok finalResult => Except.ok finalResult
  | Except.error _ => Except.ok (calculateRoleMatch rt userProfile roleProfile)

/-- The function `Promise.all` on promises that are settled: the values of all, or the first
rejection. -/
def promiseAll {α : Type} : List (Except String α) → Except String (List α)
  | [] => Except.ok []
  | Except.error e :: _ => Except.error e
  | Except.ok x :: rest =>
    match promiseAll rest with
    | Except.ok xs => Except.ok (x :: xs)
    | Except.error e => Except.error e

/-- The function `calculateAIRoleMatches`: the guard on the profile (`none` is a missing
profile), the `try` block, and the `catch` block that returns `getTopRoleMatches`.
`Except.error` is an exception thrown to the caller. `buildPrompt` gives the prompt sent for a
role and `api` the outcome of the request sent for it. -/
def calculateAIRoleMatches (rt : JsRuntime) (svc : AIService)
    (buildPrompt : UserProfile → RoleProfile → String) (api : RoleProfile → Completion)
    (userProfile : Option UserProfile) : Except String (List RoleMatchResult) :=
  match userProfile with
  | none => Except.error "User profile is required"
  | some profile =>
    let matchPromises := getAllRoleProfiles.map (fun roleProfile =>
      calculateAIRoleMatch rt svc (buildPrompt profile roleProfile) (api roleProfile) profile
        roleProfile)
    match promiseAll matchPromises with
    | Except.ok allMatches => Except.ok ((sortByScore allMatches).take 3)
    | Except.error _ => Except.ok (getTopRoleMatches rt profile 3)

/-! ## The opportunity fit scorer (`src/utils/matching.js`) -/

/-- A milestone of a roadmap, reduced to the fields the code reads. -/
structure Milestone where
  status : String
  skills : List String
  deriving DecidableEq

/-- A phase of a roadmap. -/
structure Phase where
  id : String
  name : String
  milestones : List Milestone
  deriving DecidableEq

/-- A roadmap; `phases` may be absent. -/
structure Roadmap where
  phases : Option (List Phase)

/-- An opportunity, reduced to the fields the code reads. -/
structure Opportunity where
  role_type : String
  required_skills : List String
  preferred_skills : List String
  level : String
  location_type : String
  sponsor_tag : String
  deriving DecidableEq

/-- An entry of the array `factors`. -/
structure Factor where
  name : String
  points : JsNum
  details : Option String

/-- The object that `calculateFitScore` returns. -/
structure FitResult where
  score : JsNum
  factors : List Factor
  matchedSkills : List String
  missingSkills : List String

/-- The function `getCompletedSkills`. -/
def getCompletedSkills (roadmap : Option Roadmap) : List String :=
  match roadmap with
  | none => []
  | some r =>
    match r.phases with
    | none => []
    | some phases =>
      unique ((phases.map (fun phase =>
        (phase.milestones.map (fun milestone =>
          if milestone.status = "completed" then milestone.skills else [])).flatten)).flatten)

/-- The test `studentSkills.some(s => s.includes(skill) || skill.includes(s))`. -/
def fitMatches (studentSkills : List String) (skill : String) : Bool :=
  studentSkills.any (fun s => jsIncludes s skill || jsIncludes skill s)

/-- The location test of `calculateFitScore`: the opportunity is remote, or the profile has a
non-empty location and `location.split(',')[1]?.trim()` occurs in `location_type`. The element
`[1]` of the split is the text between the first and the second comma; for a location without
comma it is `undefined`, which `includes` turns into the text `undefined`. -/
def locationMatches (rt : JsRuntime) (location : Option String) (locationType : String) : Bool :=
  locationType = "Remote" ||
    (match location with
     | none => false
     | some loc =>
       !(decide (loc = "")) &&
         jsIncludes locationType
           (match (jsSplit loc ',').get? 1 with
            | some region => rt.trim region
            | none => "undefined"))

/-- The function `calculateFitScore`; `none` when it throws a `TypeError` because
`profile.targetRoles` or `profile.currentSkills` is absent. -/
def calculateFitScore (rt : JsRuntime) (profile : UserProfile) (roadmap : Option Roadmap)
    (opportunity : Opportunity) : Option FitResult :=
  match profile.targetRoles, profile.currentSkills with
  | some targetRoles, some currentSkills =>
    let score := JsNum.ofNat 0
    let roleMatch := targetRoles.contains opportunity.role_type
    let score := if roleMatch then JsNum.add score (JsNum.ofNat 30) else score
    let factors : List Factor :=
      if roleMatch then [{ name := "Target Role Match", points := JsNum.ofNat 30, details := none }]
      else []
    let studentSkills := (currentSkills ++ getCompletedSkills roadmap).map rt.toLowerCase
    let requiredSkills := opportunity.required_skills.map rt.toLowerCase
    let preferredSkills := opportunity.preferred_skills.map rt.toLowerCase
    let matchedRequired := requiredSkills.filter (fitMatches studentSkills)
    let matchedPreferred := preferredSkills.filter (fitMatches studentSkills)
    let requiredScore := JsNum.mul
      (JsNum.div (JsNum.ofNat matchedRequired.length) (JsNum.ofNat requiredSkills.length))
      (JsNum.ofNat 30)
    let preferredScore := JsNum.mul
      (JsNum.div (JsNum.ofNat matchedPreferred.length) (JsNum.ofNat preferredSkills.length))
      (JsNum.ofNat 10)
    let score := JsNum.add score (JsNum.add requiredScore preferredScore)
    let factors := factors ++ [{
      name := "Skills Match",
      points := JsNum.round (JsNum.add requiredScore preferredScore),
      details := some (toString matchedRequired.length ++ "/" ++ toString requiredSkills.length ++
        " required, " ++ toString matchedPreferred.length ++ "/" ++
        toString preferredSkills.length ++ " preferred") }]
    let intern := decide (opportunity.level = "Intern")
    let score := if intern then JsNum.add score (JsNum.ofNat 15) else score
    let factors :=
      if intern then
        factors ++ [{ name := "Level Appropriate", points := JsNum.ofNat 15, details := none }]
      else factors
    let located := locationMatches rt profile.location opportunity.location_type
    let score :=
      if located then JsNum.add score (JsNum.ofNat 15) else JsNum.add score (JsNum.ofNat 7)
    let factors :=
      if located then
        factors ++ [{ name := "Location Match", points := JsNum.ofNat 15, details := none }]
      else factors ++ [{ name := "Location Partial", points := JsNum.ofNat 7, details := none }]
    some {
      score := JsNum.min (JsNum.round score) (JsNum.ofNat 100),
      factors := factors,
      matchedSkills := matchedRequired ++ matchedPreferred,
      missingSkills := requiredSkills.filter (fun skill => !fitMatches studentSkills skill) }
  | _, _ => none

/-- An entry of the array that `getNextSteps` returns. -/
structure NextStep where
  type : String
  phase : String
  phaseId : String
  milestone : Milestone
  deriving DecidableEq

/-- The `for` loop of `getNextSteps` over the phases that are left, `nextSteps` being the array
built so far; the `break` ends it. -/
def nextStepsLoop : List Phase → List NextStep → List NextStep
  | [], nextSteps => nextSteps
  | phase :: rest, nextSteps =>
    let notStarted := phase.milestones.filter (fun m => m.status = "not_started")
    let inProgress := phase.milestones.filter (fun m => m.status = "in_progress")
    let nextSteps : List NextStep :=
      match inProgress with
      | first :: _ =>
        nextSteps ++ [{ type := "continue", phase := phase.name, phaseId := phase.id,
                        milestone := first }]
      | [] => nextSteps
    let nextSteps : List NextStep :=
      match notStarted with
      | first :: _ =>
        if nextSteps.length < 3 then
          nextSteps ++ [{ type := "start", phase := phase.name, phaseId := phase.id,
                          milestone := first }]
        else nextSteps
      | [] => nextSteps
    if nextSteps.length ≥ 3 then nextSteps else nextStepsLoop rest nextSteps

/-- The function `getNextSteps`. -/
def getNextSteps (roadmap : Option Roadmap) : List NextStep :=
  match roadmap with
  | none => []
  | some r =>
    match r.phases with
    | none => []
    | some phases => nextStepsLoop phases []

/-- The object `filters` of `filterOpportunities`; `none` is an absent criterion. -/
structure Filters where
  roleType : Option String
  sponsor : Option String
  locationType : Option String

/-- The coercion `ToBoolean` of a criterion: it is present and not the empty string. -/
def Filters.isSet (criterion : Option String) : Bool :=
  match criterion with
  | some s => !(decide (s = ""))
  | none => false

/-- The function `filterOpportunities`. -/
def filterOpportunities (rt : JsRuntime) (opportunities : List Opportunity) (filters : Filters) :
    List Opportunity :=
  opportunities.filter (fun opp =>
    if Filters.isSet filters.roleType && decide (some opp.role_type ≠ filters.roleType) then false
    else if Filters.isSet filters.sponsor && decide (some opp.sponsor_tag ≠ filters.sponsor) then
      false
    else if Filters.isSet filters.locationType &&
        jsIncludes (rt.toLowerCase opp.location_type)
          (rt.toLowerCase (filters.locationType.getD "")) then true
    else true)

/-! ## A runtime to evaluate the definitions with -/

/-- The texts that `sampleParse` accepts, each with the value `JSON.parse` gives for it. -/
def sampleJson : List (String × JsVal) := [
  ("\x7b\x7d", JsVal.obj []),
  ("null", JsVal.null),
  ("\x7b\"score\": 150\x7d", JsVal.obj [("score", JsVal.num (JsNum.num 150))]),
  ("\x7b\"score\": 72\x7d", JsVal.obj [("score", JsVal.num (JsNum.num 72))]),
  ("\x7b\"score\": 10\x7d", JsVal.obj [("score", JsVal.num (JsNum.num 10))]),
  ("\x7b\"score\": 50\x7d", JsVal.obj [("score", JsVal.num (JsNum.num 50))]),
  ("\x7b\"score\": 90\x7d", JsVal.obj [("score", JsVal.num (JsNum.num 90))]),
  ("\x7b\"score\": 90, \"matchLevel\": \"fair\"\x7d",
    JsVal.obj [("score", JsVal.num (JsNum.num 90)), ("matchLevel", JsVal.str "fair")]),
  ("\x7b\"score\": 72, \"matchedSkills\": [\"git\"], \"gapSkills\": [\"algorithms\"], " ++
    "\"bonusSkills\": [\"sql\"], \"matchLevel\": \"good\", " ++
    "\"recommendation\": \"Practise algorithms.\"\x7d",
    JsVal.obj [("score", JsVal.num (JsNum.num 72)),
      ("matchedSkills", JsVal.arr [JsVal.str "git"]),
      ("gapSkills", JsVal.arr [JsVal.str "algorithms"]),
      ("bonusSkills", JsVal.arr [JsVal.str "sql"]),
      ("matchLevel", JsVal.str "good"),
      ("recommendation", JsVal.str "Practise algorithms.")])
]

/-- A runtime for ASCII input: `toLowerCase` maps the letters `A` to `Z`, `trim` strips white
space at both ends, `JSON.parse` knows the texts of `sampleJson` and rejects every other text,
and the coercion of strings, arrays and objects to a number gives `NaN`. It agrees with
JavaScript on the inputs it is used with below: ASCII strings, replies that are a text of
`sampleJson` or English prose, and scores that are numbers or absent. -/
def sampleRuntime : JsRuntime where
  toLowerCase := fun s => String.mk (s.data.map Char.toLower)
  trim := fun s =>
    String.mk ((s.data.dropWhile Char.isWhitespace).reverse.dropWhile Char.isWhitespace).reverse
  jsonParse := fun s => sampleJson.lookup s
  toNumberOther := fun _ => some JsNum.nan

/-! ## The quantities the statements below are written with -/

/-- The student skill pool of `calculateFitScore`, lower-cased. -/
def fitPool (rt : JsRuntime) (profile : UserProfile) (roadmap : Option Roadmap) : List String :=
  (profile.currentSkills.getD [] ++ getCompletedSkills roadmap).map rt.toLowerCase

/-- The number of entries of `skills` that `calculateFitScore` counts as matched. -/
def fitMatchedCount (rt : JsRuntime) (profile : UserProfile) (roadmap : Option Roadmap)
    (skills : List String) : ℕ :=
  ((skills.map rt.toLowerCase).filter (fitMatches (fitPool rt profile roadmap))).length

/-- The role points: 30 if `role_type` is an element of `targetRoles`, 0 otherwise. -/
def rolePoints (profile : UserProfile) (opportunity : Opportunity) : ℚ :=
  if (profile.targetRoles.getD []).contains opportunity.role_type then 30 else 0

/-- The level points: 15 if the level is `Intern`, 0 otherwise. -/
def levelPoints (opportunity : Opportunity) : ℚ :=
  if opportunity.level = "Intern" then 15 else 0

/-- The location points: 15 on a location match, 7 otherwise. -/
def locationPoints (rt : JsRuntime) (profile : UserProfile) (opportunity : Opportunity) : ℚ :=
  if locationMatches rt profile.location opportunity.location_type then 15 else 7

/-- The integer nearest to `q`, a tie going up. -/
def roundHalfUp (q : ℚ) : ℤ := ⌊q + 1 / 2⌋

/-- The double `(m / n) * w`: the quotient of two counts, rounded, times a weight, rounded. -/
def doubleShare (m n : ℕ) (w : ℚ) : ℚ := roundToDouble (roundToDouble (m / n) * w)

/-- The exact sum of the points of `calculateFitScore`: the role points, 30 times the share of
matched required skills, 10 times the share of matched preferred skills, the level points and the
location points. -/
def fitPointsSum (rt : JsRuntime) (profile : UserProfile) (roadmap : Option Roadmap)
    (opportunity : Opportunity) : ℚ :=
  rolePoints profile opportunity +
    30 * fitMatchedCount rt profile roadmap opportunity.required_skills /
      opportunity.required_skills.length +
    10 * fitMatchedCount rt profile roadmap opportunity.preferred_skills /
      opportunity.preferred_skills.length +
    levelPoints opportunity + locationPoints rt profile opportunity

/-- The double `requiredScore + preferredScore` of `calculateFitScore`. -/
def fitSkillsDouble (rt : JsRuntime) (profile : UserProfile) (roadmap : Option Roadmap)
    (opportunity : Opportunity) : ℚ :=
  roundToDouble
    (doubleShare (fitMatchedCount rt profile roadmap opportunity.required_skills)
        opportunity.required_skills.length 30 +
      doubleShare (fitMatchedCount rt profile roadmap opportunity.preferred_skills)
        opportunity.preferred_skills.length 10)

/-- The value of the variable `score` of `calculateFitScore` before the final rounding: the
points are added one after the other, each sum being rounded to a double. -/
def fitDoubleSum (rt : JsRuntime) (profile : UserProfile) (roadmap : Option Roadmap)
    (opportunity : Opportunity) : ℚ :=
  roundToDouble (roundToDouble (roundToDouble (rolePoints profile opportunity +
    fitSkillsDouble rt profile roadmap opportunity) + levelPoints opportunity) +
    locationPoints rt profile opportunity)

/-- The fit score with the required and the preferred points rounded one by one, capped at
100. -/
def fitScoreRoundedParts (rt : JsRuntime) (profile : UserProfile) (roadmap : Option Roadmap)
    (opportunity : Opportunity) : ℚ :=
  min 100 (rolePoints profile opportunity +
    roundHalfUp (30 * fitMatchedCount rt profile roadmap opportunity.required_skills /
      opportunity.required_skills.length) +
    roundHalfUp (10 * fitMatchedCount rt profile roadmap opportunity.preferred_skills /
      opportunity.preferred_skills.length) +
    levelPoints opportunity + locationPoints rt profile opportunity)

/-- The tier of a score in the words of the specification: excellent from 80, good from 60, fair
from 40, needs-development below. -/
def tierOf (s : JsNum) : String :=
  if JsNum.ge s (JsNum.num 80) then "excellent"
  else if JsNum.ge s (JsNum.num 60) then "good"
  else if JsNum.ge s (JsNum.num 40) then "fair"
  else "needs-development"

/-- The result of the batch for one role: the value with which the promise of
`calculateAIRoleMatch` resolves for it. -/
def perRoleMatch (rt : JsRuntime) (svc : AIService)
    (buildPrompt : UserProfile → RoleProfile → String) (api : RoleProfile → Completion)
    (userProfile : UserProfile) (roleProfile : RoleProfile) : RoleMatchResult :=
  match calculateAIRoleMatch rt svc (buildPrompt userProfile roleProfile) (api roleProfile)
    userProfile roleProfile with
  | Except.ok finalResult => finalResult
  | Except.error _ => calculateRoleMatch rt userProfile roleProfile

/-! ## Sample inputs -/

/-- A profile with three skills and no resume. -/
def sampleProfile : UserProfile :=
  { currentSkills := some ["JavaScript", "Git", "SQL"],
    interests := none,
    experienceLevel := some "beginner",
    location := none,
    targetRoles := some ["Software Engineer"],
    resumeData := none }

/-- The first role of the catalog. -/
def sampleRole : RoleProfile :=
  { id := "software-engineer",
    name := "Software Engineer",
    requiredSkills := ["programming", "data structures", "algorithms", "git", "debugging"],
    preferredSkills := ["java", "python", "c++", "javascript", "sql", "testing", "agile"],
    minExperienceLevel := ExperienceLevels.BEGINNER }

/-- A service with an API key: `initialize` has set the client. -/
def liveService : AIService := { demoMode := false, hasClient := true }

/-- A service without API key: the state the constructor leaves. -/
def demoService : AIService := { demoMode := true, hasClient := false }

/-- A prompt builder that names the role. -/
def samplePrompt (_ : UserProfile) (roleProfile : RoleProfile) : String :=
  "ROLE: " ++ roleProfile.name

/-- A collaborator whose request fails for the software engineer, returns prose for the data
analyst and a score of 72 for every other role. -/
def mixedApi (roleProfile : RoleProfile) : Completion :=
  if roleProfile.id = "software-engineer" then Completion.throws
  else if roleProfile.id = "data-analyst" then Completion.text "I cannot answer that."
  else Completion.text "\x7b\"score\": 72\x7d"

/-- A reply that carries every field of a match result. -/
def fullReply : String :=
  "\x7b\"score\": 72, \"matchedSkills\": [\"git\"], \"gapSkills\": [\"algorithms\"], " ++
    "\"bonusSkills\": [\"sql\"], \"matchLevel\": \"good\", " ++
    "\"recommendation\": \"Practise algorithms.\"\x7d"

/-- The value of `fullReply`. -/
def fullReplyValue : JsVal :=
  JsVal.obj [("score", JsVal.num (JsNum.num 72)),
    ("matchedSkills", JsVal.arr [JsVal.str "git"]),
    ("gapSkills", JsVal.arr [JsVal.str "algorithms"]),
    ("bonusSkills", JsVal.arr [JsVal.str "sql"]),
    ("matchLevel", JsVal.str "good"),
    ("recommendation", JsVal.str "Practise algorithms.")]

/-- A collaborator whose request fails for the software engineer and that answers with
`fullReply` for every other role. -/
def isolatedApi (roleProfile : RoleProfile) : Completion :=
  if roleProfile.id = "software-engineer" then Completion.throws
  else Completion.text fullReply

/-- A collaborator whose reply carries the score 10 for the software engineer, no score for the
frontend engineer, the score 90 for the backend engineer and the score 50 for every other
role. -/
def erraticApi (roleProfile : RoleProfile) : Completion :=
  if roleProfile.id = "software-engineer" then Completion.text "\x7b\"score\": 10\x7d"
  else if roleProfile.id = "frontend-engineer" then Completion.text "\x7b\x7d"
  else if roleProfile.id = "backend-engineer" then Completion.text "\x7b\"score\": 90\x7d"
  else Completion.text "\x7b\"score\": 50\x7d"

/-- A match result that carries a role id and a score, with empty lists and texts. -/
def scoredResult (roleId : String) (score : JsNum) : RoleMatchResult :=
  { roleId := roleId,
    roleName := roleId,
    score := score,
    matchedSkills := JsVal.arr [],
    gapSkills := JsVal.arr [],
    bonusSkills := JsVal.arr [],
    matchLevel := JsVal.str "",
    recommendation := JsVal.str "" }

/-- A profile with four skills that targets software engineering. -/
def fitProfile : UserProfile :=
  { currentSkills := some ["Python", "SQL", "Git", "React"],
    interests := none,
    experienceLevel := some "beginner",
    location := none,
    targetRoles := some ["Software Engineer"],
    resumeData := none }

/-- A remote internship of the targeted role type: 3 of 4 required and 1 of 2 preferred skills
are in the pool of `fitProfile`. -/
def internOpportunity : Opportunity :=
  { role_type := "Software Engineer",
    required_skills := ["Python", "SQL", "Git", "Docker"],
    preferred_skills := ["React", "AWS"],
    level := "Intern",
    location_type := "Remote",
    sponsor_tag := "Google" }

/-- An on-site job of another role type: 3 of 4 required and 1 of 4 preferred skills are in
the pool of `fitProfile`. -/
def onsiteOpportunity : Opportunity :=
  { role_type := "Data Analyst",
    required_skills := ["Python", "SQL", "Git", "Docker"],
    preferred_skills := ["React", "AWS", "Kafka", "Rust"],
    level := "Full-time",
    location_type := "Onsite",
    sponsor_tag := "Microsoft" }

/-- An on-site job of another role type with long skill lists: 2 of 9 required and 1 of 12
preferred skills are in the pool of `fitProfile`. -/
def sparseOpportunity : Opportunity :=
  { role_type := "Data Analyst",
    required_skills := ["Python", "Git", "Docker", "Kubernetes", "Terraform", "Linux", "AWS",
      "Jenkins", "Ansible"],
    preferred_skills := ["React", "Kafka", "Rust", "Scala", "Spark", "Hadoop", "Redis", "Nginx",
      "Bash", "Perl", "Ruby", "Swift"],
    level := "Full-time",
    location_type := "Onsite",
    sponsor_tag := "Microsoft" }

/-- A profile with fifteen skills that targets software engineering. -/
def broadProfile : UserProfile :=
  { currentSkills := some ["Python", "SQL", "Git", "React", "Docker", "Linux", "AWS", "Kafka",
      "Rust", "Scala", "Redis", "Nginx", "Bash", "Perl", "Ruby"],
    interests := none,
    experienceLevel := some "intermediate",
    location := none,
    targetRoles := some ["Software Engineer"],
    resumeData := none }

/-- An on-site job of another role type: 15 of 28 required and 1 of 7 preferred skills are in
the pool of `broadProfile`. -/
def broadOpportunity : Opportunity :=
  { role_type := "Data Analyst",
    required_skills := ["Python", "SQL", "Git", "React", "Docker", "Linux", "AWS", "Kafka",
      "Rust", "Scala", "Redis", "Nginx", "Bash", "Perl", "Ruby", "Kubernetes", "Terraform",
      "Jenkins", "Ansible", "Hadoop", "Spark", "Swift", "Kotlin", "Haskell", "Erlang", "Elixir",
      "Fortran", "Cobol"],
    preferred_skills := ["Python", "Figma", "Excel", "Tableau", "Matlab", "Julia", "Prolog"],
    level := "Full-time",
    location_type := "Onsite",
    sponsor_tag := "Microsoft" }

/-! ## The quantities of the deterministic score -/

/-- The user's skill pool, normalized and lower-cased. -/
def userPool (rt : JsRuntime) (userProfile : UserProfile) : List String :=
  normalizedLower rt (allUserSkills userProfile)

/-- The number `r` of normalized required skills of a role. -/
def requiredCount (rt : JsRuntime) (roleProfile : RoleProfile) : ℕ :=
  (normalizedLower rt roleProfile.requiredSkills).length

/-- The number `m` of normalized required skills of a role that are in the user's pool. -/
def requiredMatched (rt : JsRuntime) (userProfile : UserProfile) (roleProfile : RoleProfile) : ℕ :=
  ((normalizedLower rt roleProfile.requiredSkills).filter (fun skill =>
    (userPool rt userProfile).contains skill)).length

/-- The experience adjustment of a profile for a role. -/
def experienceAdjustment (rt : JsRuntime) (userProfile : UserProfile)
    (roleProfile : RoleProfile) : ℤ :=
  calculateExperienceAdjustment (mapExperienceLevel rt userProfile.experienceLevel)
    roleProfile.minExperienceLevel

/-- The clamp of a number to `[0, 100]`. -/
def clamp100 (q : ℚ) : ℚ := max 0 (min 100 q)

/-- The match percentage `Math.round((m / r) * 100)` of `m` matched skills out of `r`. -/
def matchPercent (m r : ℕ) : ℤ := roundHalfUp (doubleShare m r 100)

/-- The double `c * 0.8 + b + a`, added from left to right. -/
def doubleScoreSum (c b a : ℚ) : ℚ :=
  roundToDouble (roundToDouble (roundToDouble (c * roundToDouble (4 / 5)) + b) + a)

/-- The score in which the required skills count through their rounded percentage `P`: the
clamp of `round(0.8 * P + bonus + adjustment)`. -/
def scoreFromPercent (percent : ℤ) (bonus : ℚ) (adjustment : ℤ) : ℚ :=
  clamp100 (roundHalfUp (4 / 5 * percent + bonus + adjustment))

/-- The score in which the required skills count through their exact share: the clamp of
`round(80 * m / r + bonus + adjustment)`. -/
def scoreFromShare (m r : ℕ) (bonus : ℚ) (adjustment : ℤ) : ℚ :=
  clamp100 (roundHalfUp (80 * m / r + bonus + adjustment))

/-- A skill list of a role on which the skill scores are numbers: the empty list, or a list with
an entry that is not the empty string. -/
def usableSkills (l : List String) : Prop := l = [] ∨ ∃ s ∈ l, s ≠ ""

/-- The value `normalizeSkill(normalizeSkill(x))`, a `null` in the middle staying `null`. -/
def normalizeTwice (rt : JsRuntime) (x : String) : Option String :=
  match normalizeSkill rt (JsVal.str x) with
  | some y => normalizeSkill rt (JsVal.str y)
  | none => none

/-- The sum of the points of a list of factors. -/
def sumPoints (factors : List Factor) : JsNum :=
  factors.foldl (fun acc factor => JsNum.add acc factor.points) (JsNum.ofNat 0)

/-- The role of the end-to-end example of the specification. -/
def exampleRole : RoleProfile :=
  { id := "example",
    name := "Example",
    requiredSkills := ["programming", "git", "sql"],
    preferredSkills := ["react"],
    minExperienceLevel := 0 }

/-- The profile of the end-to-end example of the specification. -/
def exampleProfile : UserProfile :=
  { currentSkills := some ["javascript", "git", "sql"],
    interests := none,
    experienceLevel := some "beginner",
    location := none,
    targetRoles := none,
    resumeData := none }

/-! ## The quantities of the statements on the skill pool and the catalog -/

/-- The skills of the resume of a profile, the empty list when a link of
`resumeData?.parsed?.normalizedSkills` is absent. -/
def resumeSkills (userProfile : UserProfile) : List String :=
  ((userProfile.resumeData.bind (fun r => r.parsed)).bind (fun p => p.normalizedSkills)).getD []

/-- The profile with every absent skill source replaced by an empty list. -/
def withEmptyLists (userProfile : UserProfile) : UserProfile :=
  { userProfile with
    currentSkills := some (userProfile.currentSkills.getD []),
    interests := some (userProfile.interests.getD []),
    resumeData := some { parsed := some { normalizedSkills := some (resumeSkills userProfile) } } }

/-- A profile without skill sources other than `currentSkills`. -/
def sparseProfile : UserProfile :=
  { currentSkills := some ["JS", "Git", "SQL"],
    interests := none,
    experienceLevel := some "Intermediate",
    location := none,
    targetRoles := none,
    resumeData := none }

/-- A profile with the skills of `sparseProfile` under other names, in another order, one of them
twice, spread over the three sources. -/
def spreadProfile : UserProfile :=
  { currentSkills := none,
    interests := some ["sql", "ECMAScript", "javascript"],
    experienceLevel := some "Intermediate",
    location := some "Austin, TX",
    targetRoles := some ["Data Analyst"],
    resumeData := some { parsed := some { normalizedSkills := some ["git", "SQL"] } } }

/-- A profile with one skill. -/
def juniorProfile : UserProfile :=
  { currentSkills := some ["Git"],
    interests := none,
    experienceLevel := some "beginner",
    location := none,
    targetRoles := none,
    resumeData := none }

/-- The entries of an array that are non-empty strings, in order. -/
def nonEmptyStrings : List JsVal → List String
  | [] => []
  | JsVal.str s :: rest => if s = "" then nonEmptyStrings rest else s :: nonEmptyStrings rest
  | _ :: rest => nonEmptyStrings rest

/-- The values `normalizeSkill(s)` of the entries `s` of an array that are non-empty strings, in
order. -/
def skillValues (rt : JsRuntime) (items : List JsVal) : List String :=
  (nonEmptyStrings items).filterMap (fun s => normalizeSkill rt (JsVal.str s))

/-! ## The quantities of the statements on the opportunity fit -/

/-- Whether a factor is one of the two location factors. -/
def isLocationFactor (factor : Factor) : Bool :=
  decide (factor.name = "Location Match") || decide (factor.name = "Location Partial")

/-- The segment between the first and the second comma of a location, trimmed: the element
`[1]` of `location.split(',')`; `none` when the location has no comma. -/
def regionSegment (rt : JsRuntime) (location : String) : Option String :=
  ((jsSplit location ',').get? 1).map rt.trim

/-- The text after the first comma of a location, trimmed; `none` when there is no comma. -/
def regionAfterFirstComma (rt : JsRuntime) (location : String) : Option String :=
  match jsSplit location ',' with
  | _ :: second :: rest => some (rt.trim (jsJoin (second :: rest) ","))
  | _ => none

/-- The location points in the words of the specification: 15 if the opportunity is remote or the
text after the first comma of the location occurs in `location_type`, 7 in every other case,
that of a missing location and that of a location without comma included. -/
def claimedLocationPoints (rt : JsRuntime) (location : Option String) (locationType : String) :
    ℚ :=
  if locationType = "Remote" then 15
  else
    match location.bind (regionAfterFirstComma rt) with
    | some region => if jsIncludes locationType region then 15 else 7
    | none => 7

/-- The profile `fitProfile` with a location. -/
def locatedProfile (location : String) : UserProfile :=
  { fitProfile with location := some location }

/-- The opportunity `onsiteOpportunity` with another location type. -/
def placedOpportunity (locationType : String) : Opportunity :=
  { onsiteOpportunity with location_type := locationType }

/-- A profile whose skill list holds an empty string. -/
def blankSkillProfile : UserProfile :=
  { currentSkills := some ["", "Excel"],
    interests := none,
    experienceLevel := none,
    location := none,
    targetRoles := some [],
    resumeData := none }

/-! ## The quantities of the statements on next steps and filters -/

/-- The step `continue` that a phase offers: the one with its first milestone in progress, if it
has one. -/
def continueSteps (phase : Phase) : List NextStep :=
  ((phase.milestones.filter (fun m => m.status = "in_progress")).head?.map (fun first =>
    ({ type := "continue", phase := phase.name, phaseId := phase.id, milestone := first } :
      NextStep))).toList

/-- The step `start` that a phase offers: the one with its first milestone not started, if it has
one. -/
def startSteps (phase : Phase) : List NextStep :=
  ((phase.milestones.filter (fun m => m.status = "not_started")).head?.map (fun first =>
    ({ type := "start", phase := phase.name, phaseId := phase.id, milestone := first } :
      NextStep))).toList

/-- The steps that a phase offers: its step `continue`, then its step `start`. -/
def candidateSteps (phase : Phase) : List NextStep := continueSteps phase ++ startSteps phase

/-- Four phases: the first has a milestone in progress and one not started, the second is
completed, the third has two milestones in progress and one not started, the fourth has one
milestone not started. -/
def samplePhases : List Phase := [
  { id := "p1", name := "Foundations", milestones := [
      { status := "completed", skills := ["html"] },
      { status := "in_progress", skills := ["css"] },
      { status := "not_started", skills := ["javascript"] }] },
  { id := "p2", name := "Tooling", milestones := [
      { status := "completed", skills := ["git"] }] },
  { id := "p3", name := "Projects", milestones := [
      { status := "in_progress", skills := ["react"] },
      { status := "in_progress", skills := ["node"] },
      { status := "not_started", skills := ["sql"] }] },
  { id := "p4", name := "Career", milestones := [
      { status := "not_started", skills := [] }] }]

/-- Whether an opportunity field passes the equality check of a criterion: the criterion is absent
or empty, or the field equals it. -/
def passesCriterion (criterion : Option String) (field : String) : Bool :=
  match criterion with
  | none => true
  | some wanted => decide (wanted = "") || decide (field = wanted)

/-- Three opportunities of two role types and two sponsors. -/
def sampleOpportunities : List Opportunity := [
  internOpportunity, onsiteOpportunity,
  { role_type := "Software Engineer", required_skills := [], preferred_skills := [],
    level := "Intern", location_type := "Hybrid", sponsor_tag := "Microsoft" }]


/-! ## Lemmas on the rounding to a double -/

theorem log2Fuel_eq : ∀ (fuel n : ℕ), n ≤ fuel → log2Fuel fuel n = Nat.log2 n
  | 0, n, h => by
    have : n = 0 := by omega
    subst this
    simp [log2Fuel, Nat.log2]
  | fuel + 1, n, h => by
    rw [log2Fuel, Nat.log2]
    by_cases h2 : n < 2
    · rw [if_pos h2, if_neg (by omega)]
    · rw [if_neg h2, if_pos (by omega), log2Fuel_eq fuel (n / 2) (by omega)]

theorem natLog2_eq (n : ℕ) : natLog2 n = Nat.log2 n := log2Fuel_eq n n (le_refl n)

theorem natLog2_bounds (n : ℕ) (h : n ≠ 0) :
    ((2 : ℚ) ^ (natLog2 n : ℤ) ≤ n) ∧ ((n : ℚ) < 2 ^ ((natLog2 n : ℤ) + 1)) := by
  rw [natLog2_eq]
  constructor
  · rw [zpow_natCast]
    exact_mod_cast Nat.log2_self_le h
  · have h2 : n < 2 ^ (n.log2 + 1) := Nat.lt_log2_self
    have e : ((n.log2 : ℤ) + 1) = ((n.log2 + 1 : ℕ) : ℤ) := by push_cast; ring
    rw [e, zpow_natCast]
    exact_mod_cast h2

theorem two_zpow_pos (t : ℤ) : (0 : ℚ) < 2 ^ t := zpow_pos (by norm_num) t

/-- The exponent of a positive rational. -/
theorem floorLog2_bounds (q : ℚ) (hq : 0 < q) :
    (2 : ℚ) ^ floorLog2 q ≤ q ∧ q < 2 ^ (floorLog2 q + 1) := by
  have hnum : 0 < q.num := Rat.num_pos.mpr hq
  have ha : q.num.natAbs ≠ 0 := by omega
  have hb : q.den ≠ 0 := q.den_nz
  obtain ⟨ha1, ha2⟩ := natLog2_bounds q.num.natAbs ha
  obtain ⟨hb1, hb2⟩ := natLog2_bounds q.den hb
  have hq' : q = (q.num.natAbs : ℚ) / (q.den : ℚ) := by
    have h := (Rat.num_div_den q).symm
    have hn : (q.num : ℚ) = ((q.num.natAbs : ℕ) : ℚ) := by
      rw [Nat.cast_natAbs, abs_of_pos hnum]
    rw [hn] at h
    exact h
  have hbpos : (0 : ℚ) < q.den := by exact_mod_cast Nat.pos_of_ne_zero hb
  have hapos : (0 : ℚ) < q.num.natAbs := by exact_mod_cast Nat.pos_of_ne_zero ha
  set a : ℚ := (q.num.natAbs : ℚ) with hadef
  set b : ℚ := (q.den : ℚ) with hbdef
  set la : ℤ := (natLog2 q.num.natAbs : ℤ) with hla
  set lb : ℤ := (natLog2 q.den : ℤ) with hlb
  have hupper : q < 2 ^ (la - lb + 1) := by
    have e : (2 : ℚ) ^ (la - lb + 1) = 2 ^ (la + 1) / 2 ^ lb := by
      rw [show la - lb + 1 = (la + 1) - lb by ring, zpow_sub₀ (by norm_num)]
    rw [e, hq', div_lt_div_iff₀ hbpos (two_zpow_pos lb)]
    calc a * 2 ^ lb ≤ a * b := by
          exact mul_le_mul_of_nonneg_left hb1 (le_of_lt hapos)
      _ < 2 ^ (la + 1) * b := by
          exact mul_lt_mul_of_pos_right ha2 hbpos
  have hlower : (2 : ℚ) ^ (la - lb - 1) ≤ q := by
    have e : (2 : ℚ) ^ (la - lb - 1) = 2 ^ la / 2 ^ (lb + 1) := by
      rw [show la - lb - 1 = la - (lb + 1) by ring, zpow_sub₀ (by norm_num)]
    rw [e, hq', div_le_div_iff₀ (two_zpow_pos (lb + 1)) hbpos]
    calc 2 ^ la * b ≤ a * b := by
          exact mul_le_mul_of_nonneg_right ha1 (le_of_lt hbpos)
      _ ≤ a * 2 ^ (lb + 1) := by
          exact mul_le_mul_of_nonneg_left (le_of_lt hb2) (le_of_lt hapos)
  unfold floorLog2
  simp only []
  split_ifs with h
  · exact ⟨h, hupper⟩
  · refine ⟨hlower, ?_⟩
    rw [show la - lb - 1 + 1 = la - lb by ring]
    exact lt_of_not_le h

/-- The exponent is the only integer `e` with `2^e ≤ q < 2^(e+1)`. -/
theorem floorLog2_eq (q : ℚ) (e : ℤ) (h1 : (2 : ℚ) ^ e ≤ q) (h2 : q < 2 ^ (e + 1)) :
    floorLog2 q = e := by
  have hq : 0 < q := lt_of_lt_of_le (two_zpow_pos e) h1
  obtain ⟨b1, b2⟩ := floorLog2_bounds q hq
  have h3 : (2 : ℚ) ^ e < 2 ^ (floorLog2 q + 1) := lt_of_le_of_lt h1 b2
  have h4 : (2 : ℚ) ^ floorLog2 q < 2 ^ (e + 1) := lt_of_le_of_lt b1 h2
  rw [zpow_lt_zpow_iff_right₀ (by norm_num)] at h3 h4
  omega

theorem floorLog2_mono (p q : ℚ) (hp : 0 < p) (h : p ≤ q) : floorLog2 p ≤ floorLog2 q := by
  obtain ⟨b1, -⟩ := floorLog2_bounds p hp
  obtain ⟨-, b2⟩ := floorLog2_bounds q (lt_of_lt_of_le hp h)
  have h3 : (2 : ℚ) ^ floorLog2 p < 2 ^ (floorLog2 q + 1) :=
    lt_of_le_of_lt (le_trans b1 h) b2
  rw [zpow_lt_zpow_iff_right₀ (by norm_num)] at h3
  omega

theorem floor_le_roundHalfEven (r : ℚ) : ⌊r⌋ ≤ roundHalfEven r := by
  unfold roundHalfEven
  split_ifs <;> omega

theorem roundHalfEven_le_floor_add_one (r : ℚ) : roundHalfEven r ≤ ⌊r⌋ + 1 := by
  unfold roundHalfEven
  split_ifs <;> omega

theorem roundHalfEven_intCast (n : ℤ) : roundHalfEven (n : ℚ) = n := by
  unfold roundHalfEven
  simp

theorem roundHalfEven_mono {r s : ℚ} (h : r ≤ s) : roundHalfEven r ≤ roundHalfEven s := by
  rcases lt_or_eq_of_le (Int.floor_mono h) with hlt | heq
  · calc roundHalfEven r ≤ ⌊r⌋ + 1 := roundHalfEven_le_floor_add_one r
      _ ≤ ⌊s⌋ := hlt
      _ ≤ roundHalfEven s := floor_le_roundHalfEven s
  · unfold roundHalfEven
    rw [← heq]
    split_ifs <;> first | omega | (exfalso; linarith)

theorem abs_roundHalfEven_sub_le (r : ℚ) : |(roundHalfEven r : ℚ) - r| ≤ 1 / 2 := by
  have h1 := Int.floor_le r
  have h2 := Int.lt_floor_add_one r
  unfold roundHalfEven
  rw [abs_le]
  split_ifs <;> push_cast <;> constructor <;> linarith

theorem roundToDouble_zero : roundToDouble 0 = 0 := by simp [roundToDouble]

theorem roundToDouble_of_ne (q : ℚ) (h : q ≠ 0) :
    roundToDouble q =
      roundHalfEven (q / 2 ^ (floorLog2 |q| - 52)) * 2 ^ (floorLog2 |q| - 52) := by
  simp [roundToDouble, h]

/-- A positive number rounds into the binade it lies in. -/
theorem roundToDouble_pos_bounds (q : ℚ) (hq : 0 < q) :
    (2 : ℚ) ^ floorLog2 q ≤ roundToDouble q ∧ roundToDouble q ≤ 2 ^ (floorLog2 q + 1) := by
  obtain ⟨b1, b2⟩ := floorLog2_bounds q hq
  rw [roundToDouble_of_ne q (ne_of_gt hq), abs_of_pos hq]
  have hu := two_zpow_pos (floorLog2 q - 52)
  have e1 : (2 : ℚ) ^ floorLog2 q = ((2 ^ 52 : ℤ) : ℚ) * 2 ^ (floorLog2 q - 52) := by
    rw [show floorLog2 q = 52 + (floorLog2 q - 52) by ring, zpow_add₀ (by norm_num)]
    norm_num
  have e2 : (2 : ℚ) ^ (floorLog2 q + 1) = ((2 ^ 53 : ℤ) : ℚ) * 2 ^ (floorLog2 q - 52) := by
    rw [show floorLog2 q + 1 = 53 + (floorLog2 q - 52) by ring, zpow_add₀ (by norm_num)]
    norm_num
  constructor
  · rw [e1]
    apply mul_le_mul_of_nonneg_right _ (le_of_lt hu)
    have : ((2 ^ 52 : ℤ) : ℚ) ≤ q / 2 ^ (floorLog2 q - 52) := by
      rw [le_div_iff₀ hu, ← e1]
      exact b1
    have hm := roundHalfEven_mono this
    rw [roundHalfEven_intCast] at hm
    exact_mod_cast hm
  · rw [e2]
    apply mul_le_mul_of_nonneg_right _ (le_of_lt hu)
    have : q / 2 ^ (floorLog2 q - 52) ≤ ((2 ^ 53 : ℤ) : ℚ) := by
      rw [div_le_iff₀ hu, ← e2]
      exact le_of_lt b2
    have hm := roundHalfEven_mono this
    rw [roundHalfEven_intCast] at hm
    exact_mod_cast hm

/-- A negative number rounds into the binade it lies in. -/
theorem roundToDouble_neg_bounds (q : ℚ) (hq : q < 0) :
    -(2 : ℚ) ^ (floorLog2 (-q) + 1) ≤ roundToDouble q ∧
      roundToDouble q ≤ -(2 : ℚ) ^ floorLog2 (-q) := by
  obtain ⟨b1, b2⟩ := floorLog2_bounds (-q) (by linarith)
  rw [roundToDouble_of_ne q (ne_of_lt hq), abs_of_neg hq]
  have hu := two_zpow_pos (floorLog2 (-q) - 52)
  have e1 : (2 : ℚ) ^ floorLog2 (-q) = ((2 ^ 52 : ℤ) : ℚ) * 2 ^ (floorLog2 (-q) - 52) := by
    rw [show floorLog2 (-q) = 52 + (floorLog2 (-q) - 52) by ring, zpow_add₀ (by norm_num)]
    norm_num
  have e2 : (2 : ℚ) ^ (floorLog2 (-q) + 1) =
      ((2 ^ 53 : ℤ) : ℚ) * 2 ^ (floorLog2 (-q) - 52) := by
    rw [show floorLog2 (-q) + 1 = 53 + (floorLog2 (-q) - 52) by ring, zpow_add₀ (by norm_num)]
    norm_num
  constructor
  · rw [e2, ← neg_mul]
    apply mul_le_mul_of_nonneg_right _ (le_of_lt hu)
    have : ((-(2 ^ 53) : ℤ) : ℚ) ≤ q / 2 ^ (floorLog2 (-q) - 52) := by
      rw [le_div_iff₀ hu]
      push_cast
      rw [neg_mul]
      have := e2
      push_cast at this
      rw [← this]
      linarith
    have hm := roundHalfEven_mono this
    rw [roundHalfEven_intCast] at hm
    exact_mod_cast hm
  · rw [e1, ← neg_mul]
    apply mul_le_mul_of_nonneg_right _ (le_of_lt hu)
    have : q / 2 ^ (floorLog2 (-q) - 52) ≤ ((-(2 ^ 52) : ℤ) : ℚ) := by
      rw [div_le_iff₀ hu]
      push_cast
      rw [neg_mul]
      have := e1
      push_cast at this
      rw [← this]
      linarith
    have hm := roundHalfEven_mono this
    rw [roundHalfEven_intCast] at hm
    exact_mod_cast hm

theorem roundToDouble_pos (q : ℚ) (hq : 0 < q) : 0 < roundToDouble q :=
  lt_of_lt_of_le (two_zpow_pos _) (roundToDouble_pos_bounds q hq).1

theorem roundToDouble_neg (q : ℚ) (hq : q < 0) : roundToDouble q < 0 := by
  have := (roundToDouble_neg_bounds q hq).2
  have := two_zpow_pos (floorLog2 (-q))
  linarith

/-- Rounding to a double is monotone. -/
theorem roundToDouble_mono {p q : ℚ} (h : p ≤ q) : roundToDouble p ≤ roundToDouble q := by
  rcases lt_trichotomy p 0 with hp | hp | hp
  · rcases lt_trichotomy q 0 with hq | hq | hq
    · -- both negative
      have hle : floorLog2 (-q) ≤ floorLog2 (-p) :=
        floorLog2_mono (-q) (-p) (by linarith) (by linarith)
      rcases lt_or_eq_of_le hle with hlt | heq
      · have h1 := (roundToDouble_neg_bounds p hp).2
        have h2 := (roundToDouble_neg_bounds q hq).1
        have h3 : (2 : ℚ) ^ (floorLog2 (-q) + 1) ≤ 2 ^ floorLog2 (-p) :=
          zpow_le_zpow_right₀ (by norm_num) (by omega)
        linarith
      · rw [roundToDouble_of_ne p (ne_of_lt hp), roundToDouble_of_ne q (ne_of_lt hq),
          abs_of_neg hp, abs_of_neg hq, heq]
        have hu := two_zpow_pos (floorLog2 (-p) - 52)
        apply mul_le_mul_of_nonneg_right _ (le_of_lt hu)
        exact_mod_cast roundHalfEven_mono (div_le_div_of_nonneg_right h (le_of_lt hu))
    · subst hq
      rw [roundToDouble_zero]
      exact le_of_lt (roundToDouble_neg p hp)
    · exact le_of_lt (lt_trans (roundToDouble_neg p hp) (roundToDouble_pos q hq))
  · subst hp
    rw [roundToDouble_zero]
    rcases lt_or_eq_of_le h with hq | hq
    · exact le_of_lt (roundToDouble_pos q hq)
    · rw [← hq, roundToDouble_zero]
  · have hq : 0 < q := lt_of_lt_of_le hp h
    have hle : floorLog2 p ≤ floorLog2 q := floorLog2_mono p q hp h
    rcases lt_or_eq_of_le hle with hlt | heq
    · have h1 := (roundToDouble_pos_bounds p hp).2
      have h2 := (roundToDouble_pos_bounds q hq).1
      have h3 : (2 : ℚ) ^ (floorLog2 p + 1) ≤ 2 ^ floorLog2 q :=
        zpow_le_zpow_right₀ (by norm_num) (by omega)
      linarith
    · rw [roundToDouble_of_ne p (ne_of_gt hp), roundToDouble_of_ne q (ne_of_gt hq),
        abs_of_pos hp, abs_of_pos hq, heq]
      have hu := two_zpow_pos (floorLog2 q - 52)
      apply mul_le_mul_of_nonneg_right _ (le_of_lt hu)
      exact_mod_cast roundHalfEven_mono (div_le_div_of_nonneg_right h (le_of_lt hu))

/-- The rounding error is at most `2^-53` times the number. -/
theorem abs_roundToDouble_sub_le (q : ℚ) : |roundToDouble q - q| ≤ |q| * 2 ^ (-53 : ℤ) := by
  by_cases hq : q = 0
  · subst hq
    simp [roundToDouble_zero]
  · have habs : 0 < |q| := abs_pos.mpr hq
    obtain ⟨b1, -⟩ := floorLog2_bounds |q| habs
    rw [roundToDouble_of_ne q hq]
    set t := floorLog2 |q| - 52 with ht
    have hu := two_zpow_pos t
    have herr := abs_roundHalfEven_sub_le (q / 2 ^ t)
    have e : (roundHalfEven (q / 2 ^ t) : ℚ) * 2 ^ t - q =
        ((roundHalfEven (q / 2 ^ t) : ℚ) - q / 2 ^ t) * 2 ^ t := by
      field_simp
    rw [e, abs_mul, abs_of_pos hu]
    have h53 : (2 : ℚ) ^ t = 2 ^ floorLog2 |q| * 2 ^ (-53 : ℤ) * 2 := by
      rw [ht, show floorLog2 |q| - 52 = floorLog2 |q| + (-53) + 1 by ring,
        zpow_add₀ (by norm_num), zpow_add₀ (by norm_num)]
      norm_num
    have h53pos : (0 : ℚ) < 2 ^ (-53 : ℤ) := two_zpow_pos _
    calc |(roundHalfEven (q / 2 ^ t) : ℚ) - q / 2 ^ t| * 2 ^ t
        ≤ 1 / 2 * 2 ^ t := mul_le_mul_of_nonneg_right herr (le_of_lt hu)
      _ = 2 ^ floorLog2 |q| * 2 ^ (-53 : ℤ) := by rw [h53]; ring
      _ ≤ |q| * 2 ^ (-53 : ℤ) := mul_le_mul_of_nonneg_right b1 (le_of_lt h53pos)

/-- An integer of at most 53 bits is a double. -/
theorem roundToDouble_intCast (n : ℤ) (h : |n| ≤ 2 ^ 53) : roundToDouble (n : ℚ) = n := by
  by_cases hn : n = 0
  · subst hn
    simp [roundToDouble_zero]
  · have hq : (n : ℚ) ≠ 0 := by exact_mod_cast hn
    have habs : 0 < |(n : ℚ)| := abs_pos.mpr hq
    obtain ⟨b1, b2⟩ := floorLog2_bounds |(n : ℚ)| habs
    have hle : |(n : ℚ)| ≤ 2 ^ (53 : ℤ) := by
      have h1 : ((|n| : ℤ) : ℚ) ≤ ((2 ^ 53 : ℤ) : ℚ) := by exact_mod_cast h
      rw [Int.cast_abs] at h1
      calc |(n : ℚ)| ≤ ((2 ^ 53 : ℤ) : ℚ) := h1
        _ = 2 ^ (53 : ℤ) := by norm_num
    have he : floorLog2 |(n : ℚ)| ≤ 53 := by
      have := lt_of_le_of_lt (le_trans b1 hle) (by
        show (2 : ℚ) ^ (53 : ℤ) < 2 ^ ((53 : ℤ) + 1)
        norm_num)
      rw [zpow_lt_zpow_iff_right₀ (by norm_num)] at this
      omega
    rw [roundToDouble_of_ne _ hq]
    set e := floorLog2 |(n : ℚ)| with hedef
    have hu := two_zpow_pos (e - 52)
    have hint : ∃ k : ℤ, (n : ℚ) / 2 ^ (e - 52) = k := by
      rcases le_or_lt e 52 with h52 | h52
      · refine ⟨n * 2 ^ (52 - e).toNat, ?_⟩
        rw [div_eq_iff (ne_of_gt hu)]
        push_cast
        rw [mul_assoc, ← zpow_natCast, ← zpow_add₀ (by norm_num)]
        have : ((52 - e).toNat : ℤ) + (e - 52) = 0 := by
          rw [Int.toNat_of_nonneg (by omega)]
          ring
        rw [this]
        simp
      · have he53 : e = 53 := by omega
        have hn53 : |(n : ℚ)| = 2 ^ (53 : ℤ) := by
          apply le_antisymm hle
          rw [← he53]
          exact b1
        rcases abs_eq (by positivity : (0 : ℚ) ≤ 2 ^ (53 : ℤ)) |>.mp hn53 with h1 | h1
        · refine ⟨2 ^ 52, ?_⟩
          rw [h1, he53]
          norm_num
        · refine ⟨-2 ^ 52, ?_⟩
          rw [h1, he53]
          norm_num
    obtain ⟨k, hk⟩ := hint
    rw [hk, roundHalfEven_intCast, ← hk]
    field_simp

theorem roundToDouble_nonpos_iff (q : ℚ) : roundToDouble q ≤ 0 ↔ q ≤ 0 := by
  constructor
  · intro h
    by_contra hq
    exact absurd h (not_le.mpr (roundToDouble_pos q (lt_of_not_le hq)))
  · intro h
    have := roundToDouble_mono h
    rwa [roundToDouble_zero] at this

/-- A natural number below `2^53` is a double. -/
theorem roundToDouble_natCast (n : ℕ) (h : n ≤ 2 ^ 53) : roundToDouble (n : ℚ) = n := by
  have := roundToDouble_intCast (n : ℤ) (by
    rw [abs_of_nonneg (Int.natCast_nonneg n)]
    exact_mod_cast h)
  exact_mod_cast this

/-- A double is left unchanged by the rounding. -/
theorem roundToDouble_idem (q : ℚ) : roundToDouble (roundToDouble q) = roundToDouble q := by
  have key : ∀ p : ℚ, 0 < p → ∀ (n : ℤ) (e : ℤ), p = (n : ℚ) * 2 ^ (e - 52) →
      (2 : ℚ) ^ e ≤ p → p ≤ 2 ^ (e + 1) → roundToDouble p = p := by
    intro p hp n e hpn h1 h2
    have hu := two_zpow_pos (e - 52)
    rcases lt_or_eq_of_le h2 with hlt | heq
    · have he : floorLog2 p = e := floorLog2_eq p e h1 hlt
      rw [roundToDouble_of_ne p (ne_of_gt hp), abs_of_pos hp, he]
      have : p / 2 ^ (e - 52) = (n : ℚ) := by
        rw [hpn]
        field_simp
      rw [this, roundHalfEven_intCast, ← hpn]
    · have he : floorLog2 p = e + 1 := by
        apply floorLog2_eq p (e + 1) (le_of_eq heq.symm)
        rw [heq]
        exact (zpow_lt_zpow_iff_right₀ (by norm_num)).mpr (by omega)
      rw [roundToDouble_of_ne p (ne_of_gt hp), abs_of_pos hp, he]
      have hu' := two_zpow_pos (e + 1 - 52)
      have hsplit : (2 : ℚ) ^ (e + 1) = 4503599627370496 * 2 ^ (e + 1 - 52) := by
        have h52 : (2 : ℚ) ^ (e + 1) = 2 ^ (52 : ℤ) * 2 ^ (e + 1 - 52) := by
          rw [← zpow_add₀ (by norm_num : (2 : ℚ) ≠ 0)]
          congr 1
          ring
        rw [h52]
        norm_num
      have : p / 2 ^ (e + 1 - 52) = ((2 ^ 52 : ℤ) : ℚ) := by
        rw [heq, div_eq_iff (ne_of_gt hu'), hsplit]
        norm_num
      rw [this, roundHalfEven_intCast, ← this]
      field_simp
  rcases lt_trichotomy q 0 with hq | hq | hq
  · -- negative: apply the key fact to the opposite number
    have hneg := roundToDouble_neg q hq
    obtain ⟨b1, b2⟩ := roundToDouble_neg_bounds q hq
    set x := roundToDouble q with hx
    have hxdef := roundToDouble_of_ne q (ne_of_lt hq)
    rw [abs_of_neg hq] at hxdef
    have hu := two_zpow_pos (floorLog2 (-q) - 52)
    rcases lt_or_eq_of_le b1 with hlt | heq
    · have he : floorLog2 (-x) = floorLog2 (-q) :=
        floorLog2_eq (-x) _ (by linarith) (by linarith)
      rw [roundToDouble_of_ne x (ne_of_lt hneg), abs_of_neg hneg, he]
      have : x / 2 ^ (floorLog2 (-q) - 52) =
          (roundHalfEven (q / 2 ^ (floorLog2 (-q) - 52)) : ℚ) := by
        rw [hx, hxdef]
        field_simp
      rw [this, roundHalfEven_intCast, ← hxdef]
    · have he : floorLog2 (-x) = floorLog2 (-q) + 1 := by
        apply floorLog2_eq (-x) _ (by linarith)
        rw [← heq, neg_neg]
        exact (zpow_lt_zpow_iff_right₀ (by norm_num)).mpr (by omega)
      rw [roundToDouble_of_ne x (ne_of_lt hneg), abs_of_neg hneg, he]
      have hu' := two_zpow_pos (floorLog2 (-q) + 1 - 52)
      have hsplit : (2 : ℚ) ^ (floorLog2 (-q) + 1) =
          4503599627370496 * 2 ^ (floorLog2 (-q) + 1 - 52) := by
        have h52 : (2 : ℚ) ^ (floorLog2 (-q) + 1) =
            2 ^ (52 : ℤ) * 2 ^ (floorLog2 (-q) + 1 - 52) := by
          rw [← zpow_add₀ (by norm_num : (2 : ℚ) ≠ 0)]
          congr 1
          ring
        rw [h52]
        norm_num
      have : x / 2 ^ (floorLog2 (-q) + 1 - 52) = ((-(2 ^ 52) : ℤ) : ℚ) := by
        rw [← heq, div_eq_iff (ne_of_gt hu'), hsplit]
        norm_num
      rw [this, roundHalfEven_intCast, ← this]
      field_simp
  · subst hq
    rw [roundToDouble_zero, roundToDouble_zero]
  · obtain ⟨b1, b2⟩ := roundToDouble_pos_bounds q hq
    have hxdef := roundToDouble_of_ne q (ne_of_gt hq)
    rw [abs_of_pos hq] at hxdef
    exact key (roundToDouble q) (roundToDouble_pos q hq) _ (floorLog2 q) hxdef b1 b2

/-! ## Lemmas on numbers -/

theorem jsMin_num (a b : ℚ) : JsNum.min (JsNum.num a) (JsNum.num b) = JsNum.num (min a b) := by
  simp only [JsNum.min, JsNum.le]
  by_cases h : a ≤ b <;> simp [h]
  exact le_of_lt (lt_of_not_le h)

theorem jsMax_num (a b : ℚ) : JsNum.max (JsNum.num a) (JsNum.num b) = JsNum.num (max a b) := by
  simp only [JsNum.max, JsNum.le]
  by_cases h : a ≤ b <;> simp [h]
  exact le_of_lt (lt_of_not_le h)

theorem jsAdd_num (a b : ℚ) :
    JsNum.add (JsNum.num a) (JsNum.num b) = JsNum.num (roundToDouble (a + b)) := rfl

theorem jsMul_num (a b : ℚ) :
    JsNum.mul (JsNum.num a) (JsNum.num b) = JsNum.num (roundToDouble (a * b)) := rfl

theorem jsRound_num (q : ℚ) : JsNum.round (JsNum.num q) = JsNum.num ((⌊q + 1 / 2⌋ : ℤ) : ℚ) :=
  rfl

theorem jsMul_nan (x : JsNum) : JsNum.mul JsNum.nan x = JsNum.nan := by
  cases x <;> rfl

theorem jsAdd_nan_left (x : JsNum) : JsNum.add JsNum.nan x = JsNum.nan := by
  cases x <;> rfl

theorem jsAdd_nan_right (x : JsNum) : JsNum.add x JsNum.nan = JsNum.nan := by
  cases x <;> rfl

theorem jsMin_nan_right (x : JsNum) : JsNum.min x JsNum.nan = JsNum.nan := by
  cases x <;> rfl

theorem jsMax_nan_right (x : JsNum) : JsNum.max x JsNum.nan = JsNum.nan := by
  cases x <;> rfl

theorem jsDiv_ofNat (m n : ℕ) (h : n ≠ 0) :
    JsNum.div (JsNum.ofNat m) (JsNum.ofNat n) = JsNum.num (roundToDouble ((m : ℚ) / n)) := by
  simp [JsNum.div, JsNum.ofNat, h]

/-- Clamping to `[0, 100]` gives `NaN` (for `NaN` only) or a finite number of that interval. -/
theorem clamp_cases (x : JsNum) :
    JsNum.max (JsNum.ofNat 0) (JsNum.min (JsNum.ofNat 100) x) = JsNum.nan ∧ x = JsNum.nan ∨
    ∃ q : ℚ, JsNum.max (JsNum.ofNat 0) (JsNum.min (JsNum.ofNat 100) x) = JsNum.num q ∧
      0 ≤ q ∧ q ≤ 100 ∧
      (x = JsNum.negInf ∧ q = 0 ∨ x = JsNum.posInf ∧ q = 100 ∨
        ∃ y : ℚ, x = JsNum.num y ∧ q = max 0 (min 100 y)) := by
  cases x with
  | nan => left; exact ⟨rfl, rfl⟩
  | negInf =>
    right
    refine ⟨0, ?_, le_refl _, by norm_num, Or.inl ⟨rfl, rfl⟩⟩
    simp [JsNum.max, JsNum.min, JsNum.le, JsNum.ofNat]
  | posInf =>
    right
    refine ⟨100, ?_, by norm_num, le_refl _, Or.inr (Or.inl ⟨rfl, rfl⟩)⟩
    simp [JsNum.max, JsNum.min, JsNum.le, JsNum.ofNat]
  | num y =>
    right
    refine ⟨max 0 (min 100 y), ?_, le_max_left _ _, ?_, Or.inr (Or.inr ⟨y, rfl, rfl⟩)⟩
    · simp [JsNum.ofNat, jsMin_num, jsMax_num]
    · exact max_le (by norm_num) (min_le_left _ _)

/-- A threshold inside `[0, 100]` is reached by the clamped number exactly when the number itself
reaches it. -/
theorem le_clamp_iff (t y : ℚ) (h0 : 0 < t) (h100 : t ≤ 100) :
    t ≤ max 0 (min 100 y) ↔ t ≤ y := by
  constructor
  · intro h
    rcases le_max_iff.mp h with h | h
    · exact absurd h (not_le.mpr h0)
    · exact (le_min_iff.mp h).2
  · intro h
    exact le_max_of_le_right (le_min h100 h)

/-- The match level of a number is the tier of the number clamped to `[0, 100]`. -/
theorem getMatchLevel_clamp (x : JsNum) :
    getMatchLevel x = tierOf (JsNum.max (JsNum.ofNat 0) (JsNum.min (JsNum.ofNat 100) x)) := by
  rcases clamp_cases x with ⟨h, hx⟩ | ⟨q, h, -, -, hx⟩
  · rw [h, hx]; rfl
  · rw [h]
    rcases hx with ⟨hx, hq⟩ | ⟨hx, hq⟩ | ⟨y, hx, hq⟩
    · subst hx hq
      simp [getMatchLevel, tierOf, JsNum.ge, JsNum.le, MatchLevels.EXCELLENT.min,
        MatchLevels.GOOD.min, MatchLevels.FAIR.min]
      norm_num
    · subst hx hq
      simp [getMatchLevel, tierOf, JsNum.ge, JsNum.le, MatchLevels.EXCELLENT.min,
        MatchLevels.GOOD.min, MatchLevels.FAIR.min]
      norm_num
    · subst hx hq
      simp only [getMatchLevel, tierOf, JsNum.ge, JsNum.le, MatchLevels.EXCELLENT.min,
        MatchLevels.GOOD.min, MatchLevels.FAIR.min,
        le_clamp_iff 80 y (by norm_num) (by norm_num),
        le_clamp_iff 60 y (by norm_num) (by norm_num),
        le_clamp_iff 40 y (by norm_num) (by norm_num)]

/-! ## Lemmas on the AI matcher -/

theorem getAllRoleProfiles_length : getAllRoleProfiles.length = 10 := rfl

theorem chat_live (rt : JsRuntime) (svc : AIService) (s prompt : String)
    (hdemo : svc.demoMode = false) (hclient : svc.hasClient = true) :
    AIService.chat rt svc (Completion.text s) prompt = Except.ok s := by
  simp [AIService.chat, hdemo, hclient]

theorem chat_throws (rt : JsRuntime) (svc : AIService) (prompt : String)
    (hdemo : svc.demoMode = false) :
    ∃ e, AIService.chat rt svc Completion.throws prompt = Except.error e := by
  cases hc : svc.hasClient <;> simp [AIService.chat, hdemo, hc]

theorem chat_no_client (rt : JsRuntime) (svc : AIService) (api : Completion) (prompt : String)
    (hdemo : svc.demoMode = false) (hclient : svc.hasClient = false) :
    ∃ e, AIService.chat rt svc api prompt = Except.error e := by
  simp [AIService.chat, hdemo, hclient]

theorem chat_demo (rt : JsRuntime) (svc : AIService) (api : Completion) (prompt : String)
    (hdemo : svc.demoMode = true) :
    AIService.chat rt svc api prompt = Except.ok (generateMockChatResponse rt prompt) := by
  simp [AIService.chat, hdemo]

/-- The stub of the demo mode answers with one of its four canned sentences. -/
theorem generateMockChatResponse_mem (rt : JsRuntime) (userMessage : String) :
    ∃ entry ∈ mockResponses, generateMockChatResponse rt userMessage = entry.2 := by
  unfold generateMockChatResponse
  simp only []
  cases h : mockResponses.find? (fun entry => jsIncludes (rt.toLowerCase userMessage) entry.1) with
  | none =>
    simp only []
    exact ⟨mockResponses.getLast (by decide), List.getLast_mem _, by decide!⟩
  | some entry =>
    simp only []
    exact ⟨entry, List.mem_of_find?_eq_some h, rfl⟩

theorem calculateAIRoleMatch_of_throws (rt : JsRuntime) (svc : AIService) (prompt : String)
    (api : Completion) (userProfile : UserProfile) (roleProfile : RoleProfile)
    (h : ∃ e, AIService.chat rt svc api prompt = Except.error e) :
    calculateAIRoleMatch rt svc prompt api userProfile roleProfile =
      Except.ok (calculateRoleMatch rt userProfile roleProfile) := by
  obtain ⟨e, he⟩ := h
  simp only [calculateAIRoleMatch, aiAttempt, he]

theorem calculateAIRoleMatch_of_text (rt : JsRuntime) (svc : AIService) (prompt : String)
    (api : Completion) (userProfile : UserProfile) (roleProfile : RoleProfile) (s : String)
    (h : AIService.chat rt svc api prompt = Except.ok s) (hs : rt.jsonParse s = none) :
    calculateAIRoleMatch rt svc prompt api userProfile roleProfile =
      Except.ok (calculateRoleMatch rt userProfile roleProfile) := by
  simp only [calculateAIRoleMatch, aiAttempt, h, hs]

theorem calculateAIRoleMatch_accepted (rt : JsRuntime) (svc : AIService) (prompt : String)
    (api : Completion) (userProfile : UserProfile) (roleProfile : RoleProfile) (s : String)
    (v : JsVal) (x : JsNum) (hchat : AIService.chat rt svc api prompt = Except.ok s)
    (hparse : rt.jsonParse s = some v) (hnull : v ≠ JsVal.null) (hundef : v ≠ JsVal.undefined)
    (hscore : rt.toNumber (v.getProp "score") = some x) :
    calculateAIRoleMatch rt svc prompt api userProfile roleProfile =
      Except.ok (aiResult roleProfile v x) := by
  simp only [calculateAIRoleMatch, aiAttempt, hchat, hparse]
  cases v with
  | null => exact absurd rfl hnull
  | undefined => exact absurd rfl hundef
  | _ => simp only [hscore]

/-- The `try` block throws or builds its result from a parsed response. -/
theorem aiAttempt_cases (rt : JsRuntime) (svc : AIService) (prompt : String) (api : Completion)
    (roleProfile : RoleProfile) :
    (∃ e, aiAttempt rt svc prompt api roleProfile = Except.error e) ∨
      ∃ v x, aiAttempt rt svc prompt api roleProfile = Except.ok (aiResult roleProfile v x) := by
  unfold aiAttempt
  split
  · exact Or.inl ⟨_, rfl⟩
  · split
    · exact Or.inl ⟨_, rfl⟩
    · exact Or.inl ⟨_, rfl⟩
    · exact Or.inl ⟨_, rfl⟩
    · split
      · exact Or.inl ⟨_, rfl⟩
      · exact Or.inr ⟨_, _, rfl⟩

/-- The promise of `calculateAIRoleMatch` resolves, with the deterministic match or with a result
built from a parsed response. -/
theorem calculateAIRoleMatch_cases (rt : JsRuntime) (svc : AIService) (prompt : String)
    (api : Completion) (userProfile : UserProfile) (roleProfile : RoleProfile) :
    calculateAIRoleMatch rt svc prompt api userProfile roleProfile =
        Except.ok (calculateRoleMatch rt userProfile roleProfile) ∨
      ∃ v x, calculateAIRoleMatch rt svc prompt api userProfile roleProfile =
        Except.ok (aiResult roleProfile v x) := by
  unfold calculateAIRoleMatch
  rcases aiAttempt_cases rt svc prompt api roleProfile with ⟨e, h⟩ | ⟨v, x, h⟩ <;> rw [h]
  · exact Or.inl rfl
  · exact Or.inr ⟨v, x, rfl⟩

/-- The promise of `calculateAIRoleMatch` resolves with `perRoleMatch`. -/
theorem calculateAIRoleMatch_resolves (rt : JsRuntime) (svc : AIService)
    (buildPrompt : UserProfile → RoleProfile → String) (api : RoleProfile → Completion)
    (userProfile : UserProfile) (roleProfile : RoleProfile) :
    calculateAIRoleMatch rt svc (buildPrompt userProfile roleProfile) (api roleProfile)
        userProfile roleProfile =
      Except.ok (perRoleMatch rt svc buildPrompt api userProfile roleProfile) := by
  unfold perRoleMatch
  rcases calculateAIRoleMatch_cases rt svc (buildPrompt userProfile roleProfile)
    (api roleProfile) userProfile roleProfile with h | ⟨v, x, h⟩ <;> rw [h]

theorem perRoleMatch_cases (rt : JsRuntime) (svc : AIService)
    (buildPrompt : UserProfile → RoleProfile → String) (api : RoleProfile → Completion)
    (userProfile : UserProfile) (roleProfile : RoleProfile) :
    perRoleMatch rt svc buildPrompt api userProfile roleProfile =
        calculateRoleMatch rt userProfile roleProfile ∨
      ∃ v x, perRoleMatch rt svc buildPrompt api userProfile roleProfile =
        aiResult roleProfile v x := by
  unfold perRoleMatch
  rcases calculateAIRoleMatch_cases rt svc (buildPrompt userProfile roleProfile)
    (api roleProfile) userProfile roleProfile with h | ⟨v, x, h⟩ <;> rw [h]
  · exact Or.inl rfl
  · exact Or.inr ⟨v, x, rfl⟩

theorem perRoleMatch_roleId (rt : JsRuntime) (svc : AIService)
    (buildPrompt : UserProfile → RoleProfile → String) (api : RoleProfile → Completion)
    (userProfile : UserProfile) (roleProfile : RoleProfile) :
    (perRoleMatch rt svc buildPrompt api userProfile roleProfile).roleId = roleProfile.id := by
  rcases perRoleMatch_cases rt svc buildPrompt api userProfile roleProfile with h | ⟨v, x, h⟩ <;>
    rw [h] <;> rfl

/-- The score of a per-role result is `NaN` or a finite number of `[0, 100]`. -/
theorem perRoleMatch_score (rt : JsRuntime) (svc : AIService)
    (buildPrompt : UserProfile → RoleProfile → String) (api : RoleProfile → Completion)
    (userProfile : UserProfile) (roleProfile : RoleProfile) :
    (perRoleMatch rt svc buildPrompt api userProfile roleProfile).score = JsNum.nan ∨
      ∃ q : ℚ, (perRoleMatch rt svc buildPrompt api userProfile roleProfile).score =
        JsNum.num q ∧ 0 ≤ q ∧ q ≤ 100 := by
  rcases perRoleMatch_cases rt svc buildPrompt api userProfile roleProfile with h | ⟨v, x, h⟩
  · rw [h]
    simp only [calculateRoleMatch]
    rcases clamp_cases (JsNum.round ((JsNum.add (JsNum.add
      (JsNum.mul (calculateSkillMatch rt (allUserSkills userProfile) roleProfile.requiredSkills)
        (JsNum.ofLiteral (4 / 5)))
      (calculateBonusScore rt (allUserSkills userProfile) roleProfile.preferredSkills))
      (JsNum.ofInt (calculateExperienceAdjustment
        (mapExperienceLevel rt userProfile.experienceLevel) roleProfile.minExperienceLevel)))))
      with ⟨h1, _⟩ | ⟨q, h1, h2, h3, _⟩
    · exact Or.inl h1
    · exact Or.inr ⟨q, h1, h2, h3⟩
  · rw [h]
    simp only [aiResult]
    rcases clamp_cases x with ⟨h1, _⟩ | ⟨q, h1, h2, h3, _⟩
    · exact Or.inl h1
    · exact Or.inr ⟨q, h1, h2, h3⟩

/-- The function `Promise.all` on promises that all resolve gives their values. -/
theorem promiseAll_map_ok {α β : Type} (f : α → Except String β) (g : α → β) :
    ∀ l : List α, (∀ a ∈ l, f a = Except.ok (g a)) →
      promiseAll (l.map f) = Except.ok (l.map g)
  | [], _ => rfl
  | a :: l, h => by
    rw [List.map_cons, h a (List.mem_cons_self _ _), promiseAll,
      promiseAll_map_ok f g l (fun b hb => h b (List.mem_cons_of_mem _ hb))]
    rfl

/-- On a profile that is present every promise of the batch resolves, so the `catch` block of
`calculateAIRoleMatches` is not reached: the result is the first three of the sorted per-role
results. -/
theorem calculateAIRoleMatches_eq (rt : JsRuntime) (svc : AIService)
    (buildPrompt : UserProfile → RoleProfile → String) (api : RoleProfile → Completion)
    (userProfile : UserProfile) :
    calculateAIRoleMatches rt svc buildPrompt api (some userProfile) =
      Except.ok ((sortByScore (getAllRoleProfiles.map
        (perRoleMatch rt svc buildPrompt api userProfile))).take 3) := by
  simp only [calculateAIRoleMatches]
  rw [promiseAll_map_ok _ (perRoleMatch rt svc buildPrompt api userProfile) _
    (fun roleProfile _ => calculateAIRoleMatch_resolves rt svc buildPrompt api userProfile
      roleProfile)]

/-! ## Lemmas on the sort -/

theorem scoreOrder_num {a b : RoleMatchResult} {x y : ℚ} (ha : a.score = JsNum.num x)
    (hb : b.score = JsNum.num y) : scoreOrder a b ↔ y ≤ x := by
  simp only [scoreOrder, scoreComparator, JsNum.sub, JsNum.neg, JsNum.add, notAfter, JsNum.le,
    ha, hb, decide_eq_true_eq, roundToDouble_nonpos_iff]
  constructor <;> intro h <;> linarith

theorem sorted_orderedInsert_finite (a : RoleMatchResult) :
    ∀ l : List RoleMatchResult, (∃ q, a.score = JsNum.num q) →
      (∀ m ∈ l, ∃ q, m.score = JsNum.num q) → l.Sorted scoreOrder →
      (l.orderedInsert scoreOrder a).Sorted scoreOrder
  | [], _, _, _ => List.sorted_singleton a
  | b :: l, ha, hl, hs => by
    obtain ⟨x, hx⟩ := ha
    obtain ⟨y, hy⟩ := hl b (List.mem_cons_self _ _)
    by_cases hab : scoreOrder a b
    · rw [List.orderedInsert, if_pos hab, List.sorted_cons]
      refine ⟨?_, hs⟩
      intro c hc
      rcases List.mem_cons.mp hc with rfl | hc
      · exact hab
      · obtain ⟨z, hz⟩ := hl c (List.mem_cons_of_mem _ hc)
        have hbc := List.rel_of_sorted_cons hs c hc
        rw [scoreOrder_num hy hz] at hbc
        rw [scoreOrder_num hx hy] at hab
        rw [scoreOrder_num hx hz]
        exact le_trans hbc hab
    · rw [List.orderedInsert, if_neg hab, List.sorted_cons]
      refine ⟨?_, sorted_orderedInsert_finite a l ⟨x, hx⟩
        (fun m hm => hl m (List.mem_cons_of_mem _ hm)) hs.of_cons⟩
      intro c hc
      rcases (List.mem_orderedInsert scoreOrder).mp hc with rfl | hc
      · rw [scoreOrder_num hx hy] at hab
        rw [scoreOrder_num hy hx]
        exact le_of_lt (lt_of_not_le hab)
      · exact List.rel_of_sorted_cons hs c hc

/-- The insertion sort puts every list of results with finite scores in non-increasing score
order. -/
theorem sorted_insertionSort_finite :
    ∀ l : List RoleMatchResult, (∀ m ∈ l, ∃ q, m.score = JsNum.num q) →
      (l.insertionSort scoreOrder).Sorted scoreOrder
  | [], _ => List.sorted_nil
  | a :: l, h => by
    have ih := sorted_insertionSort_finite l (fun m hm => h m (List.mem_cons_of_mem _ hm))
    rw [List.insertionSort]
    refine sorted_orderedInsert_finite a _ (h a (List.mem_cons_self _ _)) ?_ ih
    intro m hm
    exact h m (List.mem_cons_of_mem _ ((List.mem_insertionSort scoreOrder).mp hm))

/-- On finite scores the sort is the stable insertion sort. -/
theorem sortByScore_of_finite (l : List RoleMatchResult)
    (h : ∀ m ∈ l, ∃ q, m.score = JsNum.num q) :
    sortByScore l = l.insertionSort scoreOrder := by
  unfold sortByScore
  rw [if_pos]
  rw [List.all_eq_true]
  intro m hm
  obtain ⟨q, hq⟩ := h m hm
  rw [hq]
  rfl

/-- The sort puts every list of results with finite scores in non-increasing score order. -/
theorem sorted_sortByScore (l : List RoleMatchResult)
    (h : ∀ m ∈ l, ∃ q, m.score = JsNum.num q) : (sortByScore l).Sorted scoreOrder := by
  rw [sortByScore_of_finite l h]
  exact sorted_insertionSort_finite l h

theorem eq_take_append_cons_drop {α : Type} :
    ∀ (l : List α) (n : ℕ) (a : α), l.get? n = some a → l = l.take n ++ a :: l.drop (n + 1)
  | [], n, a, h => by simp at h
  | b :: l, 0, a, h => by
    simp at h
    simp [h]
  | b :: l, n + 1, a, h => by
    have ih := eq_take_append_cons_drop l n a (by simpa using h)
    simp only [List.take_succ_cons, List.drop_succ_cons, List.cons_append]
    rw [← ih]

/-- The binary insertion sort of the engine rearranges the array. -/
theorem perm_binaryInsertionSort :
    ∀ (count : ℕ) (work : List RoleMatchResult) (start : ℕ),
      List.Perm (binaryInsertionSort work start count) work
  | 0, work, start => by
    rw [binaryInsertionSort]
  | count + 1, work, start => by
    rw [binaryInsertionSort]
    cases h : work.get? start with
    | none => exact List.Perm.refl _
    | some pivot =>
      simp only []
      refine (perm_binaryInsertionSort count _ (start + 1)).trans ?_
      have hw := eq_take_append_cons_drop work start pivot h
      have h1 : List.Perm
          ((work.take start).take (insertionPoint work pivot start 0 start) ++
            pivot :: (work.take start).drop (insertionPoint work pivot start 0 start))
          (pivot :: work.take start) := by
        refine List.perm_middle.trans ?_
        rw [List.take_append_drop]
      have h2 : List.Perm (pivot :: work.take start ++ work.drop (start + 1)) work := by
        have : List.Perm (work.take start ++ pivot :: work.drop (start + 1))
            (pivot :: (work.take start ++ work.drop (start + 1))) := List.perm_middle
        rw [← hw] at this
        exact this.symm
      exact (List.Perm.append_right _ h1).trans h2

theorem perm_countAndMakeRun (l : List RoleMatchResult) : List.Perm (countAndMakeRun l).1 l := by
  unfold countAndMakeRun
  split
  · simp only []
    split_ifs
    · simp only []
      refine (List.Perm.append_right _ (List.reverse_perm _)).trans ?_
      rw [List.take_append_drop]
    · exact List.Perm.refl _
  · exact List.Perm.refl _

/-- The sort of the engine rearranges the array. -/
theorem perm_engineSort (l : List RoleMatchResult) : List.Perm (engineSort l) l := by
  unfold engineSort
  split_ifs
  · exact List.Perm.refl _
  · exact (perm_binaryInsertionSort _ _ _).trans (perm_countAndMakeRun l)

/-- The sort rearranges the array, whatever the scores are. -/
theorem perm_sortByScore (l : List RoleMatchResult) : List.Perm (sortByScore l) l := by
  unfold sortByScore
  split_ifs
  · exact List.perm_insertionSort scoreOrder l
  · exact perm_engineSort l

theorem length_sortByScore (l : List RoleMatchResult) : (sortByScore l).length = l.length :=
  (perm_sortByScore l).length_eq

theorem mem_sortByScore {l : List RoleMatchResult} {m : RoleMatchResult} :
    m ∈ sortByScore l ↔ m ∈ l :=
  (perm_sortByScore l).mem_iff

/-! ## Lemmas on the deterministic score -/

/-- The rounding error of a number that is at most `B` in absolute value is at most
`B * 2^-53`. -/
theorem roundToDouble_close (q B : ℚ) (h : |q| ≤ B) :
    |roundToDouble q - q| ≤ B * (1 / 9007199254740992) := by
  have h1 := abs_roundToDouble_sub_le q
  have e : (2 : ℚ) ^ (-53 : ℤ) = 1 / 9007199254740992 := by norm_num
  rw [e] at h1
  calc |roundToDouble q - q| ≤ |q| * (1 / 9007199254740992) := h1
    _ ≤ B * (1 / 9007199254740992) := mul_le_mul_of_nonneg_right h (by norm_num)

/-- Rounding half up is not changed by an error below one tenth when ten times the number plus
five is an odd integer. -/
theorem roundHalfUp_stable (n : ℤ) (x : ℚ) (h : |x - (n : ℚ) / 5| < 1 / 10) :
    roundHalfUp x = roundHalfUp ((n : ℚ) / 5) := by
  have hdiv := Int.emod_add_ediv (2 * n + 5) 10
  have hmod1 := Int.emod_nonneg (2 * n + 5) (by norm_num : (10 : ℤ) ≠ 0)
  have hmod2 := Int.emod_lt_of_pos (2 * n + 5) (by norm_num : (0 : ℤ) < 10)
  have hodd : (2 * n + 5) % 10 ≠ 0 := by omega
  have hlo : 1 ≤ (2 * n + 5) % 10 := by omega
  have hhi : (2 * n + 5) % 10 ≤ 9 := by omega
  have hz : (n : ℚ) / 5 + 1 / 2 =
      (((2 * n + 5) / 10 : ℤ) : ℚ) + (((2 * n + 5) % 10 : ℤ) : ℚ) / 10 := by
    have : ((2 * n + 5 : ℤ) : ℚ) =
        (((2 * n + 5) % 10 : ℤ) : ℚ) + 10 * (((2 * n + 5) / 10 : ℤ) : ℚ) := by
      exact_mod_cast hdiv.symm
    push_cast at this
    linarith
  have hlo' : (1 : ℚ) ≤ (((2 * n + 5) % 10 : ℤ) : ℚ) := by exact_mod_cast hlo
  have hhi' : (((2 * n + 5) % 10 : ℤ) : ℚ) ≤ 9 := by exact_mod_cast hhi
  obtain ⟨h1, h2⟩ := abs_lt.mp h
  have e1 : roundHalfUp ((n : ℚ) / 5) = (2 * n + 5) / 10 := by
    unfold roundHalfUp
    rw [Int.floor_eq_iff]
    constructor <;> linarith
  have e2 : roundHalfUp x = (2 * n + 5) / 10 := by
    unfold roundHalfUp
    rw [Int.floor_eq_iff]
    constructor <;> linarith
  rw [e1, e2]

/-- For a percentage, a bonus and an adjustment that are integers of their ranges the double sum
rounds to the same integer as the exact sum. -/
theorem roundHalfUp_doubleScoreSum (c b a : ℤ) (hc0 : 0 ≤ c) (hc : c ≤ 100) (hb0 : 0 ≤ b)
    (hb : b ≤ 20) (ha0 : -10 ≤ a) (ha : a ≤ 10) :
    roundHalfUp (doubleScoreSum c b a) = roundHalfUp (4 / 5 * c + b + a) := by
  have hc0' : (0 : ℚ) ≤ c := by exact_mod_cast hc0
  have hc' : (c : ℚ) ≤ 100 := by exact_mod_cast hc
  have hb0' : (0 : ℚ) ≤ b := by exact_mod_cast hb0
  have hb' : (b : ℚ) ≤ 20 := by exact_mod_cast hb
  have ha0' : (-10 : ℚ) ≤ a := by exact_mod_cast ha0
  have ha' : (a : ℚ) ≤ 10 := by exact_mod_cast ha
  have hk := abs_le.mp (roundToDouble_close (4 / 5) 1 (by rw [abs_of_pos] <;> norm_num))
  set k := roundToDouble (4 / 5) with hkdef
  have hck : |(c : ℚ) * k| ≤ 101 := by
    rw [abs_le]
    constructor <;> nlinarith [hk.1, hk.2]
  have h1 := abs_le.mp (roundToDouble_close ((c : ℚ) * k) 101 hck)
  set x1 := roundToDouble ((c : ℚ) * k) with hx1
  have hx1b : |x1 + (b : ℚ)| ≤ 122 := by
    rw [abs_le]
    obtain ⟨l1, l2⟩ := abs_le.mp hck
    constructor <;> linarith [h1.1, h1.2]
  have h2 := abs_le.mp (roundToDouble_close (x1 + b) 122 hx1b)
  set x2 := roundToDouble (x1 + (b : ℚ)) with hx2
  have hx2b : |x2 + (a : ℚ)| ≤ 133 := by
    rw [abs_le]
    obtain ⟨l1, l2⟩ := abs_le.mp hx1b
    constructor <;> linarith [h2.1, h2.2]
  have h3 := abs_le.mp (roundToDouble_close (x2 + a) 133 hx2b)
  have hsum : (4 / 5 * (c : ℚ) + b + a) = ((4 * c + 5 * b + 5 * a : ℤ) : ℚ) / 5 := by
    push_cast
    ring
  rw [hsum]
  apply roundHalfUp_stable
  rw [← hsum, abs_lt]
  unfold doubleScoreSum
  rw [← hkdef, ← hx1, ← hx2]
  have hck2 : (c : ℚ) * k - 4 / 5 * c ≤ 100 * (1 * (1 / 9007199254740992)) ∧
      -(100 * (1 * (1 / 9007199254740992))) ≤ (c : ℚ) * k - 4 / 5 * c := by
    constructor <;> nlinarith [hk.1, hk.2]
  constructor <;> linarith [h1.1, h1.2, h2.1, h2.2, h3.1, h3.2, hck2.1, hck2.2]

/-- The double `(m / n) * w` of a share lies between 0 and the weight. -/
theorem doubleShare_bounds (m n w : ℕ) (hw : w ≤ 2 ^ 53) (hmn : m ≤ n) (hn : n ≠ 0) :
    0 ≤ doubleShare m n w ∧ doubleShare m n w ≤ w := by
  have hn0 : (0 : ℚ) < n := by exact_mod_cast Nat.pos_of_ne_zero hn
  have hm : (m : ℚ) ≤ n := by exact_mod_cast hmn
  have hq0 : (0 : ℚ) ≤ (m : ℚ) / n := by positivity
  have hq1 : (m : ℚ) / n ≤ 1 := by
    rw [div_le_iff₀ hn0]
    linarith
  have h0 := roundToDouble_mono hq0
  have h1 := roundToDouble_mono hq1
  rw [roundToDouble_zero] at h0
  have e1 : roundToDouble 1 = 1 := by
    have := roundToDouble_natCast 1 (by norm_num)
    simpa using this
  rw [e1] at h1
  have hw0 : (0 : ℚ) ≤ w := Nat.cast_nonneg w
  unfold doubleShare
  constructor
  · have := roundToDouble_mono (mul_nonneg h0 hw0)
    rwa [roundToDouble_zero] at this
  · have := roundToDouble_mono (show roundToDouble ((m : ℚ) / n) * w ≤ (w : ℚ) by
      calc roundToDouble ((m : ℚ) / n) * w ≤ 1 * w := mul_le_mul_of_nonneg_right h1 hw0
        _ = w := one_mul _)
    rwa [roundToDouble_natCast w hw] at this

/-- The double `(m / n) * w` is within `w * 2^-51` of the exact share. -/
theorem doubleShare_close (m n w : ℕ) (hmn : m ≤ n) (hn : n ≠ 0) :
    |doubleShare m n w - (w : ℚ) * m / n| ≤ (w : ℚ) * (1 / 2251799813685248) := by
  have hn0 : (0 : ℚ) < n := by exact_mod_cast Nat.pos_of_ne_zero hn
  have hm : (m : ℚ) ≤ n := by exact_mod_cast hmn
  have hq0 : (0 : ℚ) ≤ (m : ℚ) / n := by positivity
  have hq1 : (m : ℚ) / n ≤ 1 := by
    rw [div_le_iff₀ hn0]
    linarith
  have hw0 : (0 : ℚ) ≤ w := Nat.cast_nonneg w
  have h1 := abs_le.mp (roundToDouble_close ((m : ℚ) / n) 1 (by
    rw [abs_of_nonneg hq0]
    exact hq1))
  set x := roundToDouble ((m : ℚ) / n) with hx
  have hxw : |x * (w : ℚ)| ≤ 2 * w := by
    rw [abs_le]
    constructor <;> nlinarith [h1.1, h1.2]
  have h2 := abs_le.mp (roundToDouble_close (x * w) (2 * w) hxw)
  unfold doubleShare
  rw [← hx, abs_le]
  have e : (w : ℚ) * m / n = (m : ℚ) / n * w := by ring
  rw [e]
  constructor <;> nlinarith [h1.1, h1.2, h2.1, h2.2]

theorem roundHalfUp_mono {a b : ℚ} (h : a ≤ b) : roundHalfUp a ≤ roundHalfUp b := by
  unfold roundHalfUp
  exact Int.floor_le_floor (by linarith)

theorem roundHalfUp_intCast (n : ℤ) : roundHalfUp (n : ℚ) = n := by
  unfold roundHalfUp
  rw [Int.floor_eq_iff]
  constructor <;> linarith

/-- The rounded double share is an integer between 0 and the weight, within a half and the
rounding error of the exact share. -/
theorem roundHalfUp_doubleShare (m n w : ℕ) (hw : w ≤ 2 ^ 53) (hmn : m ≤ n) (hn : n ≠ 0) :
    0 ≤ roundHalfUp (doubleShare m n w) ∧ roundHalfUp (doubleShare m n w) ≤ w ∧
      |(roundHalfUp (doubleShare m n w) : ℚ) - (w : ℚ) * m / n| ≤
        1 / 2 + (w : ℚ) * (1 / 2251799813685248) := by
  obtain ⟨h0, h1⟩ := doubleShare_bounds m n w hw hmn hn
  have hc := abs_le.mp (doubleShare_close m n w hmn hn)
  refine ⟨?_, ?_, ?_⟩
  · have := roundHalfUp_mono h0
    rwa [show (0 : ℚ) = ((0 : ℤ) : ℚ) by norm_num, roundHalfUp_intCast] at this
  · have := roundHalfUp_mono h1
    rw [show (w : ℚ) = ((w : ℤ) : ℚ) by norm_num, roundHalfUp_intCast] at this
    exact this
  · have hf1 := Int.floor_le (doubleShare m n w + 1 / 2)
    have hf2 := Int.lt_floor_add_one (doubleShare m n w + 1 / 2)
    unfold roundHalfUp
    rw [abs_le]
    constructor <;> linarith [hc.1, hc.2]


theorem uniqueFrom_ne_nil (seen : List String) (x : String) (xs : List String)
    (h : x ∉ seen) : uniqueFrom seen (x :: xs) ≠ [] := by
  simp [uniqueFrom, h]

/-- A non-empty string is never dropped by `normalizeSkill`. -/
theorem normalizeSkill_isSome (rt : JsRuntime) (s : String) (h : s ≠ "") :
    (normalizeSkill rt (JsVal.str s)).isSome = true := by
  simp only [normalizeSkill, if_neg h]
  split
  · rfl
  · split <;> rfl

theorem filterMap_normalizeSkill_ne_nil (rt : JsRuntime) :
    ∀ l : List String, (∃ s ∈ l, s ≠ "") →
      (l.map JsVal.str).filterMap (normalizeSkill rt) ≠ []
  | [], h => by
    obtain ⟨s, hs, -⟩ := h
    exact absurd hs (List.not_mem_nil s)
  | a :: l, h => by
    by_cases ha : a = ""
    · obtain ⟨s, hs, hne⟩ := h
      have hl : ∃ s ∈ l, s ≠ "" := by
        rcases List.mem_cons.mp hs with rfl | hs
        · exact absurd ha hne
        · exact ⟨s, hs, hne⟩
      have ih := filterMap_normalizeSkill_ne_nil rt l hl
      subst ha
      simpa [normalizeSkill] using ih
    · obtain ⟨y, hy⟩ := Option.isSome_iff_exists.mp (normalizeSkill_isSome rt a ha)
      simp [List.filterMap_cons, hy]

/-- A skill list with an entry that is not the empty string keeps an entry after
normalization. -/
theorem normalizedLower_ne_nil (rt : JsRuntime) (l : List String) (h : ∃ s ∈ l, s ≠ "") :
    normalizedLower rt l ≠ [] := by
  have hne := filterMap_normalizeSkill_ne_nil rt l h
  unfold normalizedLower normalizeSkills JsVal.strArr unique
  simp only []
  cases hfm : (l.map JsVal.str).filterMap (normalizeSkill rt) with
  | nil => exact absurd hfm hne
  | cons x xs => simp [uniqueFrom]

theorem normalizedLower_nil (rt : JsRuntime) : normalizedLower rt [] = [] := rfl

/-- The skill match on a required list that keeps an entry after normalization is the rounded
percentage, in double arithmetic, of its normalized skills that are in the pool. -/
theorem calculateSkillMatch_num (rt : JsRuntime) (userSkills requiredSkills : List String)
    (h : normalizedLower rt requiredSkills ≠ []) :
    calculateSkillMatch rt userSkills requiredSkills =
      JsNum.num (matchPercent
        ((normalizedLower rt requiredSkills).filter (fun skill =>
          (normalizedLower rt userSkills).contains skill)).length
        (normalizedLower rt requiredSkills).length) := by
  have hne : requiredSkills.length ≠ 0 := by
    intro h0
    apply h
    rw [List.length_eq_zero.mp h0]
    rfl
  have hn : (normalizedLower rt requiredSkills).length ≠ 0 := by simpa using h
  simp only [calculateSkillMatch, if_neg hne]
  rw [jsDiv_ofNat _ _ hn]
  simp only [JsNum.ofNat, jsMul_num, jsRound_num, matchPercent, doubleShare, roundHalfUp,
    Nat.cast_ofNat]

/-- The bonus on a preferred list that keeps an entry after normalization is the rounded double
share of 20 points, capped at 20. -/
theorem calculateBonusScore_value (rt : JsRuntime) (userSkills preferredSkills : List String)
    (h : normalizedLower rt preferredSkills ≠ []) :
    calculateBonusScore rt userSkills preferredSkills =
      JsNum.num (min 20 (roundHalfUp (doubleShare
        ((normalizedLower rt preferredSkills).filter (fun skill =>
          (normalizedLower rt userSkills).contains skill)).length
        (normalizedLower rt preferredSkills).length 20))) := by
  have hne : preferredSkills.length ≠ 0 := by
    intro h0
    apply h
    rw [List.length_eq_zero.mp h0]
    rfl
  have hn : (normalizedLower rt preferredSkills).length ≠ 0 := by simpa using h
  simp only [calculateBonusScore, if_neg hne]
  rw [jsDiv_ofNat _ _ hn]
  simp only [JsNum.ofNat, jsMul_num, jsRound_num, jsMin_num, doubleShare, roundHalfUp,
    Nat.cast_ofNat]

/-- The skill match is `NaN` or an integer between 0 and 100. -/
theorem calculateSkillMatch_cases (rt : JsRuntime) (userSkills requiredSkills : List String) :
    calculateSkillMatch rt userSkills requiredSkills = JsNum.nan ∨
      ∃ c : ℤ, calculateSkillMatch rt userSkills requiredSkills = JsNum.num c ∧
        0 ≤ c ∧ c ≤ 100 := by
  by_cases h0 : requiredSkills.length = 0
  · exact Or.inr ⟨100, by simp [calculateSkillMatch, h0, JsNum.ofNat], by norm_num, by norm_num⟩
  · by_cases hn : normalizedLower rt requiredSkills = []
    · left
      simp [calculateSkillMatch, h0, hn, JsNum.ofNat, JsNum.div, JsNum.infTimes, JsNum.mul,
        JsNum.round]
    · right
      obtain ⟨b0, b1, -⟩ := roundHalfUp_doubleShare
        ((normalizedLower rt requiredSkills).filter (fun skill =>
          (normalizedLower rt userSkills).contains skill)).length
        (normalizedLower rt requiredSkills).length 100 (by norm_num)
        (List.length_filter_le _ _) (by simpa using hn)
      exact ⟨_, calculateSkillMatch_num rt userSkills requiredSkills hn, b0,
        by exact_mod_cast b1⟩

/-- The bonus is `NaN` or an integer between 0 and 20. -/
theorem calculateBonusScore_cases (rt : JsRuntime) (userSkills preferredSkills : List String) :
    calculateBonusScore rt userSkills preferredSkills = JsNum.nan ∨
      ∃ b : ℤ, calculateBonusScore rt userSkills preferredSkills = JsNum.num b ∧
        0 ≤ b ∧ b ≤ 20 := by
  by_cases h0 : preferredSkills.length = 0
  · exact Or.inr ⟨0, by simp [calculateBonusScore, h0, JsNum.ofNat], by norm_num, by norm_num⟩
  · by_cases hn : normalizedLower rt preferredSkills = []
    · left
      simp [calculateBonusScore, h0, hn, JsNum.ofNat, JsNum.div, JsNum.infTimes, JsNum.mul,
        JsNum.round, JsNum.min]
    · right
      obtain ⟨b0, -, -⟩ := roundHalfUp_doubleShare
        ((normalizedLower rt preferredSkills).filter (fun skill =>
          (normalizedLower rt userSkills).contains skill)).length
        (normalizedLower rt preferredSkills).length 20 (by norm_num)
        (List.length_filter_le _ _) (by simpa using hn)
      refine ⟨_, ?_, le_min (by norm_num) b0, min_le_left _ _⟩
      rw [calculateBonusScore_value rt userSkills preferredSkills hn]
      push_cast
      rfl

/-- The bonus on a usable preferred list is an integer between 0 and 20. -/
theorem calculateBonusScore_num (rt : JsRuntime) (userSkills preferredSkills : List String)
    (h : usableSkills preferredSkills) :
    ∃ b : ℤ, calculateBonusScore rt userSkills preferredSkills = JsNum.num b ∧ 0 ≤ b ∧ b ≤ 20 := by
  rcases calculateBonusScore_cases rt userSkills preferredSkills with hnan | hb
  · exfalso
    rcases h with rfl | h
    · simp [calculateBonusScore, JsNum.ofNat] at hnan
    · rw [calculateBonusScore_value rt userSkills preferredSkills
        (normalizedLower_ne_nil rt preferredSkills h)] at hnan
      exact JsNum.noConfusion hnan
  · exact hb

/-- The experience adjustment lies between -10 and 10. -/
theorem experienceAdjustment_bounds (rt : JsRuntime) (userProfile : UserProfile)
    (roleProfile : RoleProfile) :
    -10 ≤ experienceAdjustment rt userProfile roleProfile ∧
      experienceAdjustment rt userProfile roleProfile ≤ 10 := by
  unfold experienceAdjustment calculateExperienceAdjustment
  simp only []
  constructor <;> split_ifs <;> omega

/-- The score of `calculateRoleMatch` once the skill match and the bonus are numbers: the sum is
added in doubles. -/
theorem calculateRoleMatch_score_double (rt : JsRuntime) (userProfile : UserProfile)
    (roleProfile : RoleProfile) (c b : ℚ)
    (hc : calculateSkillMatch rt (allUserSkills userProfile) roleProfile.requiredSkills =
      JsNum.num c)
    (hb : calculateBonusScore rt (allUserSkills userProfile) roleProfile.preferredSkills =
      JsNum.num b) :
    (calculateRoleMatch rt userProfile roleProfile).score =
      JsNum.num (clamp100 (roundHalfUp (doubleScoreSum c b
        (experienceAdjustment rt userProfile roleProfile)))) := by
  simp only [calculateRoleMatch, hc, hb, JsNum.ofInt, JsNum.ofNat, JsNum.ofLiteral, jsMul_num,
    jsAdd_num, jsRound_num, jsMin_num, jsMax_num, clamp100, roundHalfUp, experienceAdjustment,
    doubleScoreSum]
  push_cast
  rfl

/-- The score of `calculateRoleMatch` once the skill match and the bonus are numbers: the double
sum rounds like the exact sum `0.8 * c + b + adjustment`. -/
theorem calculateRoleMatch_score_num (rt : JsRuntime) (userProfile : UserProfile)
    (roleProfile : RoleProfile) (c b : ℚ)
    (hc : calculateSkillMatch rt (allUserSkills userProfile) roleProfile.requiredSkills =
      JsNum.num c)
    (hb : calculateBonusScore rt (allUserSkills userProfile) roleProfile.preferredSkills =
      JsNum.num b) :
    (calculateRoleMatch rt userProfile roleProfile).score =
      JsNum.num (clamp100 (roundHalfUp (4 / 5 * c + b +
        experienceAdjustment rt userProfile roleProfile))) := by
  rw [calculateRoleMatch_score_double rt userProfile roleProfile c b hc hb]
  rcases calculateSkillMatch_cases rt (allUserSkills userProfile) roleProfile.requiredSkills
    with h | ⟨c', hc', hc0, hc1⟩
  · rw [hc] at h
    exact JsNum.noConfusion h
  rcases calculateBonusScore_cases rt (allUserSkills userProfile) roleProfile.preferredSkills
    with h | ⟨b', hb', hb0, hb1⟩
  · rw [hb] at h
    exact JsNum.noConfusion h
  have ec : c = c' := JsNum.num.inj (hc.symm.trans hc')
  have eb : b = b' := JsNum.num.inj (hb.symm.trans hb')
  obtain ⟨ha0, ha1⟩ := experienceAdjustment_bounds rt userProfile roleProfile
  rw [ec, eb, roundHalfUp_doubleScoreSum c' b' _ hc0 hc1 hb0 hb1 ha0 ha1]

/-! ## The deterministic score -/

/-- Claim C1 fails on the code: for a role whose required-skill list holds one empty string, the
guard of `calculateSkillMatch` on the length of the raw list does not fire, `normalizeSkills`
drops the entry and the match percentage is zero divided by zero: the score of
`calculateRoleMatch` is `NaN`, whatever the profile, and no number between 0 and 100. -/
theorem calculateRoleMatch_blank_required (rt : JsRuntime) (userProfile : UserProfile)
    (id name : String) (preferredSkills : List String) (minExperienceLevel : ℤ) :
    (calculateRoleMatch rt userProfile
      { id := id, name := name, requiredSkills := [""], preferredSkills := preferredSkills,
        minExperienceLevel := minExperienceLevel }).score = JsNum.nan := by
  have h : calculateSkillMatch rt (allUserSkills userProfile) [""] = JsNum.nan := by
    simp [calculateSkillMatch, normalizedLower, normalizeSkills, JsVal.strArr, normalizeSkill,
      unique, uniqueFrom, JsNum.ofNat, JsNum.div, JsNum.infTimes, JsNum.mul, JsNum.round]
  simp only [calculateRoleMatch, h, jsMul_nan, jsAdd_nan_left, jsMin_nan_right,
    jsMax_nan_right, JsNum.round]

/-- On a role whose skill lists are usable the score of `calculateRoleMatch` is an integer of
`[0, 100]`. -/
theorem calculateRoleMatch_score_int (rt : JsRuntime) (userProfile : UserProfile)
    (roleProfile : RoleProfile) (hreq : usableSkills roleProfile.requiredSkills)
    (hpref : usableSkills roleProfile.preferredSkills) :
    ∃ n : ℤ, (calculateRoleMatch rt userProfile roleProfile).score = JsNum.num n ∧
      0 ≤ n ∧ n ≤ 100 := by
  obtain ⟨b, hb, -, -⟩ := calculateBonusScore_num rt (allUserSkills userProfile)
    roleProfile.preferredSkills hpref
  have hc : ∃ c : ℤ, calculateSkillMatch rt (allUserSkills userProfile)
      roleProfile.requiredSkills = JsNum.num c := by
    rcases hreq with h | h
    · exact ⟨100, by simp [calculateSkillMatch, h, JsNum.ofNat]⟩
    · exact ⟨_, calculateSkillMatch_num rt _ _ (normalizedLower_ne_nil rt _ h)⟩
  obtain ⟨c, hc⟩ := hc
  refine ⟨max 0 (min 100 (roundHalfUp (4 / 5 * c + b +
    experienceAdjustment rt userProfile roleProfile))), ?_, le_max_left _ _,
    max_le (by norm_num) (min_le_left _ _)⟩
  rw [calculateRoleMatch_score_num rt userProfile roleProfile c b hc hb, clamp100]
  push_cast
  rfl

/-- The score on a role whose skill lists are usable (each is empty or has an entry that is not
the empty string, as in every catalog role): `calculateRoleMatch` returns an integer score
between 0 and 100. -/
theorem calculateRoleMatch_score_bounds (rt : JsRuntime) (userProfile : UserProfile)
    (roleProfile : RoleProfile) (hreq : usableSkills roleProfile.requiredSkills)
    (hpref : usableSkills roleProfile.preferredSkills) :
    ∃ n : ℤ, (calculateRoleMatch rt userProfile roleProfile).score = JsNum.num n ∧
      0 ≤ n ∧ n ≤ 100 :=
  calculateRoleMatch_score_int rt userProfile roleProfile hreq hpref

/-- Every catalog role has usable skill lists. -/
theorem catalog_usable :
    ∀ roleProfile ∈ getAllRoleProfiles,
      (∃ s ∈ roleProfile.requiredSkills, s ≠ "") ∧ (∃ s ∈ roleProfile.preferredSkills, s ≠ "") := by
  decide

/-- The sample profile scores 22 for the sample role, which has usable skill lists. -/
theorem calculateRoleMatch_score_bounds_witness :
    ∃ n : ℤ, (calculateRoleMatch sampleRuntime sampleProfile sampleRole).score = JsNum.num n ∧
      0 ≤ n ∧ n ≤ 100 :=
  calculateRoleMatch_score_bounds sampleRuntime sampleProfile sampleRole
    (Or.inr ⟨"programming", by decide, by decide⟩) (Or.inr ⟨"java", by decide, by decide⟩)

/-- Claim C2: the `matchLevel` of `calculateRoleMatch(profile, role)` is the tier of the score
of the same result. -/
theorem calculateRoleMatch_tier (rt : JsRuntime) (userProfile : UserProfile)
    (roleProfile : RoleProfile) :
    (calculateRoleMatch rt userProfile roleProfile).matchLevel =
      JsVal.str (tierOf (calculateRoleMatch rt userProfile roleProfile).score) :=
  rfl

/-- Claim C3, amended: for a role whose required list keeps `r > 0` entries after
normalization, `m` of them in the user's pool, and a bonus that is a number,
`calculateRoleMatch` returns the clamp to `[0, 100]` of
`round(0.8 * P + bonus + expAdjustment)`, where `P = Math.round((m / r) * 100)` is the match
percentage that `calculateSkillMatch` returns: the required skills enter through their
percentage rounded to an integer. `P` is an integer between 0 and 100, computed from the double
quotient, and within `1/2 + 2^-44` of `100 * m / r`. -/
theorem calculateRoleMatch_score_formula (rt : JsRuntime) (userProfile : UserProfile)
    (roleProfile : RoleProfile) (b : ℚ)
    (hreq : normalizedLower rt roleProfile.requiredSkills ≠ [])
    (hb : calculateBonusScore rt (allUserSkills userProfile) roleProfile.preferredSkills =
      JsNum.num b) :
    calculateSkillMatch rt (allUserSkills userProfile) roleProfile.requiredSkills =
      JsNum.num (matchPercent (requiredMatched rt userProfile roleProfile)
        (requiredCount rt roleProfile)) ∧
    0 ≤ matchPercent (requiredMatched rt userProfile roleProfile) (requiredCount rt roleProfile) ∧
    matchPercent (requiredMatched rt userProfile roleProfile) (requiredCount rt roleProfile) ≤
      100 ∧
    |(matchPercent (requiredMatched rt userProfile roleProfile)
        (requiredCount rt roleProfile) : ℚ) -
      100 * requiredMatched rt userProfile roleProfile / requiredCount rt roleProfile| ≤
      1 / 2 + 1 / 2 ^ 44 ∧
    (calculateRoleMatch rt userProfile roleProfile).score =
      JsNum.num (scoreFromPercent
        (matchPercent (requiredMatched rt userProfile roleProfile) (requiredCount rt roleProfile))
        b (experienceAdjustment rt userProfile roleProfile)) := by
  have hc := calculateSkillMatch_num rt (allUserSkills userProfile) roleProfile.requiredSkills hreq
  obtain ⟨h0, h1, h2⟩ := roundHalfUp_doubleShare (requiredMatched rt userProfile roleProfile)
    (requiredCount rt roleProfile) 100 (by norm_num) (List.length_filter_le _ _)
    (by simpa [requiredCount] using hreq)
  refine ⟨hc, h0, by exact_mod_cast h1, ?_, ?_⟩
  · unfold matchPercent
    push_cast at h2
    refine le_trans h2 ?_
    norm_num
  · rw [calculateRoleMatch_score_num rt userProfile roleProfile _ b hc hb]
    rfl

/-- Claim C3, amended, on the example of the specification: 2 of 3 required skills matched,
bonus 0, adjustment 0: the percentage is 67, the score `round(0.8 * 67) = 54` and the tier
`fair`. With 23 of 40 skills matched the percentage is 57, since the double `(23 / 40) * 100`
lies below 57.5, while `100 * 23 / 40` rounds to 58. -/
theorem calculateRoleMatch_score_formula_witness :
    (calculateRoleMatch sampleRuntime exampleProfile exampleRole).score =
      JsNum.num (scoreFromPercent (matchPercent (requiredMatched sampleRuntime exampleProfile
        exampleRole) (requiredCount sampleRuntime exampleRole)) 0
        (experienceAdjustment sampleRuntime exampleProfile exampleRole)) ∧
    matchPercent (requiredMatched sampleRuntime exampleProfile exampleRole)
      (requiredCount sampleRuntime exampleRole) = 67 ∧
    scoreFromPercent 67 0 (experienceAdjustment sampleRuntime exampleProfile exampleRole) = 54 ∧
    tierOf (JsNum.num 54) = "fair" ∧
    matchPercent 23 40 = 57 ∧ roundHalfUp (100 * 23 / 40) = 58 :=
  ⟨(calculateRoleMatch_score_formula sampleRuntime exampleProfile exampleRole 0 (by decide)
    (by decide!)).2.2.2.2, by decide!, by decide!, by decide!, by decide!, by decide!⟩

/-- Claim C3 as stated fails on its own witness: with 2 of 3 required skills matched, bonus 0
and adjustment 0, `calculateRoleMatch` returns the score 54, while
`round(80 * 2 / 3 + 0 + 0)` is 53. -/
theorem calculateRoleMatch_score_share_counterexample :
    requiredMatched sampleRuntime exampleProfile exampleRole = 2 ∧
    requiredCount sampleRuntime exampleRole = 3 ∧
    calculateBonusScore sampleRuntime (allUserSkills exampleProfile)
      exampleRole.preferredSkills = JsNum.num 0 ∧
    experienceAdjustment sampleRuntime exampleProfile exampleRole = 0 ∧
    (calculateRoleMatch sampleRuntime exampleProfile exampleRole).score = JsNum.num 54 ∧
    scoreFromShare 2 3 0 0 = 53 := by
  decide!

/-- Claim C4: in the result of `calculateRoleMatch`, `matchedSkills` holds the normalized
required skills that are in the user's normalized pool and `gapSkills` those that are not: the
two lists are disjoint, and together they are the normalized required skills (as sets, and even
as lists up to order). -/
theorem calculateRoleMatch_partition (rt : JsRuntime) (userProfile : UserProfile)
    (roleProfile : RoleProfile) :
    ∃ matched gap : List String,
      (calculateRoleMatch rt userProfile roleProfile).matchedSkills = JsVal.strArr matched ∧
      (calculateRoleMatch rt userProfile roleProfile).gapSkills = JsVal.strArr gap ∧
      (∀ s, s ∈ matched ↔
        s ∈ normalizedLower rt roleProfile.requiredSkills ∧ s ∈ userPool rt userProfile) ∧
      (∀ s, s ∈ gap ↔
        s ∈ normalizedLower rt roleProfile.requiredSkills ∧ s ∉ userPool rt userProfile) ∧
      (∀ s, s ∈ matched → s ∉ gap) ∧
      (∀ s, s ∈ matched ∨ s ∈ gap ↔ s ∈ normalizedLower rt roleProfile.requiredSkills) ∧
      List.Perm (matched ++ gap) (normalizedLower rt roleProfile.requiredSkills) := by
  refine ⟨_, _, rfl, rfl, ?_, ?_, ?_, ?_, ?_⟩
  · intro s
    simp [userPool, List.mem_filter]
  · intro s
    simp [userPool, List.mem_filter]
  · intro s hs hg
    simp only [List.mem_filter] at hs hg
    have hin : s ∈ normalizedLower rt (allUserSkills userProfile) := by simpa using hs.2
    simp [hin] at hg
  · intro s
    simp only [List.mem_filter]
    constructor
    · rintro (h | h) <;> exact h.1
    · intro h
      by_cases hp : (normalizedLower rt (allUserSkills userProfile)).contains s = true
      · exact Or.inl ⟨h, hp⟩
      · exact Or.inr ⟨h, by simpa using hp⟩
  · exact List.filter_append_perm _ _

/-- Claim C5: for a role whose `requiredSkills` list is empty, the required-skill contribution
is exactly 80 whatever the user's skills are, the score is the clamp to `[0, 100]` of
`round(80 + bonus + expAdjustment)`, and `matchedSkills` and `gapSkills` are both empty. -/
theorem calculateRoleMatch_empty_required (rt : JsRuntime) (userProfile : UserProfile)
    (roleProfile : RoleProfile) (hreq : roleProfile.requiredSkills = []) :
    JsNum.mul (calculateSkillMatch rt (allUserSkills userProfile) roleProfile.requiredSkills)
      (JsNum.ofLiteral (4 / 5)) = JsNum.num 80 ∧
    (∀ b : ℚ, calculateBonusScore rt (allUserSkills userProfile) roleProfile.preferredSkills =
      JsNum.num b →
      (calculateRoleMatch rt userProfile roleProfile).score =
        JsNum.num (clamp100 (roundHalfUp (80 + b +
          experienceAdjustment rt userProfile roleProfile)))) ∧
    (calculateRoleMatch rt userProfile roleProfile).matchedSkills = JsVal.strArr [] ∧
    (calculateRoleMatch rt userProfile roleProfile).gapSkills = JsVal.strArr [] := by
  have hc : calculateSkillMatch rt (allUserSkills userProfile) roleProfile.requiredSkills =
      JsNum.num 100 := by
    simp [calculateSkillMatch, hreq, JsNum.ofNat]
  refine ⟨?_, ?_, ?_, ?_⟩
  · rw [hc]
    decide!
  · intro b hb
    rw [calculateRoleMatch_score_num rt userProfile roleProfile 100 b hc hb]
    norm_num
  · simp only [calculateRoleMatch, hreq, normalizedLower_nil, List.filter_nil]
  · simp only [calculateRoleMatch, hreq, normalizedLower_nil, List.filter_nil]

/-- Claim C5 on the example profile and a role without required skills that prefers `react`:
the score is `round(80 + 0 + 0) = 80`. -/
theorem calculateRoleMatch_empty_required_witness :
    JsNum.mul (calculateSkillMatch sampleRuntime (allUserSkills exampleProfile) [])
      (JsNum.ofLiteral (4 / 5)) = JsNum.num 80 ∧
    (calculateRoleMatch sampleRuntime exampleProfile
      { exampleRole with requiredSkills := [] }).score = JsNum.num 80 ∧
    (calculateRoleMatch sampleRuntime exampleProfile
      { exampleRole with requiredSkills := [] }).matchedSkills = JsVal.strArr [] ∧
    (calculateRoleMatch sampleRuntime exampleProfile
      { exampleRole with requiredSkills := [] }).gapSkills = JsVal.strArr [] := by
  obtain ⟨h1, h2, h3, h4⟩ := calculateRoleMatch_empty_required sampleRuntime exampleProfile
    { exampleRole with requiredSkills := [] } rfl
  refine ⟨h1, ?_, h3, h4⟩
  rw [h2 0 (by decide!)]
  decide!

/-- Two results with the same score are in score order. -/
theorem scoreOrder_of_score_eq {a b : RoleMatchResult} (h : b.score = a.score) :
    scoreOrder a b := by
  unfold scoreOrder scoreComparator
  rw [h]
  cases a.score <;>
    simp [JsNum.sub, JsNum.neg, JsNum.add, notAfter, JsNum.le, roundToDouble_zero]

/-- Inserting a result leaves the results of every other score in place and puts the result in
front of the results of its own score. -/
theorem filter_orderedInsert_score (s : JsNum) (a : RoleMatchResult) :
    ∀ l : List RoleMatchResult,
      (l.orderedInsert scoreOrder a).filter (fun m => decide (m.score = s)) =
        (a :: l).filter (fun m => decide (m.score = s))
  | [] => rfl
  | b :: l => by
    by_cases hab : scoreOrder a b
    · rw [List.orderedInsert, if_pos hab]
    · rw [List.orderedInsert, if_neg hab]
      have hne : b.score ≠ a.score := fun h => hab (scoreOrder_of_score_eq h)
      rw [List.filter_cons, filter_orderedInsert_score s a l]
      by_cases ha : a.score = s
      · have hb : b.score ≠ s := fun h => hne (h.trans ha.symm)
        simp [List.filter_cons, ha, hb]
      · simp [List.filter_cons, ha]

/-- The insertion sort is stable: it leaves the results of each score in their order. -/
theorem filter_insertionSort_score (s : JsNum) :
    ∀ l : List RoleMatchResult,
      (l.insertionSort scoreOrder).filter (fun m => decide (m.score = s)) =
        l.filter (fun m => decide (m.score = s))
  | [] => rfl
  | a :: l => by
    have ih := filter_insertionSort_score s l
    rw [List.insertionSort, filter_orderedInsert_score, List.filter_cons, List.filter_cons, ih]

/-- The sort is stable on finite scores: it leaves the results of each score in their order. -/
theorem filter_sortByScore (s : JsNum) (l : List RoleMatchResult)
    (h : ∀ m ∈ l, ∃ q, m.score = JsNum.num q) :
    (sortByScore l).filter (fun m => decide (m.score = s)) =
      l.filter (fun m => decide (m.score = s)) := by
  rw [sortByScore_of_finite l h]
  exact filter_insertionSort_score s l

/-- Claim C6: `calculateAllRoleMatches(profile)` holds exactly the results of
`calculateRoleMatch` for the ten catalog roles, one per role, in non-increasing score order, and
the results of equal score stand in the order of their roles in the catalog. -/
theorem calculateAllRoleMatches_sorted_stable (rt : JsRuntime) (userProfile : UserProfile) :
    List.Perm (calculateAllRoleMatches rt userProfile)
      (getAllRoleProfiles.map (calculateRoleMatch rt userProfile)) ∧
    List.Perm ((calculateAllRoleMatches rt userProfile).map (fun m => m.roleId))
      (getAllRoleProfiles.map (fun roleProfile => roleProfile.id)) ∧
    (getAllRoleProfiles.map (fun roleProfile => roleProfile.id)).Nodup ∧
    (calculateAllRoleMatches rt userProfile).Pairwise
      (fun a b => JsNum.ge a.score b.score = true) ∧
    ∀ s : JsNum, (calculateAllRoleMatches rt userProfile).filter (fun m => decide (m.score = s)) =
      (getAllRoleProfiles.map (calculateRoleMatch rt userProfile)).filter
        (fun m => decide (m.score = s)) := by
  have hperm : List.Perm (calculateAllRoleMatches rt userProfile)
      (getAllRoleProfiles.map (calculateRoleMatch rt userProfile)) :=
    perm_sortByScore _
  have hfin : ∀ m ∈ getAllRoleProfiles.map (calculateRoleMatch rt userProfile),
      ∃ q, m.score = JsNum.num q := by
    intro m hm
    obtain ⟨roleProfile, hrole, rfl⟩ := List.mem_map.mp hm
    obtain ⟨n, hn, -, -⟩ := calculateRoleMatch_score_int rt userProfile roleProfile
      (Or.inr (catalog_usable roleProfile hrole).1) (Or.inr (catalog_usable roleProfile hrole).2)
    exact ⟨n, hn⟩
  refine ⟨hperm, ?_, by decide, ?_, fun s => filter_sortByScore s _ hfin⟩
  · have h := hperm.map (fun m : RoleMatchResult => m.roleId)
    rw [List.map_map] at h
    exact h
  · refine (sorted_sortByScore _ hfin).imp_of_mem ?_
    intro a b ha hb hab
    obtain ⟨x, hx⟩ := hfin a (hperm.mem_iff.mp ha)
    obtain ⟨y, hy⟩ := hfin b (hperm.mem_iff.mp hb)
    rw [scoreOrder_num hx hy] at hab
    simp [JsNum.ge, hx, hy, JsNum.le, hab]

/-! ## The skills taxonomy -/

theorem lookup_isSome_of_mem {β : Type} :
    ∀ (l : List (String × β)) (entry : String × β), entry ∈ l → (l.lookup entry.1).isSome = true
  | [], _, h => absurd h (List.not_mem_nil _)
  | (k, v) :: l, entry, h => by
    by_cases hk : entry.1 = k
    · simp [List.lookup, hk]
    · rcases List.mem_cons.mp h with rfl | h
      · exact absurd rfl hk
      · have ih := lookup_isSome_of_mem l entry h
        simp only [List.lookup]
        have hbeq : (entry.1 == k) = false := beq_false_of_ne hk
        rw [hbeq]
        exact ih

theorem lookup_eq_none_of_forall {β : Type} (k : String) :
    ∀ l : List (String × β), (∀ entry ∈ l, entry.1 ≠ k) → l.lookup k = none
  | [], _ => rfl
  | (k', v) :: l, h => by
    have hne : k' ≠ k := h (k', v) (List.mem_cons_self _ _)
    have hk : (k == k') = false := beq_false_of_ne (Ne.symm hne)
    simp only [List.lookup, hk]
    exact lookup_eq_none_of_forall k l (fun entry he => h entry (List.mem_cons_of_mem _ he))

/-- A variation that is itself a key of the table is listed under that key. -/
theorem taxonomy_variation_key :
    ∀ entry ∈ skillsTaxonomy, ∀ v ∈ entry.2, (skillsTaxonomy.lookup v).isSome = true →
      v = entry.1 := by
  decide!

/-- No variation is listed under two keys of the table. -/
theorem taxonomy_variation_unique :
    ∀ e₁ ∈ skillsTaxonomy, ∀ e₂ ∈ skillsTaxonomy, ∀ v ∈ e₁.2, v ∈ e₂.2 → e₁.1 = e₂.1 := by
  decide!

/-- No key of the table is the empty string. -/
theorem taxonomy_key_ne_empty : ∀ entry ∈ skillsTaxonomy, entry.1 ≠ "" := by
  decide!

/-- The value of `normalizeSkill` on a non-empty string, in terms of the lower-cased and trimmed
input `t`. -/
theorem normalizeSkill_eq (rt : JsRuntime) (x : String) (hx : x ≠ "") :
    normalizeSkill rt (JsVal.str x) =
      if (skillsTaxonomy.lookup (rt.trim (rt.toLowerCase x))).isSome then
        some (rt.trim (rt.toLowerCase x))
      else
        match skillsTaxonomy.find? (fun entry => entry.2.contains (rt.trim (rt.toLowerCase x)))
          with
        | some entry => some entry.1
        | none => some (rt.trim (rt.toLowerCase x)) := by
  simp only [normalizeSkill, if_neg hx]

/-- Claim C8: for a non-empty string `x` with `t = trim(lowercase(x))`, `normalizeSkill(x)` is
the canonical key `c` as soon as `t` is `c` or one of the variations listed under `c` (the key is
unique), and it is `t` when `t` is no key and no variation of the table. -/
theorem normalizeSkill_table (rt : JsRuntime) (x : String) (hx : x ≠ "") :
    (∀ entry ∈ skillsTaxonomy,
      rt.trim (rt.toLowerCase x) = entry.1 ∨ rt.trim (rt.toLowerCase x) ∈ entry.2 →
      normalizeSkill rt (JsVal.str x) = some entry.1) ∧
    ((∀ entry ∈ skillsTaxonomy,
      rt.trim (rt.toLowerCase x) ≠ entry.1 ∧ rt.trim (rt.toLowerCase x) ∉ entry.2) →
      normalizeSkill rt (JsVal.str x) = some (rt.trim (rt.toLowerCase x))) := by
  rw [normalizeSkill_eq rt x hx]
  constructor
  · intro entry hmem ht
    rcases ht with ht | ht
    · rw [ht, if_pos (lookup_isSome_of_mem _ entry hmem)]
    · by_cases hkey : (skillsTaxonomy.lookup (rt.trim (rt.toLowerCase x))).isSome = true
      · rw [if_pos hkey, taxonomy_variation_key entry hmem _ ht hkey]
      · rw [if_neg hkey]
        cases hfind : skillsTaxonomy.find?
            (fun entry => entry.2.contains (rt.trim (rt.toLowerCase x))) with
        | none =>
          have := List.find?_eq_none.mp hfind entry hmem
          simp [ht] at this
        | some e =>
          have he : e ∈ skillsTaxonomy := List.mem_of_find?_eq_some hfind
          have hv : rt.trim (rt.toLowerCase x) ∈ e.2 := by
            simpa using List.find?_some hfind
          simp only []
          rw [taxonomy_variation_unique e he entry hmem _ hv ht]
  · intro h
    have hnone : skillsTaxonomy.lookup (rt.trim (rt.toLowerCase x)) = none :=
      lookup_eq_none_of_forall _ _ (fun entry he => (h entry he).1.symm)
    have hfind : skillsTaxonomy.find?
        (fun entry => entry.2.contains (rt.trim (rt.toLowerCase x))) = none := by
      apply List.find?_eq_none.mpr
      intro entry he
      simpa using (h entry he).2
    rw [hnone, hfind]
    rfl

/-- Claim C8 on the three spellings of the specification: `JS`, `JavaScript` and `ecmascript`
all normalize to `javascript`; the unknown skill ` Haskell ` normalizes to `haskell`. -/
theorem normalizeSkill_table_witness :
    normalizeSkill sampleRuntime (JsVal.str "JS") = some "javascript" ∧
    normalizeSkill sampleRuntime (JsVal.str "JavaScript") = some "javascript" ∧
    normalizeSkill sampleRuntime (JsVal.str "ecmascript") = some "javascript" ∧
    normalizeSkill sampleRuntime (JsVal.str " Haskell ") = some "haskell" :=
  ⟨(normalizeSkill_table sampleRuntime "JS" (by decide)).1
      ("javascript", ["js", "javascript", "ecmascript", "es6", "es2015"]) (by decide)
      (Or.inr (by decide)),
   (normalizeSkill_table sampleRuntime "JavaScript" (by decide)).1
      ("javascript", ["js", "javascript", "ecmascript", "es6", "es2015"]) (by decide)
      (Or.inl (by decide)),
   (normalizeSkill_table sampleRuntime "ecmascript" (by decide)).1
      ("javascript", ["js", "javascript", "ecmascript", "es6", "es2015"]) (by decide)
      (Or.inr (by decide)),
   (normalizeSkill_table sampleRuntime " Haskell " (by decide)).2 (by decide)⟩

/-- Claim C7 fails on the code: the string that holds one blank passes the emptiness test, is
trimmed to the empty string and returned as such, and the empty string is then normalized to
`null`: `normalizeSkill(normalizeSkill(" "))` is `null` while `normalizeSkill(" ")` is the empty
string. -/
theorem normalizeSkill_blank_not_idempotent :
    normalizeSkill sampleRuntime (JsVal.str " ") = some "" ∧
    normalizeTwice sampleRuntime " " = none := by
  decide

/-- Idempotence away from blank strings: on a runtime that leaves the keys of the table
unchanged and on an input `x` whose lower-cased, trimmed form `t` is not empty and is left
unchanged by lower-casing and trimming, `normalizeSkill(normalizeSkill(x))` is
`normalizeSkill(x)`. -/
theorem normalizeSkill_idempotent (rt : JsRuntime) (x : String)
    (hkeys : ∀ entry ∈ skillsTaxonomy, rt.trim (rt.toLowerCase entry.1) = entry.1)
    (hidem : rt.trim (rt.toLowerCase (rt.trim (rt.toLowerCase x))) = rt.trim (rt.toLowerCase x))
    (hblank : rt.trim (rt.toLowerCase x) ≠ "") :
    normalizeTwice rt x = normalizeSkill rt (JsVal.str x) := by
  by_cases hx : x = ""
  · subst hx
    simp [normalizeTwice, normalizeSkill]
  · unfold normalizeTwice
    rw [normalizeSkill_eq rt x hx]
    by_cases hkey : (skillsTaxonomy.lookup (rt.trim (rt.toLowerCase x))).isSome = true
    · simp only [if_pos hkey]
      rw [normalizeSkill_eq rt _ hblank, hidem, if_pos hkey]
    · simp only [if_neg hkey]
      cases hfind : skillsTaxonomy.find?
          (fun entry => entry.2.contains (rt.trim (rt.toLowerCase x))) with
      | none =>
        simp only []
        rw [normalizeSkill_eq rt _ hblank, hidem, if_neg hkey, hfind]
      | some e =>
        have he : e ∈ skillsTaxonomy := List.mem_of_find?_eq_some hfind
        simp only []
        rw [normalizeSkill_eq rt _ (taxonomy_key_ne_empty e he), hkeys e he,
          if_pos (lookup_isSome_of_mem _ e he)]

/-- Idempotence on the sample runtime, for the spelling `JS`: both sides are `javascript`. -/
theorem normalizeSkill_idempotent_witness :
    normalizeTwice sampleRuntime "JS" = normalizeSkill sampleRuntime (JsVal.str "JS") ∧
    normalizeSkill sampleRuntime (JsVal.str "JS") = some "javascript" :=
  ⟨normalizeSkill_idempotent sampleRuntime "JS" (by decide!) (by decide) (by decide),
   by decide⟩
/-! ## The fit score in doubles -/

/-- The score of `calculateFitScore` is the running double sum, rounded and capped. -/
theorem calculateFitScore_score_double (rt : JsRuntime) (profile : UserProfile)
    (roadmap : Option Roadmap) (opportunity : Opportunity)
    (htarget : profile.targetRoles.isSome = true) (hskills : profile.currentSkills.isSome = true)
    (hreq : opportunity.required_skills ≠ []) (hpref : opportunity.preferred_skills ≠ []) :
    ∃ res, calculateFitScore rt profile roadmap opportunity = some res ∧
      res.score =
        JsNum.num (min (roundHalfUp (fitDoubleSum rt profile roadmap opportunity) : ℚ) 100) := by
  obtain ⟨tr, htr⟩ := Option.isSome_iff_exists.mp htarget
  obtain ⟨cs, hcs⟩ := Option.isSome_iff_exists.mp hskills
  have hr : (opportunity.required_skills.map rt.toLowerCase).length ≠ 0 := by simpa using hreq
  have hp : (opportunity.preferred_skills.map rt.toLowerCase).length ≠ 0 := by simpa using hpref
  have h30 : roundToDouble ((0 : ℚ) + 30) = 30 := by decide!
  refine ⟨_, by simp only [calculateFitScore, htr, hcs]; rfl, ?_⟩
  simp only [fitDoubleSum, fitSkillsDouble, doubleShare, rolePoints, levelPoints, locationPoints,
    fitMatchedCount, fitPool, htr, hcs, Option.getD_some, roundHalfUp]
  rw [jsDiv_ofNat _ _ hr, jsDiv_ofNat _ _ hp]
  simp only [List.length_map, decide_eq_true_eq]
  split_ifs <;>
  simp only [JsNum.ofNat, jsAdd_num, jsMul_num, jsRound_num, jsMin_num, Nat.cast_ofNat,
    Nat.cast_zero, h30, add_zero, roundToDouble_idem]

/-- No more skills are matched than the list holds. -/
theorem fitMatchedCount_le (rt : JsRuntime) (profile : UserProfile) (roadmap : Option Roadmap)
    (skills : List String) : fitMatchedCount rt profile roadmap skills ≤ skills.length := by
  unfold fitMatchedCount
  exact (List.length_filter_le _ _).trans (by simp)

/-- The rounding of a sum that lies between two small natural numbers lies between them. -/
theorem roundToDouble_add_bounds {x y : ℚ} (l u : ℕ) (hu : u ≤ 2 ^ 53) (hl : (l : ℚ) ≤ x + y)
    (hxy : x + y ≤ u) : (l : ℚ) ≤ roundToDouble (x + y) ∧ roundToDouble (x + y) ≤ u := by
  have h1 := roundToDouble_mono hl
  have h2 := roundToDouble_mono hxy
  have hlu : (l : ℚ) ≤ u := hl.trans hxy
  have hlu' : l ≤ u := by exact_mod_cast hlu
  rw [roundToDouble_natCast l (hlu'.trans hu)] at h1
  rw [roundToDouble_natCast u hu] at h2
  exact ⟨h1, h2⟩

/-- The ranges of the points of the role, the level and the location. -/
theorem fitPoints_bounds (rt : JsRuntime) (profile : UserProfile) (opportunity : Opportunity) :
    (0 ≤ rolePoints profile opportunity ∧ rolePoints profile opportunity ≤ 30) ∧
    (0 ≤ levelPoints opportunity ∧ levelPoints opportunity ≤ 15) ∧
    (7 ≤ locationPoints rt profile opportunity ∧ locationPoints rt profile opportunity ≤ 15) := by
  refine ⟨?_, ?_, ?_⟩
  · unfold rolePoints
    split_ifs <;> norm_num
  · unfold levelPoints
    split_ifs <;> norm_num
  · unfold locationPoints
    split_ifs <;> norm_num

/-- The running double sum of `calculateFitScore` on non-empty skill lists lies between 7 and
100, and within `2 ^ (-44)` of the exact sum of the points. -/
theorem fitDoubleSum_bounds (rt : JsRuntime) (profile : UserProfile)
    (roadmap : Option Roadmap) (opportunity : Opportunity)
    (hreq : opportunity.required_skills ≠ []) (hpref : opportunity.preferred_skills ≠ []) :
    7 ≤ fitDoubleSum rt profile roadmap opportunity ∧
      fitDoubleSum rt profile roadmap opportunity ≤ 100 ∧
      |fitDoubleSum rt profile roadmap opportunity - fitPointsSum rt profile roadmap opportunity|
        ≤ 1 / 2 ^ 44 := by
  have hr : opportunity.required_skills.length ≠ 0 := by simpa using hreq
  have hp : opportunity.preferred_skills.length ≠ 0 := by simpa using hpref
  obtain ⟨⟨hA0, hA1⟩, ⟨hB0, hB1⟩, ⟨hC0, hC1⟩⟩ := fitPoints_bounds rt profile opportunity
  have ha := doubleShare_bounds (fitMatchedCount rt profile roadmap opportunity.required_skills)
    opportunity.required_skills.length 30 (by norm_num) (fitMatchedCount_le _ _ _ _) hr
  have hb := doubleShare_bounds (fitMatchedCount rt profile roadmap opportunity.preferred_skills)
    opportunity.preferred_skills.length 10 (by norm_num) (fitMatchedCount_le _ _ _ _) hp
  have hac := doubleShare_close (fitMatchedCount rt profile roadmap opportunity.required_skills)
    opportunity.required_skills.length 30 (fitMatchedCount_le _ _ _ _) hr
  have hbc := doubleShare_close (fitMatchedCount rt profile roadmap opportunity.preferred_skills)
    opportunity.preferred_skills.length 10 (fitMatchedCount_le _ _ _ _) hp
  simp only [Nat.cast_ofNat] at ha hb hac hbc
  unfold fitDoubleSum fitPointsSum fitSkillsDouble
  generalize doubleShare (fitMatchedCount rt profile roadmap opportunity.required_skills)
    opportunity.required_skills.length 30 = a at ha hac ⊢
  generalize doubleShare (fitMatchedCount rt profile roadmap opportunity.preferred_skills)
    opportunity.preferred_skills.length 10 = b at hb hbc ⊢
  generalize rolePoints profile opportunity = A at hA0 hA1 ⊢
  generalize levelPoints opportunity = B at hB0 hB1 ⊢
  generalize locationPoints rt profile opportunity = C at hC0 hC1 ⊢
  have h1 := roundToDouble_add_bounds (x := a) (y := b) 0 40 (by norm_num)
    (by push_cast; linarith [ha.1, hb.1]) (by push_cast; linarith [ha.2, hb.2])
  have e1 := roundToDouble_close (a + b) 40 (by
    rw [abs_le]; constructor <;> linarith [ha.1, hb.1, ha.2, hb.2])
  generalize roundToDouble (a + b) = s1 at h1 e1 ⊢
  push_cast at h1
  have h2 := roundToDouble_add_bounds (x := A) (y := s1) 0 70 (by norm_num)
    (by push_cast; linarith [h1.1]) (by push_cast; linarith [h1.2])
  have e2 := roundToDouble_close (A + s1) 70 (by
    rw [abs_le]; constructor <;> linarith [h1.1, h1.2])
  generalize roundToDouble (A + s1) = s2 at h2 e2 ⊢
  push_cast at h2
  have h3 := roundToDouble_add_bounds (x := s2) (y := B) 0 85 (by norm_num)
    (by push_cast; linarith [h2.1]) (by push_cast; linarith [h2.2])
  have e3 := roundToDouble_close (s2 + B) 85 (by
    rw [abs_le]; constructor <;> linarith [h2.1, h2.2])
  generalize roundToDouble (s2 + B) = s3 at h3 e3 ⊢
  push_cast at h3
  have h4 := roundToDouble_add_bounds (x := s3) (y := C) 7 100 (by norm_num)
    (by push_cast; linarith [h3.1]) (by push_cast; linarith [h3.2])
  have e4 := roundToDouble_close (s3 + C) 100 (by
    rw [abs_le]; constructor <;> linarith [h3.1, h3.2])
  generalize roundToDouble (s3 + C) = s4 at h4 e4 ⊢
  push_cast at h4
  rw [abs_le] at hac hbc e1 e2 e3 e4
  refine ⟨h4.1, h4.2, ?_⟩
  rw [abs_le]
  norm_num at hac hbc e1 e2 e3 e4 ⊢
  constructor <;> linarith [hac.1, hac.2, hbc.1, hbc.2, e1.1, e1.2, e2.1, e2.2, e3.1, e3.2,
    e4.1, e4.2]

/-- The share of matched skills of a non-empty list, weighted with `w`, lies between 0 and
`w`. -/
theorem share_bounds (m n : ℕ) (w : ℚ) (hw : 0 ≤ w) (hmn : m ≤ n) (hn : n ≠ 0) :
    0 ≤ w * m / n ∧ w * m / n ≤ w := by
  have hn0 : (0 : ℚ) < n := by exact_mod_cast Nat.pos_of_ne_zero hn
  have hm : (m : ℚ) ≤ n := by exact_mod_cast hmn
  constructor
  · positivity
  · rw [div_le_iff₀ hn0]
    exact mul_le_mul_of_nonneg_left hm hw

/-- The exact sum of the points on non-empty skill lists lies between 7 and 100. -/
theorem fitPointsSum_bounds (rt : JsRuntime) (profile : UserProfile)
    (roadmap : Option Roadmap) (opportunity : Opportunity)
    (hreq : opportunity.required_skills ≠ []) (hpref : opportunity.preferred_skills ≠ []) :
    7 ≤ fitPointsSum rt profile roadmap opportunity ∧
      fitPointsSum rt profile roadmap opportunity ≤ 100 := by
  have hr := share_bounds (fitMatchedCount rt profile roadmap opportunity.required_skills)
    opportunity.required_skills.length 30 (by norm_num) (fitMatchedCount_le _ _ _ _)
    (by simpa using hreq)
  have hp := share_bounds (fitMatchedCount rt profile roadmap opportunity.preferred_skills)
    opportunity.preferred_skills.length 10 (by norm_num) (fitMatchedCount_le _ _ _ _)
    (by simpa using hpref)
  obtain ⟨h1, h2, h3⟩ := fitPoints_bounds rt profile opportunity
  unfold fitPointsSum
  constructor <;> linarith [hr.1, hr.2, hp.1, hp.2, h1.1, h1.2, h2.1, h2.2, h3.1, h3.2]

/-- The rounded double sum of the points is an integer between 7 and 100. -/
theorem roundHalfUp_fitDoubleSum_bounds (rt : JsRuntime) (profile : UserProfile)
    (roadmap : Option Roadmap) (opportunity : Opportunity)
    (hreq : opportunity.required_skills ≠ []) (hpref : opportunity.preferred_skills ≠ []) :
    7 ≤ roundHalfUp (fitDoubleSum rt profile roadmap opportunity) ∧
      roundHalfUp (fitDoubleSum rt profile roadmap opportunity) ≤ 100 := by
  obtain ⟨h7, h100, -⟩ := fitDoubleSum_bounds rt profile roadmap opportunity hreq hpref
  have hlo := roundHalfUp_mono h7
  have hhi := roundHalfUp_mono h100
  have e7 : roundHalfUp (7 : ℚ) = 7 := by exact_mod_cast roundHalfUp_intCast 7
  have e100 : roundHalfUp (100 : ℚ) = 100 := by exact_mod_cast roundHalfUp_intCast 100
  rw [e7] at hlo
  rw [e100] at hhi
  exact ⟨hlo, hhi⟩

/-! ## The factors of the fit score -/

/-- Claim C9 fails on the code: with 2 of 9 required and 1 of 12 preferred skills matched, no
role match, a level other than `Intern` and no location match, `calculateFitScore` returns the
score 15 with the factors `Skills Match`, worth 7, and `Location Partial`, worth 7, whose sum is
14. The doubles `(2 / 9) * 30` and `(1 / 12) * 10` add up to `7.499999999999999`, which rounds to
7 in the factor; adding the 7 points of the location gives the double `14.5`, which rounds to
15 in the score. -/
theorem calculateFitScore_factor_sum_fails :
    sparseOpportunity.required_skills.length = 9 ∧
    sparseOpportunity.preferred_skills.length = 12 ∧
    fitMatchedCount sampleRuntime fitProfile none sparseOpportunity.required_skills = 2 ∧
    fitMatchedCount sampleRuntime fitProfile none sparseOpportunity.preferred_skills = 1 ∧
    Option.map (fun res => (res.score, res.factors.map (fun factor => (factor.name, factor.points))))
        (calculateFitScore sampleRuntime fitProfile none sparseOpportunity) =
      some (JsNum.num 15,
        [("Skills Match", JsNum.num 7), ("Location Partial", JsNum.num 7)]) ∧
    Option.map (fun res => JsNum.min (sumPoints res.factors) (JsNum.ofNat 100))
        (calculateFitScore sampleRuntime fitProfile none sparseOpportunity) =
      some (JsNum.num 14) ∧
    fitSkillsDouble sampleRuntime fitProfile none sparseOpportunity < 15 / 2 ∧
    fitDoubleSum sampleRuntime fitProfile none sparseOpportunity = 29 / 2 := by
  decide!

/-- Claim C10 fails on the code: for an opportunity whose `required_skills` list is empty,
`calculateFitScore` divides zero by zero: the required-skill component is `NaN`, not 30, and so
is the score, whatever the profile, the roadmap and the other fields of the opportunity. -/
theorem calculateFitScore_empty_required (rt : JsRuntime) (currentSkills targetRoles : List String)
    (interests : Option (List String)) (experienceLevel location : Option String)
    (resumeData : Option ResumeData) (roadmap : Option Roadmap)
    (role_type level location_type sponsor_tag : String) (preferred_skills : List String) :
    Option.map FitResult.score (calculateFitScore rt
      { currentSkills := some currentSkills, interests := interests,
        experienceLevel := experienceLevel, location := location,
        targetRoles := some targetRoles, resumeData := resumeData }
      roadmap
      { role_type := role_type, required_skills := [], preferred_skills := preferred_skills,
        level := level, location_type := location_type, sponsor_tag := sponsor_tag }) =
      some JsNum.nan := by
  have h0 : JsNum.div (JsNum.ofNat 0) (JsNum.ofNat 0) = JsNum.nan := by
    simp [JsNum.div, JsNum.ofNat, JsNum.infTimes]
  simp only [calculateFitScore, Option.map_some', List.map_nil, List.filter_nil, List.length_nil,
    h0, jsMul_nan, jsAdd_nan_left, jsAdd_nan_right]
  split_ifs <;> simp [jsAdd_nan_left, JsNum.round, JsNum.min]
/-! ## The opportunity fit score -/

/-- Claim C11, amended: for a profile that has `targetRoles` and `currentSkills`, and an
opportunity whose `required_skills` (`r` entries, `mr` matched) and `preferred_skills` (`p`
entries, `mp` matched) are non-empty, `calculateFitScore` returns the score `min(100, round(S))`,
where `S` is the sum `A + ((mr / r) * 30 + (mp / p) * 10) + B + C` as the code adds it up in
doubles: the sum of the points is rounded once, the required and the preferred points are not
rounded one by one. `S` lies within `2 ^ (-44)` of the exact sum
`A + 30 * mr / r + 10 * mp / p + B + C`, so the score is `min(100, round(exact sum))` whenever
the exact sum is not that close to a tie of the rounding. `A` is 30 or 0 (role type among the
target roles), `B` is 15 or 0 (level `Intern`) and `C`, the location points, is 15 or 7. -/
theorem calculateFitScore_rounded_sum (rt : JsRuntime) (profile : UserProfile)
    (roadmap : Option Roadmap) (opportunity : Opportunity)
    (htarget : profile.targetRoles.isSome = true) (hskills : profile.currentSkills.isSome = true)
    (hreq : opportunity.required_skills ≠ []) (hpref : opportunity.preferred_skills ≠ []) :
    ∃ res, calculateFitScore rt profile roadmap opportunity = some res ∧
      res.score =
        JsNum.num (min 100 (roundHalfUp (fitDoubleSum rt profile roadmap opportunity) : ℚ)) ∧
      |fitDoubleSum rt profile roadmap opportunity - fitPointsSum rt profile roadmap opportunity|
        ≤ 1 / 2 ^ 44 ∧
      (roundHalfUp (fitPointsSum rt profile roadmap opportunity - 1 / 2 ^ 44) =
          roundHalfUp (fitPointsSum rt profile roadmap opportunity + 1 / 2 ^ 44) →
        res.score =
          JsNum.num (min 100 (roundHalfUp (fitPointsSum rt profile roadmap opportunity) : ℚ))) ∧
      (locationPoints rt profile opportunity = 15 ∨ locationPoints rt profile opportunity = 7) := by
  obtain ⟨res, hres, hscore⟩ :=
    calculateFitScore_score_double rt profile roadmap opportunity htarget hskills hreq hpref
  obtain ⟨-, -, hclose⟩ := fitDoubleSum_bounds rt profile roadmap opportunity hreq hpref
  have hscore' : res.score =
      JsNum.num (min 100 (roundHalfUp (fitDoubleSum rt profile roadmap opportunity) : ℚ)) := by
    rw [hscore, min_comm]
  refine ⟨res, hres, hscore', hclose, ?_, ?_⟩
  · intro htie
    rw [abs_le] at hclose
    have h1 : roundHalfUp (fitPointsSum rt profile roadmap opportunity - 1 / 2 ^ 44) ≤
        roundHalfUp (fitDoubleSum rt profile roadmap opportunity) :=
      roundHalfUp_mono (by linarith [hclose.1])
    have h2 : roundHalfUp (fitDoubleSum rt profile roadmap opportunity) ≤
        roundHalfUp (fitPointsSum rt profile roadmap opportunity + 1 / 2 ^ 44) :=
      roundHalfUp_mono (by linarith [hclose.2])
    have h3 : roundHalfUp (fitPointsSum rt profile roadmap opportunity - 1 / 2 ^ 44) ≤
        roundHalfUp (fitPointsSum rt profile roadmap opportunity) :=
      roundHalfUp_mono (by norm_num)
    have h4 : roundHalfUp (fitPointsSum rt profile roadmap opportunity) ≤
        roundHalfUp (fitPointsSum rt profile roadmap opportunity + 1 / 2 ^ 44) :=
      roundHalfUp_mono (by norm_num)
    have heq : roundHalfUp (fitDoubleSum rt profile roadmap opportunity) =
        roundHalfUp (fitPointsSum rt profile roadmap opportunity) := by omega
    rw [hscore', heq]
  · unfold locationPoints
    split_ifs <;> simp

/-- Claim C11, amended, on examples. The example of the specification (role type matched, 3 of 4
required and 1 of 2 preferred skills matched, level `Intern`, remote) has the score
`round(30 + 22.5 + 5 + 15 + 15) = 88`. With 3 of 4 required and 1 of 4 preferred skills matched
and nothing else but the location floor, the exact sum 32 is far from a tie and the score is 32.
With 15 of 28 required and 1 of 7 preferred skills matched, no role match, a level other than
`Intern` and no location match, the exact sum of the points is the tie 24.5, the double sum lies
below it and the score is 24. -/
theorem calculateFitScore_rounded_sum_witness :
    (∃ res, calculateFitScore sampleRuntime fitProfile none internOpportunity = some res ∧
      res.score = JsNum.num 88) ∧
    (∃ res, calculateFitScore sampleRuntime fitProfile none onsiteOpportunity = some res ∧
      res.score = JsNum.num 32) ∧
    (∃ res, calculateFitScore sampleRuntime broadProfile none broadOpportunity = some res ∧
      res.score = JsNum.num 24) ∧
    fitMatchedCount sampleRuntime broadProfile none broadOpportunity.required_skills = 15 ∧
    broadOpportunity.required_skills.length = 28 ∧
    fitMatchedCount sampleRuntime broadProfile none broadOpportunity.preferred_skills = 1 ∧
    broadOpportunity.preferred_skills.length = 7 ∧
    fitPointsSum sampleRuntime broadProfile none broadOpportunity = 49 / 2 ∧
    fitDoubleSum sampleRuntime broadProfile none broadOpportunity < 49 / 2 := by
  obtain ⟨res, h1, h2, -, -, -⟩ := calculateFitScore_rounded_sum sampleRuntime fitProfile none
    internOpportunity (by decide) (by decide) (by decide) (by decide)
  obtain ⟨res1, j1, -, -, j3, -⟩ := calculateFitScore_rounded_sum sampleRuntime fitProfile none
    onsiteOpportunity (by decide) (by decide) (by decide) (by decide)
  obtain ⟨res2, k1, k2, -, -, -⟩ := calculateFitScore_rounded_sum sampleRuntime broadProfile none
    broadOpportunity (by decide) (by decide) (by decide) (by decide)
  have h88 : (min 100 (roundHalfUp (fitDoubleSum sampleRuntime fitProfile none
      internOpportunity) : ℚ)) = 88 := by
    decide!
  have h32 : fitPointsSum sampleRuntime fitProfile none onsiteOpportunity = 32 := by
    decide!
  have h24 : (min 100 (roundHalfUp (fitDoubleSum sampleRuntime broadProfile none
      broadOpportunity) : ℚ)) = 24 := by
    decide!
  have e1 : roundHalfUp ((32 : ℚ) - 1 / 2 ^ 44) = 32 := by
    unfold roundHalfUp
    rw [Int.floor_eq_iff]
    constructor <;> norm_num
  have e2 : roundHalfUp ((32 : ℚ) + 1 / 2 ^ 44) = 32 := by
    unfold roundHalfUp
    rw [Int.floor_eq_iff]
    constructor <;> norm_num
  have e3 : roundHalfUp (32 : ℚ) = 32 := by exact_mod_cast roundHalfUp_intCast 32
  refine ⟨⟨res, h1, by rw [h2, h88]⟩, ⟨res1, j1, ?_⟩, ⟨res2, k1, by rw [k2, h24]⟩, by decide,
    by decide, by decide, by decide, by decide!, by decide!⟩
  rw [h32, e1, e2, e3] at j3
  rw [j3 rfl]
  norm_num

/-- Claim C11 as stated fails: with 3 of 4 required skills (22.5 points) and 1 of 4 preferred
skills (2.5 points) matched, no role match, a level other than `Intern` and no location match,
`calculateFitScore` returns `round(22.5 + 2.5 + 7) = 32`, while the parts rounded one by one
give `23 + 3 + 7 = 33`. -/
theorem calculateFitScore_rounded_parts_counterexample :
    onsiteOpportunity.required_skills ≠ [] ∧ onsiteOpportunity.preferred_skills ≠ [] ∧
    fitMatchedCount sampleRuntime fitProfile none onsiteOpportunity.required_skills = 3 ∧
    fitMatchedCount sampleRuntime fitProfile none onsiteOpportunity.preferred_skills = 1 ∧
    Option.map FitResult.score (calculateFitScore sampleRuntime fitProfile none onsiteOpportunity)
      = some (JsNum.num 32) ∧
    fitScoreRoundedParts sampleRuntime fitProfile none onsiteOpportunity = 33 := by
  decide!

/-! ## The AI matcher -/

/-- Claim C12: when the collaborator fails on every call (every call of `aiService.chat`
throws), `calculateAIRoleMatches(profile)` returns the list `getTopRoleMatches(profile, 3)`: the
same three results (role ids, scores and all other fields) in the same order. -/
theorem calculateAIRoleMatches_all_fail (rt : JsRuntime) (svc : AIService)
    (buildPrompt : UserProfile → RoleProfile → String) (api : RoleProfile → Completion)
    (userProfile : UserProfile)
    (hfail : ∀ roleProfile, ∃ e, AIService.chat rt svc (api roleProfile)
      (buildPrompt userProfile roleProfile) = Except.error e) :
    calculateAIRoleMatches rt svc buildPrompt api (some userProfile) =
      Except.ok (getTopRoleMatches rt userProfile 3) ∧
    (getTopRoleMatches rt userProfile 3).length = 3 := by
  constructor
  · simp only [calculateAIRoleMatches]
    rw [promiseAll_map_ok _ (calculateRoleMatch rt userProfile) _
      (fun roleProfile _ => calculateAIRoleMatch_of_throws _ _ _ _ _ _ (hfail roleProfile))]
    rfl
  · simp only [getTopRoleMatches, calculateAllRoleMatches, List.length_take,
      length_sortByScore, List.length_map, getAllRoleProfiles_length]
    rfl

/-- Claim C12 on the sample profile, with a collaborator that always throws: the three results
are those of the frontend, backend and software engineer, with the scores 32, 32 and 22. -/
theorem calculateAIRoleMatches_all_fail_witness :
    (calculateAIRoleMatches sampleRuntime liveService samplePrompt (fun _ => Completion.throws)
        (some sampleProfile) =
      Except.ok (getTopRoleMatches sampleRuntime sampleProfile 3) ∧
    (getTopRoleMatches sampleRuntime sampleProfile 3).length = 3) ∧
    (getTopRoleMatches sampleRuntime sampleProfile 3).map (fun m => (m.roleId, m.score)) =
      [("frontend-engineer", JsNum.num 32), ("backend-engineer", JsNum.num 32),
        ("software-engineer", JsNum.num 22)] :=
  ⟨calculateAIRoleMatches_all_fail sampleRuntime liveService samplePrompt
    (fun _ => Completion.throws) sampleProfile (fun _ => ⟨_, rfl⟩), by decide!⟩

/-- Claim C13: the promise of `calculateAIRoleMatch` resolves with exactly
`calculateRoleMatch(profile, role)` when the request for the role throws, when the client is
missing, when the reply is no valid JSON, and in demo mode (given that `JSON.parse` rejects the
canned sentences of the stub). A reply that parses to a value `v` with a score that coerces to
the number `x` gives the result built from the reply: the id and the name of the role, the score
`x` clamped to `[0, 100]`, and each of `matchedSkills`, `gapSkills`, `bonusSkills`, `matchLevel`
and `recommendation` read from `v`, with its default when the field is falsy; when `x` lies in
`[0, 100]` and the five fields are truthy, these are `x` and the fields of the reply themselves.
The batch completes, and each of its entries is the per-role result of its own role. When the
request fails for the roles of one id and every other role gets a valid reply, the batch is made
of the deterministic result for that id and of the result built from its own reply for every
other role. -/
theorem calculateAIRoleMatch_fallback_isolated (rt : JsRuntime) (svc : AIService)
    (buildPrompt : UserProfile → RoleProfile → String) (api : RoleProfile → Completion)
    (userProfile : UserProfile) :
    (∀ roleProfile, svc.demoMode = false → api roleProfile = Completion.throws →
      calculateAIRoleMatch rt svc (buildPrompt userProfile roleProfile) (api roleProfile)
        userProfile roleProfile = Except.ok (calculateRoleMatch rt userProfile roleProfile)) ∧
    (∀ roleProfile, svc.demoMode = false → svc.hasClient = false →
      calculateAIRoleMatch rt svc (buildPrompt userProfile roleProfile) (api roleProfile)
        userProfile roleProfile = Except.ok (calculateRoleMatch rt userProfile roleProfile)) ∧
    (∀ roleProfile s, svc.demoMode = false → api roleProfile = Completion.text s →
      rt.jsonParse s = none →
      calculateAIRoleMatch rt svc (buildPrompt userProfile roleProfile) (api roleProfile)
        userProfile roleProfile = Except.ok (calculateRoleMatch rt userProfile roleProfile)) ∧
    (∀ roleProfile, svc.demoMode = true →
      (∀ entry ∈ mockResponses, rt.jsonParse entry.2 = none) →
      calculateAIRoleMatch rt svc (buildPrompt userProfile roleProfile) (api roleProfile)
        userProfile roleProfile = Except.ok (calculateRoleMatch rt userProfile roleProfile)) ∧
    (∀ roleProfile s v x, svc.demoMode = false → svc.hasClient = true →
      api roleProfile = Completion.text s → rt.jsonParse s = some v →
      v ≠ JsVal.null → v ≠ JsVal.undefined → rt.toNumber (v.getProp "score") = some x →
      calculateAIRoleMatch rt svc (buildPrompt userProfile roleProfile) (api roleProfile)
          userProfile roleProfile =
        Except.ok
          { roleId := roleProfile.id,
            roleName := roleProfile.name,
            score := JsNum.max (JsNum.num 0) (JsNum.min (JsNum.num 100) x),
            matchedSkills := JsVal.orElse (v.getProp "matchedSkills") (JsVal.arr []),
            gapSkills := JsVal.orElse (v.getProp "gapSkills") (JsVal.arr []),
            bonusSkills := JsVal.orElse (v.getProp "bonusSkills") (JsVal.arr []),
            matchLevel := JsVal.orElse (v.getProp "matchLevel") (JsVal.str (getMatchLevel x)),
            recommendation := JsVal.orElse (v.getProp "recommendation")
              (JsVal.str ("Based on your profile, " ++ roleProfile.name ++
                " could be a good fit.")) } ∧
      ∀ q : ℚ, x = JsNum.num q → 0 ≤ q → q ≤ 100 →
        (v.getProp "matchedSkills").truthy = true → (v.getProp "gapSkills").truthy = true →
        (v.getProp "bonusSkills").truthy = true → (v.getProp "matchLevel").truthy = true →
        (v.getProp "recommendation").truthy = true →
        calculateAIRoleMatch rt svc (buildPrompt userProfile roleProfile) (api roleProfile)
            userProfile roleProfile =
          Except.ok
            { roleId := roleProfile.id,
              roleName := roleProfile.name,
              score := JsNum.num q,
              matchedSkills := v.getProp "matchedSkills",
              gapSkills := v.getProp "gapSkills",
              bonusSkills := v.getProp "bonusSkills",
              matchLevel := v.getProp "matchLevel",
              recommendation := v.getProp "recommendation" }) ∧
    (∃ l, calculateAIRoleMatches rt svc buildPrompt api (some userProfile) = Except.ok l ∧
      ∀ m ∈ l, ∃ roleProfile ∈ getAllRoleProfiles, roleProfile.id = m.roleId ∧
        calculateAIRoleMatch rt svc (buildPrompt userProfile roleProfile) (api roleProfile)
          userProfile roleProfile = Except.ok m) ∧
    (∀ (failed : String) (s : RoleProfile → String) (v : RoleProfile → JsVal)
      (x : RoleProfile → JsNum), svc.demoMode = false → svc.hasClient = true →
      (∀ roleProfile, roleProfile.id = failed → api roleProfile = Completion.throws) →
      (∀ roleProfile, roleProfile.id ≠ failed →
        api roleProfile = Completion.text (s roleProfile) ∧
        rt.jsonParse (s roleProfile) = some (v roleProfile) ∧
        v roleProfile ≠ JsVal.null ∧ v roleProfile ≠ JsVal.undefined ∧
        rt.toNumber ((v roleProfile).getProp "score") = some (x roleProfile)) →
      calculateAIRoleMatches rt svc buildPrompt api (some userProfile) =
        Except.ok ((sortByScore (getAllRoleProfiles.map (fun roleProfile =>
          if roleProfile.id = failed then calculateRoleMatch rt userProfile roleProfile
          else
            { roleId := roleProfile.id,
              roleName := roleProfile.name,
              score := JsNum.max (JsNum.num 0) (JsNum.min (JsNum.num 100) (x roleProfile)),
              matchedSkills :=
                JsVal.orElse ((v roleProfile).getProp "matchedSkills") (JsVal.arr []),
              gapSkills := JsVal.orElse ((v roleProfile).getProp "gapSkills") (JsVal.arr []),
              bonusSkills := JsVal.orElse ((v roleProfile).getProp "bonusSkills") (JsVal.arr []),
              matchLevel := JsVal.orElse ((v roleProfile).getProp "matchLevel")
                (JsVal.str (getMatchLevel (x roleProfile))),
              recommendation := JsVal.orElse ((v roleProfile).getProp "recommendation")
                (JsVal.str ("Based on your profile, " ++ roleProfile.name ++
                  " could be a good fit.")) }))).take 3)) := by
  refine ⟨?_, ?_, ?_, ?_, ?_, ?_, ?_⟩
  · intro roleProfile hdemo h
    apply calculateAIRoleMatch_of_throws
    rw [h]
    exact chat_throws rt svc _ hdemo
  · intro roleProfile hdemo hclient
    exact calculateAIRoleMatch_of_throws _ _ _ _ _ _ (chat_no_client rt svc _ _ hdemo hclient)
  · intro roleProfile s hdemo h hs
    cases hc : svc.hasClient
    · exact calculateAIRoleMatch_of_throws _ _ _ _ _ _ (chat_no_client rt svc _ _ hdemo hc)
    · apply calculateAIRoleMatch_of_text _ _ _ _ _ _ s _ hs
      rw [h]
      exact chat_live rt svc s _ hdemo hc
  · intro roleProfile hdemo hmock
    obtain ⟨entry, hmem, hentry⟩ :=
      generateMockChatResponse_mem rt (buildPrompt userProfile roleProfile)
    apply calculateAIRoleMatch_of_text _ _ _ _ _ _ entry.2 _ (hmock entry hmem)
    rw [chat_demo rt svc _ _ hdemo, hentry]
  · intro roleProfile s v x hdemo hclient h hparse hnull hundef hscore
    have hres := calculateAIRoleMatch_accepted rt svc (buildPrompt userProfile roleProfile)
      (api roleProfile) userProfile roleProfile s v x
      (by rw [h]; exact chat_live rt svc s _ hdemo hclient) hparse hnull hundef hscore
    refine ⟨hres, ?_⟩
    intro q hx h0 h100 t1 t2 t3 t4 t5
    rw [hres, hx]
    simp only [aiResult, JsVal.orElse, t1, t2, t3, t4, t5, if_true, JsNum.ofNat, jsMin_num,
      jsMax_num]
    have e : max ((0 : ℕ) : ℚ) (min ((100 : ℕ) : ℚ) q) = q := by
      push_cast
      rw [min_eq_right h100, max_eq_right h0]
    rw [e]
  · refine ⟨_, calculateAIRoleMatches_eq rt svc buildPrompt api userProfile, ?_⟩
    intro m hm
    have hm' := mem_sortByScore.mp (List.mem_of_mem_take hm)
    obtain ⟨roleProfile, hrole, rfl⟩ := List.mem_map.mp hm'
    exact ⟨roleProfile, hrole, (perRoleMatch_roleId _ _ _ _ _ _).symm,
      calculateAIRoleMatch_resolves _ _ _ _ _ _⟩
  · intro failed s v x hdemo hclient hfail hvalid
    simp only [calculateAIRoleMatches]
    rw [promiseAll_map_ok _ _ _ (fun roleProfile _ => ?_)]
    by_cases hid : roleProfile.id = failed
    · rw [if_pos hid]
      apply calculateAIRoleMatch_of_throws
      rw [hfail roleProfile hid]
      exact chat_throws rt svc _ hdemo
    · rw [if_neg hid]
      obtain ⟨h1, h2, h3, h4, h5⟩ := hvalid roleProfile hid
      exact calculateAIRoleMatch_accepted rt svc (buildPrompt userProfile roleProfile)
        (api roleProfile) userProfile roleProfile (s roleProfile) (v roleProfile)
        (x roleProfile) (by rw [h1]; exact chat_live rt svc _ _ hdemo hclient) h2 h3 h4 h5

/-- Claim C13 on the sample profile: in demo mode the result for the sample role is the
deterministic one, of score 22; with a live service and `mixedApi`, the software engineer
(request throws) and the data analyst (reply is prose) get their deterministic results; with
`isolatedApi` the frontend engineer keeps the score 72, the skill lists, the level and the
recommendation of its reply, and the batch, in which the request for the software engineer
fails, returns three roles with the values of their replies. -/
theorem calculateAIRoleMatch_fallback_isolated_witness :
    calculateAIRoleMatch sampleRuntime demoService (samplePrompt sampleProfile sampleRole)
        (mixedApi sampleRole) sampleProfile sampleRole =
      Except.ok (calculateRoleMatch sampleRuntime sampleProfile sampleRole) ∧
    calculateAIRoleMatch sampleRuntime liveService (samplePrompt sampleProfile sampleRole)
        (mixedApi sampleRole) sampleProfile sampleRole =
      Except.ok (calculateRoleMatch sampleRuntime sampleProfile sampleRole) ∧
    calculateAIRoleMatch sampleRuntime liveService
        (samplePrompt sampleProfile { sampleRole with id := "data-analyst" })
        (mixedApi { sampleRole with id := "data-analyst" }) sampleProfile
        { sampleRole with id := "data-analyst" } =
      Except.ok (calculateRoleMatch sampleRuntime sampleProfile
        { sampleRole with id := "data-analyst" }) ∧
    (calculateRoleMatch sampleRuntime sampleProfile sampleRole).score = JsNum.num 22 ∧
    calculateAIRoleMatch sampleRuntime liveService
        (samplePrompt sampleProfile
          { sampleRole with id := "frontend-engineer", name := "Frontend Engineer" })
        (isolatedApi { sampleRole with id := "frontend-engineer", name := "Frontend Engineer" })
        sampleProfile { sampleRole with id := "frontend-engineer", name := "Frontend Engineer" } =
      Except.ok
        { roleId := "frontend-engineer",
          roleName := "Frontend Engineer",
          score := JsNum.num 72,
          matchedSkills := JsVal.arr [JsVal.str "git"],
          gapSkills := JsVal.arr [JsVal.str "algorithms"],
          bonusSkills := JsVal.arr [JsVal.str "sql"],
          matchLevel := JsVal.str "good",
          recommendation := JsVal.str "Practise algorithms." } ∧
    Except.map (List.map (fun m => (m.roleId, m.score)))
        (calculateAIRoleMatches sampleRuntime liveService samplePrompt isolatedApi
          (some sampleProfile)) =
      Except.ok [("frontend-engineer", JsNum.num 72), ("backend-engineer", JsNum.num 72),
        ("full-stack-engineer", JsNum.num 72)] := by
  have hparse : sampleRuntime.jsonParse fullReply = some fullReplyValue := by
    simp [sampleRuntime, sampleJson, List.lookup, fullReply, fullReplyValue]
  have hvalid : ∀ roleProfile : RoleProfile, roleProfile.id ≠ "software-engineer" →
      isolatedApi roleProfile = Completion.text fullReply ∧
      sampleRuntime.jsonParse fullReply = some fullReplyValue ∧
      fullReplyValue ≠ JsVal.null ∧ fullReplyValue ≠ JsVal.undefined ∧
      sampleRuntime.toNumber (fullReplyValue.getProp "score") = some (JsNum.num 72) := by
    intro roleProfile hid
    refine ⟨by simp [isolatedApi, hid], hparse, by simp [fullReplyValue],
      by simp [fullReplyValue], rfl⟩
  refine ⟨?_, ?_, ?_, by decide!, ?_, ?_⟩
  · exact (calculateAIRoleMatch_fallback_isolated sampleRuntime demoService samplePrompt mixedApi
      sampleProfile).2.2.2.1 sampleRole rfl
      (by
        intro entry h
        simp only [mockResponses, List.mem_cons, List.mem_singleton, List.not_mem_nil,
          or_false] at h
        rcases h with rfl | rfl | rfl | rfl <;> rfl)
  · exact (calculateAIRoleMatch_fallback_isolated sampleRuntime liveService samplePrompt mixedApi
      sampleProfile).1 sampleRole rfl rfl
  · exact (calculateAIRoleMatch_fallback_isolated sampleRuntime liveService samplePrompt mixedApi
      sampleProfile).2.2.1 _ "I cannot answer that." rfl rfl rfl
  · exact ((calculateAIRoleMatch_fallback_isolated sampleRuntime liveService samplePrompt
      isolatedApi sampleProfile).2.2.2.2.1 _ fullReply fullReplyValue (JsNum.num 72) rfl rfl
      (by simp [isolatedApi]) hparse (by simp [fullReplyValue]) (by simp [fullReplyValue])
      rfl).2 72 rfl (by norm_num) (by norm_num) rfl rfl rfl rfl rfl
  · rw [(calculateAIRoleMatch_fallback_isolated sampleRuntime liveService samplePrompt
      isolatedApi sampleProfile).2.2.2.2.2.2 "software-engineer" (fun _ => fullReply)
      (fun _ => fullReplyValue) (fun _ => JsNum.num 72) rfl rfl
      (fun roleProfile hid => by simp [isolatedApi, hid]) hvalid]
    show Except.ok _ = Except.ok _
    exact congrArg Except.ok (by decide!)

/-- Claim C14, amended: when the reply parses to a value whose `score` is a number outside
`[0, 100]`, `calculateAIRoleMatch` does not fall back to the deterministic match: it returns the
result built from the reply, with the score clamped to the nearer bound (0 below, 100 above). -/
theorem calculateAIRoleMatch_out_of_range_clamped (rt : JsRuntime) (svc : AIService)
    (prompt : String) (userProfile : UserProfile) (roleProfile : RoleProfile) (s : String)
    (v : JsVal) (q : ℚ) (hdemo : svc.demoMode = false) (hclient : svc.hasClient = true)
    (hparse : rt.jsonParse s = some v)
    (hscore : v.getProp "score" = JsVal.num (JsNum.num q)) (hout : q < 0 ∨ 100 < q) :
    calculateAIRoleMatch rt svc prompt (Completion.text s) userProfile roleProfile =
      Except.ok (aiResult roleProfile v (JsNum.num q)) ∧
    (aiResult roleProfile v (JsNum.num q)).score = JsNum.num (if q < 0 then 0 else 100) := by
  constructor
  · apply calculateAIRoleMatch_accepted rt svc prompt _ userProfile roleProfile s v _
      (chat_live rt svc s prompt hdemo hclient) hparse
    · rintro rfl
      simp [JsVal.getProp] at hscore
    · rintro rfl
      simp [JsVal.getProp] at hscore
    · rw [hscore]
      rfl
  · simp only [aiResult, JsNum.ofNat, jsMin_num, jsMax_num]
    congr 1
    rcases hout with h | h
    · rw [if_pos h]
      push_cast
      rw [min_eq_right (by linarith), max_eq_left (le_of_lt h)]
    · rw [if_neg (by linarith)]
      push_cast
      rw [min_eq_left (le_of_lt h), max_eq_right (by norm_num)]

/-- Claim C14, amended, on a reply with the score 150: the result carries the score 100. -/
theorem calculateAIRoleMatch_out_of_range_clamped_witness :
    calculateAIRoleMatch sampleRuntime liveService "" (Completion.text "\x7b\"score\": 150\x7d")
        sampleProfile sampleRole =
      Except.ok (aiResult sampleRole (JsVal.obj [("score", JsVal.num (JsNum.num 150))])
        (JsNum.num 150)) ∧
    (aiResult sampleRole (JsVal.obj [("score", JsVal.num (JsNum.num 150))])
      (JsNum.num 150)).score = JsNum.num (if (150 : ℚ) < 0 then 0 else 100) :=
  calculateAIRoleMatch_out_of_range_clamped sampleRuntime liveService "" sampleProfile sampleRole
    "\x7b\"score\": 150\x7d" (JsVal.obj [("score", JsVal.num (JsNum.num 150))]) 150 rfl rfl rfl
    rfl (Or.inr (by norm_num))

/-- Claim C14 as stated fails: for a reply that parses and carries the score 150,
`calculateAIRoleMatch` returns a result with the score 100, not the deterministic result, whose
score is 22. -/
theorem calculateAIRoleMatch_out_of_range_counterexample :
    ∃ m, calculateAIRoleMatch sampleRuntime liveService ""
        (Completion.text "\x7b\"score\": 150\x7d") sampleProfile sampleRole = Except.ok m ∧
      m.score = JsNum.num 100 ∧
      (calculateRoleMatch sampleRuntime sampleProfile sampleRole).score = JsNum.num 22 :=
  ⟨_, rfl, by decide!, by decide!⟩

/-- The sort on scores with a `NaN`. On the scores 10, 50, `NaN` and seven times 90 the first two
results form a descending run, which is reversed; the result with the `NaN` stays behind it, and
the results of score 90 are inserted at the front, in their order. On the scores 10, `NaN`, 90
and seven times 50 no comparison of neighbours is negative (those with the `NaN` count as zero),
so the whole array is one run that is not descending, and it stays as it is. -/
theorem sortByScore_nan_example :
    (sortByScore [scoredResult "a" (JsNum.num 10), scoredResult "b" (JsNum.num 50),
      scoredResult "c" JsNum.nan, scoredResult "d" (JsNum.num 90),
      scoredResult "e" (JsNum.num 90), scoredResult "f" (JsNum.num 90),
      scoredResult "g" (JsNum.num 90), scoredResult "h" (JsNum.num 90),
      scoredResult "i" (JsNum.num 90), scoredResult "j" (JsNum.num 90)]).map
        (fun m => m.roleId) = ["d", "e", "f", "g", "h", "i", "j", "b", "a", "c"] ∧
    (sortByScore [scoredResult "a" (JsNum.num 10), scoredResult "b" JsNum.nan,
      scoredResult "c" (JsNum.num 90), scoredResult "d" (JsNum.num 50),
      scoredResult "e" (JsNum.num 50), scoredResult "f" (JsNum.num 50),
      scoredResult "g" (JsNum.num 50), scoredResult "h" (JsNum.num 50),
      scoredResult "i" (JsNum.num 50), scoredResult "j" (JsNum.num 50)]).map
        (fun m => m.roleId) = ["a", "b", "c", "d", "e", "f", "g", "h", "i", "j"] := by
  decide!

/-- The top three of the batch: when none of the per-role results has the score `NaN`,
`calculateAIRoleMatches` returns exactly 3 results, those of 3 distinct catalog roles, in
non-increasing score order, and the per-role result of every catalog role left out has a score
not greater than any returned score. -/
theorem calculateAIRoleMatches_top3 (rt : JsRuntime) (svc : AIService)
    (buildPrompt : UserProfile → RoleProfile → String) (api : RoleProfile → Completion)
    (userProfile : UserProfile)
    (hnum : ∀ roleProfile ∈ getAllRoleProfiles,
      (perRoleMatch rt svc buildPrompt api userProfile roleProfile).score ≠ JsNum.nan) :
    ∃ l, calculateAIRoleMatches rt svc buildPrompt api (some userProfile) = Except.ok l ∧
      l.length = 3 ∧ (l.map (fun m => m.roleId)).Nodup ∧
      (∀ m ∈ l, ∃ roleProfile ∈ getAllRoleProfiles, roleProfile.id = m.roleId ∧
        calculateAIRoleMatch rt svc (buildPrompt userProfile roleProfile) (api roleProfile)
          userProfile roleProfile = Except.ok m) ∧
      l.Pairwise (fun a b => JsNum.ge a.score b.score = true) ∧
      ∀ roleProfile ∈ getAllRoleProfiles, roleProfile.id ∉ l.map (fun m => m.roleId) →
        ∃ r, calculateAIRoleMatch rt svc (buildPrompt userProfile roleProfile) (api roleProfile)
            userProfile roleProfile = Except.ok r ∧
          ∀ m ∈ l, JsNum.le r.score m.score = true := by
  have hfin : ∀ m ∈ getAllRoleProfiles.map (perRoleMatch rt svc buildPrompt api userProfile),
      ∃ q, m.score = JsNum.num q := by
    intro m hm
    obtain ⟨roleProfile, hrole, rfl⟩ := List.mem_map.mp hm
    rcases perRoleMatch_score rt svc buildPrompt api userProfile roleProfile with
      h | ⟨q, h, -, -⟩
    · exact absurd h (hnum roleProfile hrole)
    · exact ⟨q, h⟩
  have hsorted := sorted_sortByScore _ hfin
  have hperm : List.Perm
      (sortByScore (getAllRoleProfiles.map (perRoleMatch rt svc buildPrompt api userProfile)))
      (getAllRoleProfiles.map (perRoleMatch rt svc buildPrompt api userProfile)) :=
    perm_sortByScore _
  have hge : ∀ a b : RoleMatchResult,
      a ∈ sortByScore (getAllRoleProfiles.map (perRoleMatch rt svc buildPrompt api userProfile)) →
      b ∈ sortByScore (getAllRoleProfiles.map (perRoleMatch rt svc buildPrompt api userProfile)) →
      scoreOrder a b → JsNum.le b.score a.score = true := by
    intro a b ha hb hab
    obtain ⟨x, hx⟩ := hfin a (hperm.mem_iff.mp ha)
    obtain ⟨y, hy⟩ := hfin b (hperm.mem_iff.mp hb)
    rw [scoreOrder_num hx hy] at hab
    simp [hx, hy, JsNum.le, hab]
  refine ⟨_, calculateAIRoleMatches_eq rt svc buildPrompt api userProfile, ?_, ?_, ?_, ?_, ?_⟩
  · rw [List.length_take, hperm.length_eq, List.length_map, getAllRoleProfiles_length]
    rfl
  · have hids : ((sortByScore (getAllRoleProfiles.map
        (perRoleMatch rt svc buildPrompt api userProfile))).map (fun m => m.roleId)).Nodup := by
      rw [(hperm.map _).nodup_iff, List.map_map]
      have hid : ((fun m : RoleMatchResult => m.roleId) ∘
          perRoleMatch rt svc buildPrompt api userProfile) = fun roleProfile => roleProfile.id := by
        funext roleProfile
        exact perRoleMatch_roleId _ _ _ _ _ _
      rw [hid]
      decide
    exact hids.sublist ((List.take_sublist 3 _).map _)
  · intro m hm
    obtain ⟨roleProfile, hrole, rfl⟩ :=
      List.mem_map.mp (hperm.mem_iff.mp (List.mem_of_mem_take hm))
    exact ⟨roleProfile, hrole, (perRoleMatch_roleId _ _ _ _ _ _).symm,
      calculateAIRoleMatch_resolves _ _ _ _ _ _⟩
  · refine (hsorted.sublist (List.take_sublist 3 _)).imp_of_mem ?_
    intro a b ha hb hab
    exact hge a b (List.mem_of_mem_take ha) (List.mem_of_mem_take hb) hab
  · intro roleProfile hrole hout
    refine ⟨_, calculateAIRoleMatch_resolves rt svc buildPrompt api userProfile roleProfile, ?_⟩
    intro m hm
    have hin : perRoleMatch rt svc buildPrompt api userProfile roleProfile ∈
        sortByScore (getAllRoleProfiles.map (perRoleMatch rt svc buildPrompt api userProfile)) :=
      hperm.mem_iff.mpr (List.mem_map_of_mem _ hrole)
    rw [← List.take_append_drop 3 (sortByScore (getAllRoleProfiles.map
      (perRoleMatch rt svc buildPrompt api userProfile)))] at hin
    rcases List.mem_append.mp hin with h | h
    · exfalso
      apply hout
      have hid : (perRoleMatch rt svc buildPrompt api userProfile roleProfile).roleId =
          roleProfile.id := perRoleMatch_roleId _ _ _ _ _ _
      have hmap := List.mem_map_of_mem (fun m : RoleMatchResult => m.roleId) h
      simp only [hid] at hmap
      exact hmap
    · exact hge m _ (List.mem_of_mem_take hm) (List.mem_of_mem_drop h)
        (hsorted.rel_of_mem_take_of_mem_drop hm h)

/-- The top three of the batch on the sample profile with the collaborator `mixedApi`, two of
whose requests fail: the three results returned carry the score 72 of the replies. -/
theorem calculateAIRoleMatches_top3_witness :
    (∃ l, calculateAIRoleMatches sampleRuntime liveService samplePrompt mixedApi
        (some sampleProfile) = Except.ok l ∧
      l.length = 3 ∧ (l.map (fun m => m.roleId)).Nodup ∧
      (∀ m ∈ l, ∃ roleProfile ∈ getAllRoleProfiles, roleProfile.id = m.roleId ∧
        calculateAIRoleMatch sampleRuntime liveService (samplePrompt sampleProfile roleProfile)
          (mixedApi roleProfile) sampleProfile roleProfile = Except.ok m) ∧
      l.Pairwise (fun a b => JsNum.ge a.score b.score = true) ∧
      ∀ roleProfile ∈ getAllRoleProfiles, roleProfile.id ∉ l.map (fun m => m.roleId) →
        ∃ r, calculateAIRoleMatch sampleRuntime liveService
            (samplePrompt sampleProfile roleProfile) (mixedApi roleProfile) sampleProfile
            roleProfile = Except.ok r ∧
          ∀ m ∈ l, JsNum.le r.score m.score = true) ∧
    getAllRoleProfiles.map (fun roleProfile => (perRoleMatch sampleRuntime liveService
        samplePrompt mixedApi sampleProfile roleProfile).score) =
      [JsNum.num 22, JsNum.num 72, JsNum.num 72, JsNum.num 72, JsNum.num 72, JsNum.num 20,
        JsNum.num 72, JsNum.num 72, JsNum.num 72, JsNum.num 72] :=
  ⟨calculateAIRoleMatches_top3 sampleRuntime liveService samplePrompt mixedApi sampleProfile
    (by decide!), by decide!⟩

/-- Claim C15 fails on the code: with `erraticApi` the per-role scores are, in catalog order,
10, `NaN` (the reply of the second role carries no score and is not checked), 90, and 50 seven
times. The comparator returns `NaN` whenever the second result is involved, the sort leaves the
array as it is, and the three results returned are the first three of the catalog, with the
scores 10, `NaN` and 90: they are not in non-increasing order, and each of the seven roles left
out has the score 50, greater than the returned 10. -/
theorem calculateAIRoleMatches_unsorted_on_nan :
    getAllRoleProfiles.map (fun roleProfile => (erraticApi roleProfile,
        (perRoleMatch sampleRuntime liveService samplePrompt erraticApi sampleProfile
          roleProfile).score)) =
      [(Completion.text "\x7b\"score\": 10\x7d", JsNum.num 10),
        (Completion.text "\x7b\x7d", JsNum.nan),
        (Completion.text "\x7b\"score\": 90\x7d", JsNum.num 90),
        (Completion.text "\x7b\"score\": 50\x7d", JsNum.num 50),
        (Completion.text "\x7b\"score\": 50\x7d", JsNum.num 50),
        (Completion.text "\x7b\"score\": 50\x7d", JsNum.num 50),
        (Completion.text "\x7b\"score\": 50\x7d", JsNum.num 50),
        (Completion.text "\x7b\"score\": 50\x7d", JsNum.num 50),
        (Completion.text "\x7b\"score\": 50\x7d", JsNum.num 50),
        (Completion.text "\x7b\"score\": 50\x7d", JsNum.num 50)] ∧
    ∃ l, calculateAIRoleMatches sampleRuntime liveService samplePrompt erraticApi
        (some sampleProfile) = Except.ok l ∧
      l.map (fun m => (m.roleId, m.score)) =
        [("software-engineer", JsNum.num 10), ("frontend-engineer", JsNum.nan),
          ("backend-engineer", JsNum.num 90)] ∧
      ¬ l.Pairwise (fun a b => JsNum.ge a.score b.score = true) ∧
      (∃ roleProfile ∈ getAllRoleProfiles, roleProfile.id ∉ l.map (fun m => m.roleId) ∧
        (perRoleMatch sampleRuntime liveService samplePrompt erraticApi sampleProfile
          roleProfile).score = JsNum.num 50 ∧
        ∃ m ∈ l, m.score = JsNum.num 10) :=
  ⟨by decide!, _, calculateAIRoleMatches_eq _ _ _ _ _, by decide!, by decide!, by decide!⟩

/-- Claim C16, amended: in a result that `calculateAIRoleMatch` builds from an accepted reply,
`matchLevel` is the tier of the returned score when the reply carries no `matchLevel` (or a falsy
one); otherwise it is the `matchLevel` of the reply, whatever the score. -/
theorem calculateAIRoleMatch_matchLevel (rt : JsRuntime) (svc : AIService) (prompt : String)
    (userProfile : UserProfile) (roleProfile : RoleProfile) (s : String) (v : JsVal) (x : JsNum)
    (hdemo : svc.demoMode = false) (hclient : svc.hasClient = true)
    (hparse : rt.jsonParse s = some v) (hnull : v ≠ JsVal.null) (hundef : v ≠ JsVal.undefined)
    (hscore : rt.toNumber (v.getProp "score") = some x) :
    ∃ m, calculateAIRoleMatch rt svc prompt (Completion.text s) userProfile roleProfile =
        Except.ok m ∧
      ((v.getProp "matchLevel").truthy = false → m.matchLevel = JsVal.str (tierOf m.score)) ∧
      ((v.getProp "matchLevel").truthy = true → m.matchLevel = v.getProp "matchLevel") := by
  refine ⟨_, calculateAIRoleMatch_accepted rt svc prompt _ userProfile roleProfile s v x
    (chat_live rt svc s prompt hdemo hclient) hparse hnull hundef hscore, ?_, ?_⟩
  · intro h
    simp only [aiResult, JsVal.orElse, h, Bool.false_eq_true, if_false]
    rw [getMatchLevel_clamp]
  · intro h
    simp only [aiResult, JsVal.orElse, h, if_true]

/-- Claim C16, amended, on a reply that carries the score 72 and no match level: the match level
is `good`, the tier of 72. -/
theorem calculateAIRoleMatch_matchLevel_witness :
    ∃ m, calculateAIRoleMatch sampleRuntime liveService ""
        (Completion.text "\x7b\"score\": 72\x7d") sampleProfile sampleRole = Except.ok m ∧
      m.matchLevel = JsVal.str (tierOf m.score) ∧ tierOf m.score = "good" := by
  obtain ⟨m, h1, h2, -⟩ := calculateAIRoleMatch_matchLevel sampleRuntime liveService ""
    sampleProfile sampleRole "\x7b\"score\": 72\x7d"
    (JsVal.obj [("score", JsVal.num (JsNum.num 72))]) (JsNum.num 72) rfl rfl rfl (by simp)
    (by simp) rfl
  refine ⟨m, h1, h2 rfl, ?_⟩
  have hm : Except.ok m = (Except.ok (aiResult sampleRole
      (JsVal.obj [("score", JsVal.num (JsNum.num 72))]) (JsNum.num 72)) :
      Except String RoleMatchResult) := by
    rw [← h1]
    rfl
  rw [Except.ok.inj hm]
  decide!

/-- Claim C16 as stated fails: for a reply with the score 90 and the match level `fair`,
`calculateAIRoleMatch` returns the score 90 with the match level `fair`, while the tier of 90
is `excellent`. -/
theorem calculateAIRoleMatch_matchLevel_counterexample :
    ∃ m, calculateAIRoleMatch sampleRuntime liveService ""
        (Completion.text "\x7b\"score\": 90, \"matchLevel\": \"fair\"\x7d")
        sampleProfile sampleRole = Except.ok m ∧
      m.score = JsNum.num 90 ∧ m.matchLevel = JsVal.str "fair" ∧
      tierOf m.score = "excellent" :=
  ⟨_, rfl, by decide!, rfl, by decide!⟩

/-- Claim C17, amended: for every profile that is present and every behaviour of the
collaborator, `calculateAIRoleMatches` completes with a list of 3 results and throws nothing:
every per-role promise resolves, so that not even the `catch` block of the batch is needed. -/
theorem calculateAIRoleMatches_total (rt : JsRuntime) (svc : AIService)
    (buildPrompt : UserProfile → RoleProfile → String) (api : RoleProfile → Completion)
    (userProfile : UserProfile) :
    (∀ roleProfile, ∃ m, calculateAIRoleMatch rt svc (buildPrompt userProfile roleProfile)
      (api roleProfile) userProfile roleProfile = Except.ok m) ∧
    ∃ l, calculateAIRoleMatches rt svc buildPrompt api (some userProfile) = Except.ok l ∧
      l.length = 3 := by
  refine ⟨fun roleProfile => ⟨_, calculateAIRoleMatch_resolves rt svc buildPrompt api
    userProfile roleProfile⟩, _, calculateAIRoleMatches_eq rt svc buildPrompt api userProfile, ?_⟩
  rw [List.length_take, length_sortByScore, List.length_map, getAllRoleProfiles_length]
  rfl

/-- Claim C17 as stated fails: for a missing profile `calculateAIRoleMatches` throws the error
`User profile is required` to its caller. -/
theorem calculateAIRoleMatches_missing_profile_counterexample :
    calculateAIRoleMatches sampleRuntime liveService samplePrompt mixedApi none =
      Except.error "User profile is required" :=
  rfl

/-! ## The parts of the deterministic score -/

/-- Claim C18 fails on the code: for the preferred-skill list that holds one empty string, the
guard on the length of the raw list does not fire, `normalizeSkills` drops the entry, and
`calculateBonusScore` divides zero by zero: it returns `NaN`, whatever the user skills, and not
an integer between 0 and 20. -/
theorem calculateBonusScore_blank_entry (rt : JsRuntime) (userSkills : List String) :
    calculateBonusScore rt userSkills [""] = JsNum.nan := by
  simp [calculateBonusScore, normalizedLower, normalizeSkills, JsVal.strArr, normalizeSkill,
    unique, uniqueFrom, JsNum.ofNat, JsNum.div, JsNum.infTimes, JsNum.mul, JsNum.round, JsNum.min]

/-- The bonus on a preferred-skill list that keeps an entry after normalization: with `n` the
number of normalized preferred skills and `m` the number of them in the normalized user pool,
`calculateBonusScore` returns the double `(m / n) * 20` rounded to an integer, which lies between
0 and 20 (the cap at 20 changes nothing) and within `1 / 2 + 20 / 2 ^ 51` of `20 * m / n`; on
the empty list it returns 0. -/
theorem calculateBonusScore_formula (rt : JsRuntime) (userSkills preferredSkills : List String)
    (h : normalizedLower rt preferredSkills ≠ []) :
    ∃ k : ℤ, calculateBonusScore rt userSkills preferredSkills = JsNum.num k ∧
      k = roundHalfUp (doubleShare
        ((normalizedLower rt preferredSkills).filter (fun skill =>
          (normalizedLower rt userSkills).contains skill)).length
        (normalizedLower rt preferredSkills).length 20) ∧
      |(k : ℚ) - 20 *
        ((normalizedLower rt preferredSkills).filter (fun skill =>
          (normalizedLower rt userSkills).contains skill)).length /
        (normalizedLower rt preferredSkills).length| ≤ 1 / 2 + 20 / 2 ^ 51 ∧
      0 ≤ k ∧ k ≤ 20 ∧ calculateBonusScore rt userSkills [] = JsNum.num 0 := by
  have hn : (normalizedLower rt preferredSkills).length ≠ 0 := by
    simpa using h
  obtain ⟨b0, b1, b2⟩ := roundHalfUp_doubleShare
    ((normalizedLower rt preferredSkills).filter (fun skill =>
      (normalizedLower rt userSkills).contains skill)).length
    (normalizedLower rt preferredSkills).length 20 (by norm_num)
    (List.length_filter_le _ _) hn
  have b1' : roundHalfUp (doubleShare
      ((normalizedLower rt preferredSkills).filter (fun skill =>
        (normalizedLower rt userSkills).contains skill)).length
      (normalizedLower rt preferredSkills).length 20) ≤ 20 := by
    simpa using b1
  refine ⟨_, ?_, rfl, ?_, b0, b1', rfl⟩
  · rw [calculateBonusScore_value rt userSkills preferredSkills h]
    congr 1
    have hq : ((roundHalfUp (doubleShare
        ((normalizedLower rt preferredSkills).filter (fun skill =>
          (normalizedLower rt userSkills).contains skill)).length
        (normalizedLower rt preferredSkills).length 20) : ℤ) : ℚ) ≤ 20 := by
      exact_mod_cast b1'
    exact min_eq_right hq
  · have e : (20 : ℚ) / 2 ^ 51 = ((20 : ℕ) : ℚ) * (1 / 2251799813685248) := by norm_num
    rw [e]
    simpa using b2

/-- The bonus of a pool with two of three preferred skills: `round((2 / 3) * 20) = 13`. -/
theorem calculateBonusScore_formula_witness :
    ∃ k : ℤ, calculateBonusScore sampleRuntime ["Python", "JS"] ["js", "react", "py"] =
        JsNum.num k ∧ k = 13 := by
  obtain ⟨k, h1, h2, -⟩ := calculateBonusScore_formula sampleRuntime ["Python", "JS"]
    ["js", "react", "py"] (by decide)
  refine ⟨k, h1, ?_⟩
  rw [h2]
  decide!

/-- Claim C19: for all integers `u` and `r`, `calculateExperienceAdjustment(u, r)` is
`5 * (u - r)` clamped to `[-10, 10]`; it lies between -10 and 10 and changes sign when its
arguments are swapped. -/
theorem calculateExperienceAdjustment_clamp (u r : ℤ) :
    calculateExperienceAdjustment u r = max (-10) (min 10 (5 * (u - r))) ∧
    -10 ≤ calculateExperienceAdjustment u r ∧ calculateExperienceAdjustment u r ≤ 10 ∧
    calculateExperienceAdjustment u r = -calculateExperienceAdjustment r u := by
  unfold calculateExperienceAdjustment
  simp only []
  refine ⟨?_, ?_, ?_, ?_⟩ <;> split_ifs <;> omega

/-- Claim C20, amended: `mapExperienceLevel` returns 0 for `beginner`, 1 for `intermediate` and
2 for `advanced` in any letter case, and 0 for a missing level. Any other string is searched for
keywords after lower-casing: 0 if it contains `beginner` or `no experience`; otherwise 1 if it
contains `intermediate` or `some experience`; otherwise 2 if it contains `advanced` or `expert`;
and 0 only if it contains none of the six. -/
theorem mapExperienceLevel_keywords (rt : JsRuntime) :
    (∀ s, rt.toLowerCase s = "beginner" → mapExperienceLevel rt (some s) = 0) ∧
    (∀ s, rt.toLowerCase s = "intermediate" → mapExperienceLevel rt (some s) = 1) ∧
    (∀ s, rt.toLowerCase s = "advanced" → mapExperienceLevel rt (some s) = 2) ∧
    mapExperienceLevel rt none = 0 ∧
    (∀ s, jsIncludes (rt.toLowerCase s) "beginner" = true ∨
        jsIncludes (rt.toLowerCase s) "no experience" = true →
      mapExperienceLevel rt (some s) = 0) ∧
    (∀ s, jsIncludes (rt.toLowerCase s) "beginner" = false →
      jsIncludes (rt.toLowerCase s) "no experience" = false →
      jsIncludes (rt.toLowerCase s) "intermediate" = true ∨
        jsIncludes (rt.toLowerCase s) "some experience" = true →
      mapExperienceLevel rt (some s) = 1) ∧
    (∀ s, jsIncludes (rt.toLowerCase s) "beginner" = false →
      jsIncludes (rt.toLowerCase s) "no experience" = false →
      jsIncludes (rt.toLowerCase s) "intermediate" = false →
      jsIncludes (rt.toLowerCase s) "some experience" = false →
      jsIncludes (rt.toLowerCase s) "advanced" = true ∨
        jsIncludes (rt.toLowerCase s) "expert" = true →
      mapExperienceLevel rt (some s) = 2) ∧
    (∀ s, jsIncludes (rt.toLowerCase s) "beginner" = false →
      jsIncludes (rt.toLowerCase s) "no experience" = false →
      jsIncludes (rt.toLowerCase s) "intermediate" = false →
      jsIncludes (rt.toLowerCase s) "some experience" = false →
      jsIncludes (rt.toLowerCase s) "advanced" = false →
      jsIncludes (rt.toLowerCase s) "expert" = false →
      mapExperienceLevel rt (some s) = 0) := by
  refine ⟨?_, ?_, ?_, rfl, ?_, ?_, ?_, ?_⟩
  · intro s h
    have h1 : jsIncludes "beginner" "beginner" = true := by decide
    simp [mapExperienceLevel, h, h1, ExperienceLevels.BEGINNER]
  · intro s h
    have h1 : jsIncludes "intermediate" "beginner" = false := by decide
    have h2 : jsIncludes "intermediate" "no experience" = false := by decide
    have h3 : jsIncludes "intermediate" "intermediate" = true := by decide
    simp [mapExperienceLevel, h, h1, h2, h3, ExperienceLevels.INTERMEDIATE]
  · intro s h
    have h1 : jsIncludes "advanced" "beginner" = false := by decide
    have h2 : jsIncludes "advanced" "no experience" = false := by decide
    have h3 : jsIncludes "advanced" "intermediate" = false := by decide
    have h4 : jsIncludes "advanced" "some experience" = false := by decide
    have h5 : jsIncludes "advanced" "advanced" = true := by decide
    simp [mapExperienceLevel, h, h1, h2, h3, h4, h5, ExperienceLevels.ADVANCED]
  · intro s h
    rcases h with h | h <;> simp [mapExperienceLevel, h, ExperienceLevels.BEGINNER]
  · intro s h1 h2 h
    rcases h with h | h <;>
      simp [mapExperienceLevel, h1, h2, h, ExperienceLevels.INTERMEDIATE]
  · intro s h1 h2 h3 h4 h
    rcases h with h | h <;>
      simp [mapExperienceLevel, h1, h2, h3, h4, h, ExperienceLevels.ADVANCED]
  · intro s h1 h2 h3 h4 h5 h6
    simp [mapExperienceLevel, h1, h2, h3, h4, h5, h6, ExperienceLevels.BEGINNER]

/-- Claim C20, amended, on five strings: the three level names in mixed case, a label that
contains the keyword `some experience`, and a string without keyword. -/
theorem mapExperienceLevel_keywords_witness :
    mapExperienceLevel sampleRuntime (some "Beginner") = 0 ∧
    mapExperienceLevel sampleRuntime (some "INTERMEDIATE") = 1 ∧
    mapExperienceLevel sampleRuntime (some "Advanced") = 2 ∧
    mapExperienceLevel sampleRuntime (some "Some experience (1-2 years)") = 1 ∧
    mapExperienceLevel sampleRuntime (some "senior") = 0 :=
  ⟨(mapExperienceLevel_keywords sampleRuntime).1 "Beginner" (by decide),
   (mapExperienceLevel_keywords sampleRuntime).2.1 "INTERMEDIATE" (by decide),
   (mapExperienceLevel_keywords sampleRuntime).2.2.1 "Advanced" (by decide),
   (mapExperienceLevel_keywords sampleRuntime).2.2.2.2.2.1 "Some experience (1-2 years)"
     (by decide) (by decide) (Or.inr (by decide)),
   (mapExperienceLevel_keywords sampleRuntime).2.2.2.2.2.2.2 "senior"
     (by decide) (by decide) (by decide) (by decide) (by decide) (by decide)⟩

/-- Claim C20 as stated fails: `expert` is none of the three level names, yet
`mapExperienceLevel` returns 2 for it, not 0. -/
theorem mapExperienceLevel_other_string_counterexample :
    sampleRuntime.toLowerCase "expert" ≠ "beginner" ∧
    sampleRuntime.toLowerCase "expert" ≠ "intermediate" ∧
    sampleRuntime.toLowerCase "expert" ≠ "advanced" ∧
    mapExperienceLevel sampleRuntime (some "expert") = 2 := by
  decide

/-! ## Lemmas on lists without duplicates and on `includes` -/

theorem mem_uniqueFrom (x : String) :
    ∀ (l seen : List String), x ∈ uniqueFrom seen l ↔ x ∈ l ∧ x ∉ seen
  | [], seen => by simp [uniqueFrom]
  | a :: l, seen => by
    by_cases ha : a ∈ seen
    · rw [uniqueFrom, if_pos ha, mem_uniqueFrom x l seen, List.mem_cons]
      constructor
      · rintro ⟨h1, h2⟩
        exact ⟨Or.inr h1, h2⟩
      · rintro ⟨h1 | h1, h2⟩
        · exact absurd (h1 ▸ ha) h2
        · exact ⟨h1, h2⟩
    · rw [uniqueFrom, if_neg ha, List.mem_cons, mem_uniqueFrom x l (a :: seen), List.mem_cons,
        List.mem_cons]
      constructor
      · rintro (h | ⟨h1, h2⟩)
        · exact ⟨Or.inl h, h ▸ ha⟩
        · exact ⟨Or.inr h1, fun h => h2 (Or.inr h)⟩
      · rintro ⟨h1 | h1, h2⟩
        · exact Or.inl h1
        · by_cases hxa : x = a
          · exact Or.inl hxa
          · exact Or.inr ⟨h1, fun h => h.elim hxa h2⟩

theorem nodup_uniqueFrom : ∀ (l seen : List String), (uniqueFrom seen l).Nodup
  | [], _ => List.nodup_nil
  | a :: l, seen => by
    by_cases ha : a ∈ seen
    · rw [uniqueFrom, if_pos ha]
      exact nodup_uniqueFrom l seen
    · rw [uniqueFrom, if_neg ha, List.nodup_cons]
      refine ⟨?_, nodup_uniqueFrom l (a :: seen)⟩
      rw [mem_uniqueFrom]
      exact fun h => h.2 (List.mem_cons_self _ _)

/-- The elements of `uniqueFrom seen l` stand in the order of their first occurrence in `l`. -/
theorem pairwise_uniqueFrom :
    ∀ (l seen : List String),
      (uniqueFrom seen l).Pairwise (fun x y => l.indexOf x < l.indexOf y)
  | [], _ => List.Pairwise.nil
  | a :: l, seen => by
    by_cases ha : a ∈ seen
    · rw [uniqueFrom, if_pos ha]
      refine (pairwise_uniqueFrom l seen).imp_of_mem ?_
      intro x y hx hy hxy
      have hxa : x ≠ a := fun h => ((mem_uniqueFrom x l seen).mp hx).2 (h ▸ ha)
      have hya : y ≠ a := fun h => ((mem_uniqueFrom y l seen).mp hy).2 (h ▸ ha)
      rw [List.indexOf_cons_ne _ hxa.symm, List.indexOf_cons_ne _ hya.symm]
      omega
    · rw [uniqueFrom, if_neg ha, List.pairwise_cons]
      constructor
      · intro y hy
        have hya : y ≠ a :=
          fun h => ((mem_uniqueFrom y l (a :: seen)).mp hy).2 (h ▸ List.mem_cons_self _ _)
        rw [List.indexOf_cons_self, List.indexOf_cons_ne _ hya.symm]
        omega
      · refine (pairwise_uniqueFrom l (a :: seen)).imp_of_mem ?_
        intro x y hx hy hxy
        have hxa : x ≠ a :=
          fun h => ((mem_uniqueFrom x l (a :: seen)).mp hx).2 (h ▸ List.mem_cons_self _ _)
        have hya : y ≠ a :=
          fun h => ((mem_uniqueFrom y l (a :: seen)).mp hy).2 (h ▸ List.mem_cons_self _ _)
        rw [List.indexOf_cons_ne _ hxa.symm, List.indexOf_cons_ne _ hya.symm]
        omega

theorem isPrefixOf_self_append (post : List Char) :
    ∀ t : List Char, t.isPrefixOf (t ++ post) = true
  | [] => by simp
  | c :: t => by simp [isPrefixOf_self_append post t]

theorem includesChars_self_append (t post : List Char) : includesChars (t ++ post) t = true := by
  cases h : t ++ post with
  | nil =>
    have ht : t = [] := (List.append_eq_nil.mp h).1
    subst ht
    rfl
  | cons c s =>
    rw [includesChars, ← h, isPrefixOf_self_append post t]
    rfl

/-- A text occurs in every text that is built around it. -/
theorem includesChars_append (t post : List Char) :
    ∀ pre : List Char, includesChars (pre ++ (t ++ post)) t = true
  | [] => includesChars_self_append t post
  | c :: pre => by
    rw [List.cons_append, includesChars, includesChars_append t post pre, Bool.or_true]

theorem jsIncludes_append (pre t post : String) : jsIncludes (pre ++ t ++ post) t = true := by
  unfold jsIncludes
  rw [String.data_append, String.data_append, List.append_assoc]
  exact includesChars_append _ _ _

/-- Every text includes the empty text. -/
theorem jsIncludes_empty (s : String) : jsIncludes s "" = true := by
  have h := jsIncludes_append s "" ""
  simpa using h


/-! ## The skill pool of the deterministic matcher -/

/-- The result of `calculateRoleMatch` is a function of the membership test of the user pool, of
the experience level and of the role. -/
theorem calculateRoleMatch_congr (rt : JsRuntime) (p q : UserProfile) (roleProfile : RoleProfile)
    (hexp : p.experienceLevel = q.experienceLevel)
    (hpool : ∀ skill, (normalizedLower rt (allUserSkills p)).contains skill =
      (normalizedLower rt (allUserSkills q)).contains skill) :
    calculateRoleMatch rt p roleProfile = calculateRoleMatch rt q roleProfile := by
  have hfun : (fun skill => (normalizedLower rt (allUserSkills p)).contains skill) =
      (fun skill => (normalizedLower rt (allUserSkills q)).contains skill) := funext hpool
  have hneg : (fun skill => !(normalizedLower rt (allUserSkills p)).contains skill) =
      (fun skill => !(normalizedLower rt (allUserSkills q)).contains skill) :=
    funext (fun skill => by rw [hpool skill])
  simp only [calculateRoleMatch, calculateSkillMatch, calculateBonusScore, hfun, hneg, hexp]

/-- Claim C21: `calculateRoleMatch` is defined on every profile, also when `currentSkills`,
`interests` or `resumeData` are absent; the result is the one for the profile with the absent
sources set to empty lists; and two profiles with the same experience level whose pools
(`currentSkills`, `interests` and resume skills concatenated) have the same set of normalized
skills get the same result for every role: score, skill lists, level and recommendation. -/
theorem calculateRoleMatch_pool_set (rt : JsRuntime) (userProfile other : UserProfile)
    (roleProfile : RoleProfile)
    (hexp : userProfile.experienceLevel = other.experienceLevel)
    (hset : ∀ skill, skill ∈ normalizeSkills rt (JsVal.strArr (allUserSkills userProfile)) ↔
      skill ∈ normalizeSkills rt (JsVal.strArr (allUserSkills other))) :
    allUserSkills userProfile = userProfile.currentSkills.getD [] ++
      userProfile.interests.getD [] ++ resumeSkills userProfile ∧
    calculateRoleMatch rt userProfile roleProfile =
      calculateRoleMatch rt (withEmptyLists userProfile) roleProfile ∧
    calculateRoleMatch rt userProfile roleProfile = calculateRoleMatch rt other roleProfile := by
  refine ⟨rfl, ?_, ?_⟩
  · apply calculateRoleMatch_congr rt _ _ _ rfl
    intro skill
    rfl
  · apply calculateRoleMatch_congr rt _ _ _ hexp
    intro skill
    unfold normalizedLower
    rw [Bool.eq_iff_iff]
    simp only [List.contains, List.elem_iff, List.mem_map]
    constructor
    · rintro ⟨x, hx, rfl⟩
      exact ⟨x, (hset x).mp hx, rfl⟩
    · rintro ⟨x, hx, rfl⟩
      exact ⟨x, (hset x).mpr hx, rfl⟩

/-- Claim C21 on two profiles: the skills `JS`, `Git`, `SQL` as current skills, and the same three
skills under other names, reordered, one twice, as interests and resume skills, give the same
result for the sample role. -/
theorem calculateRoleMatch_pool_set_witness :
    normalizeSkills sampleRuntime (JsVal.strArr (allUserSkills sparseProfile)) =
      ["javascript", "git", "sql"] ∧
    normalizeSkills sampleRuntime (JsVal.strArr (allUserSkills spreadProfile)) =
      ["sql", "javascript", "git"] ∧
    calculateRoleMatch sampleRuntime sparseProfile sampleRole =
      calculateRoleMatch sampleRuntime (withEmptyLists sparseProfile) sampleRole ∧
    calculateRoleMatch sampleRuntime sparseProfile sampleRole =
      calculateRoleMatch sampleRuntime spreadProfile sampleRole := by
  have h1 : normalizeSkills sampleRuntime (JsVal.strArr (allUserSkills sparseProfile)) =
      ["javascript", "git", "sql"] := by decide
  have h2 : normalizeSkills sampleRuntime (JsVal.strArr (allUserSkills spreadProfile)) =
      ["sql", "javascript", "git"] := by decide
  have h := calculateRoleMatch_pool_set sampleRuntime sparseProfile spreadProfile sampleRole rfl
    (by
      intro skill
      rw [h1, h2]
      simp only [List.mem_cons, List.mem_singleton, List.not_mem_nil, or_false]
      tauto)
  exact ⟨h1, h2, h.2.1, h.2.2⟩

/-- The normalized pool of a list holds the normalized pool of each of its sublists. -/
theorem normalizedLower_subset (rt : JsRuntime) (l1 l2 : List String)
    (h : ∀ s ∈ l1, s ∈ l2) : ∀ x ∈ normalizedLower rt l1, x ∈ normalizedLower rt l2 := by
  intro x hx
  unfold normalizedLower normalizeSkills JsVal.strArr unique at hx ⊢
  simp only [List.mem_map, mem_uniqueFrom, List.mem_filterMap, List.not_mem_nil,
    not_false_eq_true, and_true] at hx ⊢
  obtain ⟨y, ⟨v, ⟨s, hs, rfl⟩, hv⟩, rfl⟩ := hx
  exact ⟨y, ⟨JsVal.str s, ⟨s, h s hs, rfl⟩, hv⟩, rfl⟩

/-- A larger pool matches at least as many skills of a list. -/
theorem matched_length_mono (pool1 pool2 skills : List String)
    (h : ∀ x ∈ pool1, x ∈ pool2) :
    (skills.filter (fun skill => pool1.contains skill)).length ≤
      (skills.filter (fun skill => pool2.contains skill)).length := by
  apply List.Sublist.length_le
  apply List.monotone_filter_right
  intro a ha
  simp only [List.contains, List.elem_iff] at ha ⊢
  exact h a ha

/-- The double share grows with the number of matched skills. -/
theorem doubleShare_mono {m1 m2 : ℕ} (n : ℕ) {w : ℚ} (hw : 0 ≤ w) (h : m1 ≤ m2) :
    doubleShare m1 n w ≤ doubleShare m2 n w := by
  unfold doubleShare
  have hq : (m1 : ℚ) ≤ m2 := by exact_mod_cast h
  exact roundToDouble_mono (mul_le_mul_of_nonneg_right
    (roundToDouble_mono (div_le_div_of_nonneg_right hq (Nat.cast_nonneg n))) hw)

/-- The skill match on a list without empty strings is a number that grows with the pool. -/
theorem calculateSkillMatch_mono (rt : JsRuntime) (u1 u2 requiredSkills : List String)
    (hreq : ∀ s ∈ requiredSkills, s ≠ "") (h : ∀ s ∈ u1, s ∈ u2) :
    ∃ c1 c2 : ℚ, calculateSkillMatch rt u1 requiredSkills = JsNum.num c1 ∧
      calculateSkillMatch rt u2 requiredSkills = JsNum.num c2 ∧ c1 ≤ c2 := by
  cases requiredSkills with
  | nil => exact ⟨100, 100, by simp [calculateSkillMatch, JsNum.ofNat],
      by simp [calculateSkillMatch, JsNum.ofNat], le_refl _⟩
  | cons a l =>
    have hn := normalizedLower_ne_nil rt (a :: l)
      ⟨a, List.mem_cons_self _ _, hreq a (List.mem_cons_self _ _)⟩
    refine ⟨_, _, calculateSkillMatch_num rt u1 _ hn, calculateSkillMatch_num rt u2 _ hn, ?_⟩
    have hm := matched_length_mono _ _ (normalizedLower rt (a :: l))
      (normalizedLower_subset rt u1 u2 h)
    have := roundHalfUp_mono (doubleShare_mono (normalizedLower rt (a :: l)).length
      (by norm_num : (0 : ℚ) ≤ 100) hm)
    unfold matchPercent
    exact_mod_cast this

/-- The bonus on a list without empty strings is a number that grows with the pool. -/
theorem calculateBonusScore_mono (rt : JsRuntime) (u1 u2 preferredSkills : List String)
    (hpref : ∀ s ∈ preferredSkills, s ≠ "") (h : ∀ s ∈ u1, s ∈ u2) :
    ∃ b1 b2 : ℚ, calculateBonusScore rt u1 preferredSkills = JsNum.num b1 ∧
      calculateBonusScore rt u2 preferredSkills = JsNum.num b2 ∧ b1 ≤ b2 := by
  cases preferredSkills with
  | nil => exact ⟨0, 0, by simp [calculateBonusScore, JsNum.ofNat],
      by simp [calculateBonusScore, JsNum.ofNat], le_refl _⟩
  | cons a l =>
    have hn := normalizedLower_ne_nil rt (a :: l)
      ⟨a, List.mem_cons_self _ _, hpref a (List.mem_cons_self _ _)⟩
    refine ⟨_, _, calculateBonusScore_value rt u1 _ hn, calculateBonusScore_value rt u2 _ hn, ?_⟩
    have hm := matched_length_mono _ _ (normalizedLower rt (a :: l))
      (normalizedLower_subset rt u1 u2 h)
    have := roundHalfUp_mono (doubleShare_mono (normalizedLower rt (a :: l)).length
      (by norm_num : (0 : ℚ) ≤ 20) hm)
    exact min_le_min (le_refl _) (by exact_mod_cast this)

/-- Claim C26: for a role whose skill lists hold no empty string and two profiles with the same
experience level such that every skill of the pool of the first (`currentSkills`, `interests`
and resume skills) occurs in the pool of the second, the scores of `calculateRoleMatch` are
numbers, the score of the second profile is at least the score of the first, and the gap
skills of the second are among the gap skills of the first, in the same order. -/
theorem calculateRoleMatch_monotone (rt : JsRuntime) (first second : UserProfile)
    (roleProfile : RoleProfile)
    (hreq : ∀ s ∈ roleProfile.requiredSkills, s ≠ "")
    (hpref : ∀ s ∈ roleProfile.preferredSkills, s ≠ "")
    (hexp : first.experienceLevel = second.experienceLevel)
    (hsub : ∀ s ∈ allUserSkills first, s ∈ allUserSkills second) :
    (∃ a b : ℚ, (calculateRoleMatch rt first roleProfile).score = JsNum.num a ∧
      (calculateRoleMatch rt second roleProfile).score = JsNum.num b ∧ a ≤ b) ∧
    ∃ gapFirst gapSecond : List String,
      (calculateRoleMatch rt first roleProfile).gapSkills = JsVal.strArr gapFirst ∧
      (calculateRoleMatch rt second roleProfile).gapSkills = JsVal.strArr gapSecond ∧
      gapSecond.Sublist gapFirst ∧ ∀ skill ∈ gapSecond, skill ∈ gapFirst := by
  constructor
  · obtain ⟨c1, c2, hc1, hc2, hc⟩ := calculateSkillMatch_mono rt (allUserSkills first)
      (allUserSkills second) roleProfile.requiredSkills hreq hsub
    obtain ⟨b1, b2, hb1, hb2, hb⟩ := calculateBonusScore_mono rt (allUserSkills first)
      (allUserSkills second) roleProfile.preferredSkills hpref hsub
    refine ⟨_, _, calculateRoleMatch_score_num rt first roleProfile c1 b1 hc1 hb1,
      calculateRoleMatch_score_num rt second roleProfile c2 b2 hc2 hb2, ?_⟩
    have hadj : experienceAdjustment rt first roleProfile =
        experienceAdjustment rt second roleProfile := by
      unfold experienceAdjustment
      rw [hexp]
    rw [hadj]
    unfold clamp100
    have hr := roundHalfUp_mono (show 4 / 5 * c1 + b1 +
        (experienceAdjustment rt second roleProfile : ℚ) ≤
        4 / 5 * c2 + b2 + (experienceAdjustment rt second roleProfile : ℚ) by linarith)
    exact max_le_max (le_refl _) (min_le_min (le_refl _) (by exact_mod_cast hr))
  · have hs : ((normalizedLower rt roleProfile.requiredSkills).filter (fun skill =>
        !(normalizedLower rt (allUserSkills second)).contains skill)).Sublist
        ((normalizedLower rt roleProfile.requiredSkills).filter (fun skill =>
        !(normalizedLower rt (allUserSkills first)).contains skill)) := by
      apply List.monotone_filter_right
      intro a ha
      simp only [List.contains, Bool.not_eq_true', ← Bool.not_eq_true, List.elem_iff] at ha ⊢
      exact fun h => ha (normalizedLower_subset rt _ _ hsub a h)
    exact ⟨_, _, rfl, rfl, hs, fun skill h => hs.subset h⟩

/-- Claim C26 on the sample role: the profile with the skill `Git` scores 16, the sample
profile, which adds `JavaScript` and `SQL`, scores 22, and both miss the same four required
skills. -/
theorem calculateRoleMatch_monotone_witness :
    (calculateRoleMatch sampleRuntime juniorProfile sampleRole).score = JsNum.num 16 ∧
    (calculateRoleMatch sampleRuntime sampleProfile sampleRole).score = JsNum.num 22 ∧
    ∃ a b : ℚ, (calculateRoleMatch sampleRuntime juniorProfile sampleRole).score = JsNum.num a ∧
      (calculateRoleMatch sampleRuntime sampleProfile sampleRole).score = JsNum.num b ∧ a ≤ b :=
  ⟨by decide!, by decide!,
    (calculateRoleMatch_monotone sampleRuntime juniorProfile sampleProfile sampleRole
      (by decide) (by decide) rfl (by decide)).1⟩

/-! ## The recommendation -/

/-- The joined text starts with the first element. -/
theorem foldl_join_head (sep : String) :
    ∀ (xs : List String) (x : String),
      ∃ r : String, xs.foldl (fun acc y => acc ++ sep ++ y) x = x ++ r
  | [], x => ⟨"", by simp⟩
  | y :: xs, x => by
    obtain ⟨r, hr⟩ := foldl_join_head sep xs (x ++ sep ++ y)
    exact ⟨sep ++ y ++ r, by rw [List.foldl_cons, hr]; simp only [String.append_assoc]⟩

theorem jsJoin_cons_head (x : String) (xs : List String) (sep : String) :
    ∃ r : String, jsJoin (x :: xs) sep = x ++ r :=
  foldl_join_head sep xs x

/-- The text of `generateRecommendation` includes the role name, and below the level `excellent`
it includes the first gap skill. -/
theorem generateRecommendation_includes (matchLevel roleName : String) (gapSkills : List String) :
    jsIncludes (generateRecommendation matchLevel gapSkills roleName) roleName = true ∧
    (matchLevel ≠ "excellent" → ∀ first ∈ gapSkills.head?,
      jsIncludes (generateRecommendation matchLevel gapSkills roleName) first = true) := by
  constructor
  · unfold generateRecommendation
    split_ifs
    · have e : "Excellent match! You have most skills needed for " ++ roleName ++
          ". Consider applying to " ++ roleName ++ " positions." =
          "Excellent match! You have most skills needed for " ++ roleName ++
          (". Consider applying to " ++ roleName ++ " positions.") := by
        simp only [String.append_assoc]
      rw [e]
      exact jsIncludes_append _ _ _
    · have e : "Good fit for " ++ roleName ++ ". Focus on gaining " ++
          jsJoin (gapSkills.take 2) " and " ++ " to strengthen your candidacy." =
          "Good fit for " ++ roleName ++ (". Focus on gaining " ++
          jsJoin (gapSkills.take 2) " and " ++ " to strengthen your candidacy.") := by
        simp only [String.append_assoc]
      rw [e]
      exact jsIncludes_append _ _ _
    · have e : roleName ++ " is achievable with effort. Build skills in " ++
          jsJoin (gapSkills.take 3) ", " ++ " through projects and courses." =
          "" ++ roleName ++ (" is achievable with effort. Build skills in " ++
          jsJoin (gapSkills.take 3) ", " ++ " through projects and courses.") := by
        simp only [String.append_assoc, String.empty_append]
      rw [e]
      exact jsIncludes_append _ _ _
    · have e : roleName ++ " is a longer-term goal. Start with foundational skills: " ++
          jsJoin (gapSkills.take 3) ", " ++ "." =
          "" ++ roleName ++ (" is a longer-term goal. Start with foundational skills: " ++
          jsJoin (gapSkills.take 3) ", " ++ ".") := by
        simp only [String.append_assoc, String.empty_append]
      rw [e]
      exact jsIncludes_append _ _ _
  · intro hne first hfirst
    cases gapSkills with
    | nil => simp at hfirst
    | cons g rest =>
      have hg : first = g := by simpa using hfirst.symm
      subst hg
      unfold generateRecommendation
      rw [if_neg hne]
      split_ifs
      · obtain ⟨r, hr⟩ := jsJoin_cons_head first (rest.take 1) " and "
        have e : "Good fit for " ++ roleName ++ ". Focus on gaining " ++
            jsJoin ((first :: rest).take 2) " and " ++ " to strengthen your candidacy." =
            ("Good fit for " ++ roleName ++ ". Focus on gaining ") ++ first ++
            (r ++ " to strengthen your candidacy.") := by
          rw [List.take_succ_cons, hr]
          simp only [String.append_assoc]
        rw [e]
        exact jsIncludes_append _ _ _
      · obtain ⟨r, hr⟩ := jsJoin_cons_head first (rest.take 2) ", "
        have e : roleName ++ " is achievable with effort. Build skills in " ++
            jsJoin ((first :: rest).take 3) ", " ++ " through projects and courses." =
            (roleName ++ " is achievable with effort. Build skills in ") ++ first ++
            (r ++ " through projects and courses.") := by
          rw [List.take_succ_cons, hr]
          simp only [String.append_assoc]
        rw [e]
        exact jsIncludes_append _ _ _
      · obtain ⟨r, hr⟩ := jsJoin_cons_head first (rest.take 2) ", "
        have e : roleName ++ " is a longer-term goal. Start with foundational skills: " ++
            jsJoin ((first :: rest).take 3) ", " ++ "." =
            (roleName ++ " is a longer-term goal. Start with foundational skills: ") ++ first ++
            (r ++ ".") := by
          rw [List.take_succ_cons, hr]
          simp only [String.append_assoc]
        rw [e]
        exact jsIncludes_append _ _ _

/-- Claim C23: for every user profile and every role, the recommendation of `calculateRoleMatch`
is a text that includes the name of the role, and when the match level is not `excellent` and
`gapSkills` is not empty, it includes the first entry of `gapSkills` (a normalized skill name). -/
theorem calculateRoleMatch_recommendation (rt : JsRuntime) (userProfile : UserProfile)
    (roleProfile : RoleProfile) :
    ∃ (text : String) (gapSkills : List String),
      (calculateRoleMatch rt userProfile roleProfile).recommendation = JsVal.str text ∧
      (calculateRoleMatch rt userProfile roleProfile).gapSkills = JsVal.strArr gapSkills ∧
      gapSkills = (normalizedLower rt roleProfile.requiredSkills).filter (fun skill =>
        !(normalizedLower rt (allUserSkills userProfile)).contains skill) ∧
      jsIncludes text roleProfile.name = true ∧
      ((calculateRoleMatch rt userProfile roleProfile).matchLevel ≠ JsVal.str "excellent" →
        ∀ first ∈ gapSkills.head?, jsIncludes text first = true) := by
  refine ⟨_, _, rfl, rfl, rfl, (generateRecommendation_includes _ _ _).1, ?_⟩
  intro hne
  refine (generateRecommendation_includes _ _ _).2 ?_
  intro h
  apply hne
  simp only [calculateRoleMatch]
  rw [h]

/-- Claim C23 on the sample profile and the sample role: the level is `needs-development`, the
first gap skill is `programming`, and the recommendation names the role and that skill. -/
theorem calculateRoleMatch_recommendation_witness :
    (calculateRoleMatch sampleRuntime sampleProfile sampleRole).matchLevel =
      JsVal.str "needs-development" ∧
    (calculateRoleMatch sampleRuntime sampleProfile sampleRole).recommendation = JsVal.str
      ("Software Engineer is a longer-term goal. Start with foundational skills: " ++
        "programming, data structures, algorithms.") ∧
    ∃ (text : String) (gapSkills : List String),
      (calculateRoleMatch sampleRuntime sampleProfile sampleRole).recommendation =
        JsVal.str text ∧
      gapSkills.head? = some "programming" ∧
      jsIncludes text "Software Engineer" = true ∧ jsIncludes text "programming" = true := by
  obtain ⟨text, gapSkills, h1, -, h3, h4, h5⟩ :=
    calculateRoleMatch_recommendation sampleRuntime sampleProfile sampleRole
  have hlevel : (calculateRoleMatch sampleRuntime sampleProfile sampleRole).matchLevel =
      JsVal.str "needs-development" := by
    simp only [calculateRoleMatch]
    congr 1
    decide!
  have hgap : gapSkills.head? = some "programming" := by
    rw [h3]
    decide
  refine ⟨hlevel, ?_, text, gapSkills, h1, hgap, h4, ?_⟩
  · simp only [calculateRoleMatch]
    congr 1
    decide!
  · apply h5
    · rw [hlevel]
      intro h
      exact absurd (JsVal.str.inj h) (by decide)
    · rw [hgap]
      rfl

/-! ## The function `normalizeSkills` -/

/-- The values that `normalizeSkills` keeps are those of the entries that are non-empty
strings. -/
theorem filterMap_normalizeSkill_eq (rt : JsRuntime) :
    ∀ items : List JsVal, items.filterMap (normalizeSkill rt) = skillValues rt items
  | [] => rfl
  | item :: rest => by
    have ih := filterMap_normalizeSkill_eq rt rest
    unfold skillValues at ih ⊢
    cases item with
    | str s =>
      by_cases hs : s = ""
      · subst hs
        simpa [nonEmptyStrings, normalizeSkill] using ih
      · obtain ⟨y, hy⟩ := Option.isSome_iff_exists.mp (normalizeSkill_isSome rt s hs)
        simp [nonEmptyStrings, hs, List.filterMap_cons, hy, ih]
    | _ => simpa [nonEmptyStrings, normalizeSkill] using ih

theorem skillValues_length (rt : JsRuntime) (items : List JsVal) :
    (skillValues rt items).length = (nonEmptyStrings items).length := by
  have h : ∀ l : List String, (∀ s ∈ l, s ≠ "") →
      (l.filterMap (fun s => normalizeSkill rt (JsVal.str s))).length = l.length := by
    intro l
    induction l with
    | nil => intro _; rfl
    | cons a l ih =>
      intro hl
      obtain ⟨y, hy⟩ := Option.isSome_iff_exists.mp
        (normalizeSkill_isSome rt a (hl a (List.mem_cons_self _ _)))
      simp [List.filterMap_cons, hy, ih (fun s hs => hl s (List.mem_cons_of_mem _ hs))]
  apply h
  induction items with
  | nil => intro s hs; exact absurd hs (List.not_mem_nil s)
  | cons item rest ih =>
    intro s hs
    cases item with
    | str t =>
      by_cases ht : t = ""
      · simp only [nonEmptyStrings, if_pos ht] at hs
        exact ih s hs
      · simp only [nonEmptyStrings, if_neg ht] at hs
        rcases List.mem_cons.mp hs with rfl | hs
        · exact ht
        · exact ih s hs
    | _ =>
      simp only [nonEmptyStrings] at hs
      exact ih s hs

/-- Claim C24: for every array `items`, `normalizeSkills(items)` is duplicate-free, its elements
are exactly the values `normalizeSkill(s)` of the entries `s` that are non-empty strings (each of
these entries has a value; all other entries contribute nothing), and they stand in the order of
their first occurrence among these values. For an argument that is no array the result is the
empty list. -/
theorem normalizeSkills_distinct_values (rt : JsRuntime) (items : List JsVal) :
    (skillValues rt items).length = (nonEmptyStrings items).length ∧
    (normalizeSkills rt (JsVal.arr items)).Nodup ∧
    (∀ x, x ∈ normalizeSkills rt (JsVal.arr items) ↔ x ∈ skillValues rt items) ∧
    (normalizeSkills rt (JsVal.arr items)).Pairwise
      (fun x y => (skillValues rt items).indexOf x < (skillValues rt items).indexOf y) ∧
    normalizeSkills rt JsVal.undefined = [] ∧ normalizeSkills rt JsVal.null = [] ∧
    (∀ b, normalizeSkills rt (JsVal.bool b) = []) ∧ (∀ x, normalizeSkills rt (JsVal.num x) = []) ∧
    (∀ s, normalizeSkills rt (JsVal.str s) = []) ∧
    (∀ props, normalizeSkills rt (JsVal.obj props) = []) := by
  have h : normalizeSkills rt (JsVal.arr items) = uniqueFrom [] (skillValues rt items) := by
    simp only [normalizeSkills, unique, filterMap_normalizeSkill_eq]
  refine ⟨skillValues_length rt items, ?_, ?_, ?_, rfl, rfl, fun _ => rfl, fun _ => rfl,
    fun _ => rfl, fun _ => rfl⟩
  · rw [h]
    exact nodup_uniqueFrom _ _
  · intro x
    rw [h, mem_uniqueFrom]
    simp
  · rw [h]
    exact pairwise_uniqueFrom _ _

/-- Claim C24 on an array with two spellings of one skill, a blank entry, `null`, a number and
an empty string: the result holds `javascript`, the empty string that the blank entry is trimmed
to, and `react`. -/
theorem normalizeSkills_distinct_values_witness :
    normalizeSkills sampleRuntime (JsVal.arr [JsVal.str "JS", JsVal.null, JsVal.str " ",
      JsVal.str "React", JsVal.num (JsNum.num 7), JsVal.str "", JsVal.str "JavaScript",
      JsVal.undefined]) = ["javascript", "", "react"] ∧
    skillValues sampleRuntime [JsVal.str "JS", JsVal.null, JsVal.str " ",
      JsVal.str "React", JsVal.num (JsNum.num 7), JsVal.str "", JsVal.str "JavaScript",
      JsVal.undefined] = ["javascript", "", "react", "javascript"] ∧
    (normalizeSkills sampleRuntime (JsVal.arr [JsVal.str "JS", JsVal.null, JsVal.str " ",
      JsVal.str "React", JsVal.num (JsNum.num 7), JsVal.str "", JsVal.str "JavaScript",
      JsVal.undefined])).Nodup :=
  ⟨by decide, by decide, (normalizeSkills_distinct_values sampleRuntime _).2.1⟩

/-! ## The catalog lookup -/

/-- Claim C25 fails on the code: `constructor` is no key of the role catalog, yet
`getRoleProfile` does not return `null` for it. The read `roleProfiles[roleId]` finds the property
that the catalog object inherits from `Object.prototype`, a function, and `||` lets it through. The
same holds for every other name of `objectPrototypeNames`. -/
theorem getRoleProfile_inherited_name :
    "constructor" ∉ roleProfiles.map Prod.fst ∧
    getRoleProfile "constructor" = RoleLookup.inherited "constructor" ∧
    getRoleProfile "constructor" ≠ RoleLookup.null ∧
    ∀ name ∈ objectPrototypeNames, getRoleProfile name = RoleLookup.inherited name := by
  decide

/-- The lookup of `getRoleProfile` away from the inherited names: for a key of the role catalog
the result is the entry stored under it, whose `id` is the key, and for every other id that is
not the name of a property of `Object.prototype` the result is `null`. -/
theorem getRoleProfile_lookup (roleId : String) (h : roleId ∉ objectPrototypeNames) :
    (roleId ∈ roleProfiles.map Prod.fst →
      ∃ roleProfile, getRoleProfile roleId = RoleLookup.profile roleProfile ∧
        (roleId, roleProfile) ∈ roleProfiles ∧ roleProfile.id = roleId ∧
        roleProfile ∈ getAllRoleProfiles) ∧
    (roleId ∉ roleProfiles.map Prod.fst → getRoleProfile roleId = RoleLookup.null) := by
  have hall : ∀ entry ∈ roleProfiles, roleProfiles.lookup entry.1 = some entry.2 ∧
      entry.2.id = entry.1 ∧ entry.2 ∈ getAllRoleProfiles := by decide
  constructor
  · intro hmem
    obtain ⟨entry, hentry, rfl⟩ := List.mem_map.mp hmem
    obtain ⟨h1, h2, h3⟩ := hall entry hentry
    exact ⟨entry.2, by simp only [getRoleProfile, h1], hentry, h2, h3⟩
  · intro hmem
    have hnone : roleProfiles.lookup roleId = none := by
      apply lookup_eq_none_of_forall
      intro entry hentry heq
      exact hmem (List.mem_map.mpr ⟨entry, hentry, heq⟩)
    have hc : objectPrototypeNames.contains roleId = false := by
      simpa using h
    simp only [getRoleProfile, hnone, hc]
    rfl

/-- The lookup of two ids: a key of the catalog gives its entry, an unknown id gives `null`. -/
theorem getRoleProfile_lookup_witness :
    (∃ roleProfile, getRoleProfile "data-analyst" = RoleLookup.profile roleProfile ∧
      roleProfile.id = "data-analyst" ∧ roleProfile.name = "Data Analyst") ∧
    getRoleProfile "astronaut" = RoleLookup.null := by
  obtain ⟨roleProfile, h1, -, h2, -⟩ :=
    (getRoleProfile_lookup "data-analyst" (by decide)).1 (by decide)
  refine ⟨⟨roleProfile, h1, h2, ?_⟩, (getRoleProfile_lookup "astronaut" (by decide)).2 (by decide)⟩
  have h : RoleLookup.profile roleProfile = getRoleProfile "data-analyst" := h1.symm
  have h3 : getRoleProfile "data-analyst" = RoleLookup.profile
      { id := "data-analyst", name := "Data Analyst",
        requiredSkills := ["sql", "excel", "data analysis", "data visualization"],
        preferredSkills := [
          "python", "tableau", "power bi", "statistics", "r", "business intelligence"],
        minExperienceLevel := ExperienceLevels.BEGINNER } := by decide
  rw [h3] at h
  rw [RoleLookup.profile.inj h]

/-! ## The location factor of the fit score -/

/-- Claim C22, amended: for a profile that has `targetRoles` and `currentSkills`, the factors of
`calculateFitScore` hold exactly one location factor, the last of the list, worth 15 or 7 and
never 0. It is worth 15 when the opportunity is remote. When the opportunity is not remote, it is
worth 7 for a missing or empty location, and for a location with a comma it is worth 15 exactly
when `location_type` includes the trimmed text between the first and the second comma of the
location (the element `[1]` of `location.split(',')`), and 7 otherwise. -/
theorem calculateFitScore_location_factor (rt : JsRuntime) (profile : UserProfile)
    (roadmap : Option Roadmap) (opportunity : Opportunity)
    (htarget : profile.targetRoles.isSome = true)
    (hskills : profile.currentSkills.isSome = true) :
    ∃ (res : FitResult) (factor : Factor),
      calculateFitScore rt profile roadmap opportunity = some res ∧
      res.factors.filter isLocationFactor = [factor] ∧
      res.factors.getLast? = some factor ∧
      (factor.points = JsNum.num 15 ∨ factor.points = JsNum.num 7) ∧
      (opportunity.location_type = "Remote" → factor.points = JsNum.num 15) ∧
      (opportunity.location_type ≠ "Remote" →
        profile.location = none ∨ profile.location = some "" → factor.points = JsNum.num 7) ∧
      (∀ location region, opportunity.location_type ≠ "Remote" →
        profile.location = some location → location ≠ "" →
        regionSegment rt location = some region →
        (factor.points = JsNum.num 15 ↔
          jsIncludes opportunity.location_type region = true) ∧
        (factor.points = JsNum.num 7 ↔
          jsIncludes opportunity.location_type region = false)) := by
  obtain ⟨tr, htr⟩ := Option.isSome_iff_exists.mp htarget
  obtain ⟨cs, hcs⟩ := Option.isSome_iff_exists.mp hskills
  have hremote : opportunity.location_type = "Remote" →
      locationMatches rt profile.location opportunity.location_type = true := by
    intro h
    simp [locationMatches, h]
  have hmissing : opportunity.location_type ≠ "Remote" →
      profile.location = none ∨ profile.location = some "" →
      locationMatches rt profile.location opportunity.location_type = false := by
    intro h hloc
    rcases hloc with hloc | hloc <;> simp [locationMatches, h, hloc]
  have hregion : ∀ location region, opportunity.location_type ≠ "Remote" →
      profile.location = some location → location ≠ "" →
      regionSegment rt location = some region →
      locationMatches rt profile.location opportunity.location_type =
        jsIncludes opportunity.location_type region := by
    intro location region h hloc hne hreg
    unfold regionSegment at hreg
    unfold locationMatches
    rw [hloc]
    cases hsplit : (jsSplit location ',').get? 1 with
    | none =>
      rw [hsplit] at hreg
      exact absurd hreg (by simp)
    | some segment =>
      rw [hsplit] at hreg
      have hseg : rt.trim segment = region := by simpa using hreg
      simp only [hsplit, hseg]
      simp [h, hne]
  by_cases h : locationMatches rt profile.location opportunity.location_type = true
  · refine ⟨_, { name := "Location Match", points := JsNum.ofNat 15, details := none },
      by simp only [calculateFitScore, htr, hcs]; rfl, ?_, ?_, Or.inl rfl, fun _ => rfl, ?_, ?_⟩
    · simp only [h, if_true]
      split_ifs <;> simp [isLocationFactor]
    · simp only [h, if_true]
      split_ifs <;> simp
    · intro hnr hloc
      rw [hmissing hnr hloc] at h
      exact absurd h (by simp)
    · intro location region hnr hloc hne hreg
      rw [hregion location region hnr hloc hne hreg] at h
      refine ⟨⟨fun _ => h, fun _ => rfl⟩, ⟨fun h7 => ?_, fun hf => ?_⟩⟩
      · have h7' : ((15 : ℕ) : ℚ) = 7 := JsNum.num.inj h7
        norm_num at h7'
      · rw [h] at hf
        exact absurd hf (by simp)
  · have hf : locationMatches rt profile.location opportunity.location_type = false := by
      simpa using h
    refine ⟨_, { name := "Location Partial", points := JsNum.ofNat 7, details := none },
      by simp only [calculateFitScore, htr, hcs]; rfl, ?_, ?_, Or.inr rfl, ?_, fun _ _ => rfl,
      ?_⟩
    · simp only [hf, Bool.false_eq_true, if_false]
      split_ifs <;> simp [isLocationFactor]
    · simp only [hf, Bool.false_eq_true, if_false]
      split_ifs <;> simp
    · intro hr
      exact absurd (hremote hr) h
    · intro location region hnr hloc hne hreg
      rw [hregion location region hnr hloc hne hreg] at hf
      refine ⟨⟨fun h15 => ?_, fun ht => ?_⟩, ⟨fun _ => hf, fun _ => rfl⟩⟩
      · have h15' : ((7 : ℕ) : ℚ) = 15 := JsNum.num.inj h15
        norm_num at h15'
      · rw [hf] at ht
        exact absurd ht (by simp)

/-- Claim C22, amended, on a location of two parts: the region `TX` of `Austin, TX` occurs in the
location type `Hybrid - TX`, the location factor is worth 15; for the location type `Onsite` it
is worth 7. -/
theorem calculateFitScore_location_factor_witness :
    (∃ (res : FitResult) (factor : Factor),
      calculateFitScore sampleRuntime (locatedProfile "Austin, TX") none
        (placedOpportunity "Hybrid - TX") = some res ∧
      res.factors.filter isLocationFactor = [factor] ∧ factor.points = JsNum.num 15) ∧
    (∃ (res : FitResult) (factor : Factor),
      calculateFitScore sampleRuntime (locatedProfile "Austin, TX") none
        (placedOpportunity "Onsite") = some res ∧
      res.factors.filter isLocationFactor = [factor] ∧ factor.points = JsNum.num 7) ∧
    regionSegment sampleRuntime "Austin, TX" = some "TX" := by
  obtain ⟨res, factor, h1, h2, -, -, -, -, h3⟩ := calculateFitScore_location_factor sampleRuntime
    (locatedProfile "Austin, TX") none (placedOpportunity "Hybrid - TX") (by decide) (by decide)
  obtain ⟨res2, factor2, k1, k2, -, -, -, -, k3⟩ := calculateFitScore_location_factor
    sampleRuntime (locatedProfile "Austin, TX") none (placedOpportunity "Onsite") (by decide)
    (by decide)
  exact ⟨⟨res, factor, h1, h2,
      (h3 "Austin, TX" "TX" (by decide) rfl (by decide) (by decide)).1.mpr (by decide)⟩,
    ⟨res2, factor2, k1, k2,
      (k3 "Austin, TX" "TX" (by decide) rfl (by decide) (by decide)).2.mpr (by decide)⟩,
    by decide⟩

/-- Claim C22 as stated fails: for the location `Austin, TX, USA` the text after the first comma
is `TX, USA`, which does not occur in the location type `Hybrid - TX`, so the claim gives 7
points; the code searches for the segment `TX` and gives 15. -/
theorem calculateFitScore_location_counterexample :
    regionAfterFirstComma sampleRuntime "Austin, TX, USA" = some "TX, USA" ∧
    regionSegment sampleRuntime "Austin, TX, USA" = some "TX" ∧
    claimedLocationPoints sampleRuntime (some "Austin, TX, USA") "Hybrid - TX" = 7 ∧
    Option.map (fun res => (res.factors.filter isLocationFactor).map (fun f => f.points))
      (calculateFitScore sampleRuntime (locatedProfile "Austin, TX, USA") none
        (placedOpportunity "Hybrid - TX")) = some [JsNum.num 15] := by
  decide!

/-! ## The range of the fit score -/

/-- Claim C27: for a profile that has `targetRoles` and `currentSkills` and an opportunity with
non-empty `required_skills` and `preferred_skills`, `calculateFitScore` returns an integer score
between 7 and 100. The sum of the points before the cap, as the code adds it up in doubles, lies
between 7 and 100, and so does the exact sum of the points: the score is the rounded double sum
and the final `Math.min(..., 100)` leaves it as it is. -/
theorem calculateFitScore_score_range (rt : JsRuntime) (profile : UserProfile)
    (roadmap : Option Roadmap) (opportunity : Opportunity)
    (htarget : profile.targetRoles.isSome = true) (hskills : profile.currentSkills.isSome = true)
    (hreq : opportunity.required_skills ≠ []) (hpref : opportunity.preferred_skills ≠ []) :
    ∃ (res : FitResult) (n : ℤ), calculateFitScore rt profile roadmap opportunity = some res ∧
      res.score = JsNum.num n ∧ 7 ≤ n ∧ n ≤ 100 ∧
      n = roundHalfUp (fitDoubleSum rt profile roadmap opportunity) ∧
      7 ≤ fitDoubleSum rt profile roadmap opportunity ∧
      fitDoubleSum rt profile roadmap opportunity ≤ 100 ∧
      7 ≤ fitPointsSum rt profile roadmap opportunity ∧
      fitPointsSum rt profile roadmap opportunity ≤ 100 := by
  obtain ⟨res, hres, hscore⟩ :=
    calculateFitScore_score_double rt profile roadmap opportunity htarget hskills hreq hpref
  obtain ⟨d7, d100, -⟩ := fitDoubleSum_bounds rt profile roadmap opportunity hreq hpref
  obtain ⟨h7, h100⟩ := fitPointsSum_bounds rt profile roadmap opportunity hreq hpref
  obtain ⟨hlo, hhi⟩ := roundHalfUp_fitDoubleSum_bounds rt profile roadmap opportunity hreq hpref
  refine ⟨res, _, hres, ?_, hlo, hhi, rfl, d7, d100, h7, h100⟩
  rw [hscore, min_eq_left (by exact_mod_cast hhi)]

/-- Claim C27 on the example of the specification (88 points), on an opportunity for which
nothing but the location floor and three quarters of the required skills and one quarter of the
preferred skills count (32 points), and on one whose exact sum of points is 24.5 while the
double sum lies below it (24 points). -/
theorem calculateFitScore_score_range_witness :
    (∃ (res : FitResult) (n : ℤ),
      calculateFitScore sampleRuntime fitProfile none internOpportunity = some res ∧
      res.score = JsNum.num n ∧ 7 ≤ n ∧ n ≤ 100 ∧ n = 88) ∧
    (∃ (res : FitResult) (n : ℤ),
      calculateFitScore sampleRuntime broadProfile none broadOpportunity = some res ∧
      res.score = JsNum.num n ∧ 7 ≤ n ∧ n ≤ 100 ∧ n = 24) ∧
    Option.map FitResult.score (calculateFitScore sampleRuntime fitProfile none onsiteOpportunity)
      = some (JsNum.num 32) := by
  obtain ⟨res, n, h1, h2, h3, h4, h5, -⟩ := calculateFitScore_score_range sampleRuntime
    fitProfile none internOpportunity (by decide) (by decide) (by decide) (by decide)
  obtain ⟨res2, n2, k1, k2, k3, k4, k5, -⟩ := calculateFitScore_score_range sampleRuntime
    broadProfile none broadOpportunity (by decide) (by decide) (by decide) (by decide)
  have h88 : roundHalfUp (fitDoubleSum sampleRuntime fitProfile none internOpportunity) = 88 := by
    decide!
  have h24 : roundHalfUp (fitDoubleSum sampleRuntime broadProfile none broadOpportunity) = 24 := by
    decide!
  exact ⟨⟨res, n, h1, h2, h3, h4, h5.trans h88⟩, ⟨res2, n2, k1, k2, k3, k4, k5.trans h24⟩,
    by decide!⟩

/-! ## The substring match of the fit score -/

/-- The test of `calculateFitScore` on a skill: some pool entry includes it or is included in
it. -/
theorem fitMatches_iff (studentSkills : List String) (skill : String) :
    fitMatches studentSkills skill = true ↔
      ∃ s ∈ studentSkills, jsIncludes s skill = true ∨ jsIncludes skill s = true := by
  simp [fitMatches, List.any_eq_true]

/-- Claim C28: in the result of `calculateFitScore`, `matchedSkills` holds exactly the
lower-cased required and preferred skills for which some lower-cased pool entry includes the
skill or is included in it; every lower-cased required skill lies in exactly one of
`matchedSkills` and `missingSkills`; and if the pool (`currentSkills` and the skills of the
completed milestones) holds the empty string, which lower-casing leaves empty, every required
and preferred skill is matched and `missingSkills` is empty. -/
theorem calculateFitScore_substring_match (rt : JsRuntime) (profile : UserProfile)
    (roadmap : Option Roadmap) (opportunity : Opportunity)
    (htarget : profile.targetRoles.isSome = true)
    (hskills : profile.currentSkills.isSome = true) :
    ∃ res, calculateFitScore rt profile roadmap opportunity = some res ∧
      (∀ skill, skill ∈ res.matchedSkills ↔
        (skill ∈ opportunity.required_skills.map rt.toLowerCase ∨
          skill ∈ opportunity.preferred_skills.map rt.toLowerCase) ∧
        ∃ s ∈ fitPool rt profile roadmap, jsIncludes s skill = true ∨ jsIncludes skill s = true) ∧
      (∀ skill ∈ opportunity.required_skills.map rt.toLowerCase,
        skill ∈ res.matchedSkills ∧ skill ∉ res.missingSkills ∨
        skill ∉ res.matchedSkills ∧ skill ∈ res.missingSkills) ∧
      (rt.toLowerCase "" = "" →
        "" ∈ profile.currentSkills.getD [] ++ getCompletedSkills roadmap →
        res.matchedSkills = opportunity.required_skills.map rt.toLowerCase ++
          opportunity.preferred_skills.map rt.toLowerCase ∧
        res.missingSkills = []) := by
  obtain ⟨tr, htr⟩ := Option.isSome_iff_exists.mp htarget
  obtain ⟨cs, hcs⟩ := Option.isSome_iff_exists.mp hskills
  refine ⟨_, by simp only [calculateFitScore, htr, hcs]; rfl, ?_, ?_, ?_⟩
  · intro skill
    rw [← fitMatches_iff]
    simp only [fitPool, hcs, Option.getD_some, List.mem_append, List.mem_filter]
    tauto
  · intro skill hskill
    simp only [List.mem_append, List.mem_filter, Bool.not_eq_true', ← Bool.not_eq_true]
    by_cases hm : fitMatches (List.map rt.toLowerCase (cs ++ getCompletedSkills roadmap)) skill
        = true
    · exact Or.inl ⟨Or.inl ⟨hskill, hm⟩, fun h => h.2 hm⟩
    · exact Or.inr ⟨fun h => h.elim (fun h => hm h.2) (fun h => hm h.2), hskill, hm⟩
  · intro hlow hblank
    rw [hcs, Option.getD_some] at hblank
    have hall : ∀ skill,
        fitMatches (List.map rt.toLowerCase (cs ++ getCompletedSkills roadmap)) skill = true := by
      intro skill
      rw [fitMatches_iff]
      exact ⟨"", List.mem_map.mpr ⟨"", hblank, hlow⟩, Or.inr (jsIncludes_empty skill)⟩
    constructor
    · simp only []
      rw [List.filter_eq_self.mpr (fun skill _ => hall skill),
        List.filter_eq_self.mpr (fun skill _ => hall skill)]
    · simp only []
      rw [List.filter_eq_nil_iff]
      intro skill _
      rw [hall skill]
      decide

/-- Claim C28 on a profile whose skill list holds an empty string: all four required and both
preferred skills of the sample opportunity are matched and none is missing, although the pool
holds none of them. -/
theorem calculateFitScore_substring_match_witness :
    ∃ res, calculateFitScore sampleRuntime blankSkillProfile none internOpportunity = some res ∧
      res.matchedSkills = ["python", "sql", "git", "docker", "react", "aws"] ∧
      res.missingSkills = [] := by
  obtain ⟨res, h1, -, -, h2⟩ := calculateFitScore_substring_match sampleRuntime blankSkillProfile
    none internOpportunity (by decide) (by decide)
  obtain ⟨h3, h4⟩ := h2 (by decide) (by decide)
  exact ⟨res, h1, h3.trans (by decide), h4⟩

/-! ## Next steps and filters -/

theorem continueSteps_length (phase : Phase) : (continueSteps phase).length ≤ 1 := by
  unfold continueSteps
  cases (phase.milestones.filter (fun m => m.status = "in_progress")).head? <;> simp

theorem startSteps_length (phase : Phase) : (startSteps phase).length ≤ 1 := by
  unfold startSteps
  cases (phase.milestones.filter (fun m => m.status = "not_started")).head? <;> simp

/-- One round of the loop of `getNextSteps`, in terms of the steps the phase offers. -/
theorem nextStepsLoop_cons (phase : Phase) (rest : List Phase) (nextSteps : List NextStep) :
    nextStepsLoop (phase :: rest) nextSteps =
      if (if (nextSteps ++ continueSteps phase).length < 3 then
            nextSteps ++ continueSteps phase ++ startSteps phase
          else nextSteps ++ continueSteps phase).length ≥ 3 then
        (if (nextSteps ++ continueSteps phase).length < 3 then
            nextSteps ++ continueSteps phase ++ startSteps phase
          else nextSteps ++ continueSteps phase)
      else nextStepsLoop rest
        (if (nextSteps ++ continueSteps phase).length < 3 then
            nextSteps ++ continueSteps phase ++ startSteps phase
          else nextSteps ++ continueSteps phase) := by
  simp only [nextStepsLoop, continueSteps, startSteps]
  cases phase.milestones.filter (fun m => m.status = "in_progress") <;>
    cases phase.milestones.filter (fun m => m.status = "not_started") <;>
    simp only [List.head?_nil, List.head?_cons, Option.map_none', Option.map_some',
      Option.toList_none, Option.toList_some, List.append_nil, ite_self]

/-- The array after one round of the loop: it is the first three of all steps still to come if it
has three entries, and all steps of the round otherwise. -/
theorem round_take {α : Type} (acc c s tail : List α) (h : acc.length ≤ 2) (hc : c.length ≤ 1)
    (hs : s.length ≤ 1) :
    (3 ≤ (if (acc ++ c).length < 3 then acc ++ c ++ s else acc ++ c).length →
      (if (acc ++ c).length < 3 then acc ++ c ++ s else acc ++ c) =
        (acc ++ ((c ++ s) ++ tail)).take 3) ∧
    (¬ 3 ≤ (if (acc ++ c).length < 3 then acc ++ c ++ s else acc ++ c).length →
      (if (acc ++ c).length < 3 then acc ++ c ++ s else acc ++ c) = acc ++ (c ++ s) ∧
      (acc ++ (c ++ s)).length ≤ 2) := by
  by_cases h2 : (acc ++ c).length < 3
  · simp only [if_pos h2]
    constructor
    · intro h3
      have e : acc ++ ((c ++ s) ++ tail) = (acc ++ c ++ s) ++ tail := by
        simp only [List.append_assoc]
      rw [e]
      exact (List.take_left' (by simp at h2 h3 ⊢; omega)).symm
    · intro h3
      refine ⟨by simp only [List.append_assoc], ?_⟩
      simp at h3 ⊢
      omega
  · simp only [if_neg h2]
    constructor
    · intro _
      have e : acc ++ ((c ++ s) ++ tail) = (acc ++ c) ++ (s ++ tail) := by
        simp only [List.append_assoc]
      rw [e]
      exact (List.take_left' (by simp at h2 ⊢; omega)).symm
    · intro h3
      exact absurd (by omega) h3

/-- The loop of `getNextSteps` appends the steps the phases offer, in phase order, until three
steps are reached. -/
theorem nextStepsLoop_eq :
    ∀ (phases : List Phase) (nextSteps : List NextStep), nextSteps.length ≤ 2 →
      nextStepsLoop phases nextSteps = (nextSteps ++ phases.flatMap candidateSteps).take 3
  | [], nextSteps, h => by
    simp only [nextStepsLoop, List.flatMap_nil, List.append_nil]
    exact (List.take_of_length_le (by omega)).symm
  | phase :: rest, nextSteps, h => by
    have hr := round_take nextSteps (continueSteps phase) (startSteps phase)
      (rest.flatMap candidateSteps) h (continueSteps_length phase) (startSteps_length phase)
    rw [nextStepsLoop_cons, List.flatMap_cons, candidateSteps]
    by_cases h3 : 3 ≤ (if (nextSteps ++ continueSteps phase).length < 3 then
        nextSteps ++ continueSteps phase ++ startSteps phase
      else nextSteps ++ continueSteps phase).length
    · rw [if_pos h3]
      exact hr.1 h3
    · rw [if_neg h3, (hr.2 h3).1, nextStepsLoop_eq rest _ (hr.2 h3).2]
      simp only [List.append_assoc]

/-- The steps a phase offers are a `continue` with a milestone in progress or a `start` with a
milestone not started, and carry the name and the id of the phase. -/
theorem candidateSteps_mem (phase : Phase) (step : NextStep) (h : step ∈ candidateSteps phase) :
    step.phase = phase.name ∧ step.phaseId = phase.id ∧ step.milestone ∈ phase.milestones ∧
      (step.type = "continue" ∧ step.milestone.status = "in_progress" ∨
        step.type = "start" ∧ step.milestone.status = "not_started") := by
  unfold candidateSteps continueSteps startSteps at h
  rcases List.mem_append.mp h with h | h
  · cases hf : (phase.milestones.filter (fun m => m.status = "in_progress")).head? with
    | none => simp [hf] at h
    | some first =>
      have hm := List.mem_of_mem_head? hf
      rw [List.mem_filter] at hm
      simp [hf] at h
      subst h
      exact ⟨rfl, rfl, hm.1, Or.inl ⟨rfl, by simpa using hm.2⟩⟩
  · cases hf : (phase.milestones.filter (fun m => m.status = "not_started")).head? with
    | none => simp [hf] at h
    | some first =>
      have hm := List.mem_of_mem_head? hf
      rw [List.mem_filter] at hm
      simp [hf] at h
      subst h
      exact ⟨rfl, rfl, hm.1, Or.inr ⟨rfl, by simpa using hm.2⟩⟩

/-- Claim C29: for a roadmap with phases, `getNextSteps` returns the first three of the steps
that the phases offer, taken phase by phase in the order of the phases (for each phase a
`continue` with its first milestone in progress, then a `start` with its first milestone not
started): at most 3 steps, each a `continue` whose milestone has the status `in_progress` or a
`start` whose milestone has the status `not_started`. For a missing roadmap and for a roadmap
without phases it returns the empty list. -/
theorem getNextSteps_first_three (phases : List Phase) :
    getNextSteps (some { phases := some phases }) = (phases.flatMap candidateSteps).take 3 ∧
    (getNextSteps (some { phases := some phases })).length ≤ 3 ∧
    (∀ step ∈ getNextSteps (some { phases := some phases }),
      (step.type = "continue" ∧ step.milestone.status = "in_progress" ∨
        step.type = "start" ∧ step.milestone.status = "not_started") ∧
      ∃ phase ∈ phases, step.phase = phase.name ∧ step.phaseId = phase.id ∧
        step.milestone ∈ phase.milestones) ∧
    getNextSteps none = [] ∧ getNextSteps (some { phases := none }) = [] ∧
    getNextSteps (some { phases := some [] }) = [] := by
  have heq : getNextSteps (some { phases := some phases }) =
      (phases.flatMap candidateSteps).take 3 := by
    simp only [getNextSteps]
    rw [nextStepsLoop_eq phases [] (by simp), List.nil_append]
  refine ⟨heq, ?_, ?_, rfl, rfl, rfl⟩
  · rw [heq, List.length_take]
    exact min_le_left _ _
  · intro step hstep
    rw [heq] at hstep
    obtain ⟨phase, hphase, hmem⟩ := List.mem_flatMap.mp (List.mem_of_mem_take hstep)
    obtain ⟨h1, h2, h3, h4⟩ := candidateSteps_mem phase step hmem
    exact ⟨h4, phase, hphase, h1, h2, h3⟩

/-- Claim C29 on a roadmap of four phases: the steps are the `continue` and the `start` of the
first phase and the `continue` of the third, with its first milestone in progress; the `start`
of the third phase and the fourth phase are left out. -/
theorem getNextSteps_first_three_witness :
    getNextSteps (some { phases := some samplePhases }) = [
      { type := "continue", phase := "Foundations", phaseId := "p1",
        milestone := { status := "in_progress", skills := ["css"] } },
      { type := "start", phase := "Foundations", phaseId := "p1",
        milestone := { status := "not_started", skills := ["javascript"] } },
      { type := "continue", phase := "Projects", phaseId := "p3",
        milestone := { status := "in_progress", skills := ["react"] } }] :=
  (getNextSteps_first_three samplePhases).1.trans (by decide)

/-- Claim C30: `filterOpportunities` returns exactly the opportunities that pass the `roleType`
and the `sponsor` equality checks (a criterion that is absent or empty lets everything pass), in
their original order; the criterion `locationType` has no effect, so two filter objects that
differ only in it give the same list. -/
theorem filterOpportunities_ignores_location (rt : JsRuntime) (opportunities : List Opportunity)
    (roleType sponsor locationType otherLocationType : Option String) :
    filterOpportunities rt opportunities
        { roleType := roleType, sponsor := sponsor, locationType := locationType } =
      opportunities.filter (fun opp =>
        passesCriterion roleType opp.role_type && passesCriterion sponsor opp.sponsor_tag) ∧
    filterOpportunities rt opportunities
        { roleType := roleType, sponsor := sponsor, locationType := locationType } =
      filterOpportunities rt opportunities
        { roleType := roleType, sponsor := sponsor, locationType := otherLocationType } := by
  have key : ∀ loc : Option String,
      filterOpportunities rt opportunities
        { roleType := roleType, sponsor := sponsor, locationType := loc } =
      opportunities.filter (fun opp =>
        passesCriterion roleType opp.role_type && passesCriterion sponsor opp.sponsor_tag) := by
    intro loc
    unfold filterOpportunities
    congr 1
    funext opp
    cases roleType with
    | none =>
      cases sponsor with
      | none => simp [Filters.isSet, passesCriterion]
      | some s =>
        by_cases hs : s = "" <;> by_cases he : opp.sponsor_tag = s <;>
          simp [Filters.isSet, passesCriterion, hs, he]
    | some r =>
      cases sponsor with
      | none =>
        by_cases hr : r = "" <;> by_cases he : opp.role_type = r <;>
          simp [Filters.isSet, passesCriterion, hr, he]
      | some s =>
        by_cases hr : r = "" <;> by_cases he : opp.role_type = r <;>
          by_cases hs : s = "" <;> by_cases hf : opp.sponsor_tag = s <;>
          simp [Filters.isSet, passesCriterion, hr, he, hs, hf]
  exact ⟨key locationType, (key locationType).trans (key otherLocationType).symm⟩

/-- Claim C30 on three opportunities: with the role type `Software Engineer` wanted, the filter
keeps the remote and the hybrid opportunity of that role type, whether the location type wanted
is `remote`, `onsite` or absent. -/
theorem filterOpportunities_ignores_location_witness :
    filterOpportunities sampleRuntime sampleOpportunities
        { roleType := some "Software Engineer", sponsor := some "",
          locationType := some "onsite" } =
      sampleOpportunities.filter (fun opp => decide (opp.role_type = "Software Engineer")) ∧
    filterOpportunities sampleRuntime sampleOpportunities
        { roleType := some "Software Engineer", sponsor := some "",
          locationType := some "onsite" } =
      filterOpportunities sampleRuntime sampleOpportunities
        { roleType := some "Software Engineer", sponsor := some "", locationType := none } :=
  ⟨(filterOpportunities_ignores_location sampleRuntime sampleOpportunities
      (some "Software Engineer") (some "") (some "onsite") none).1.trans (by decide),
    (filterOpportunities_ignores_location sampleRuntime sampleOpportunities
      (some "Software Engineer") (some "") (some "onsite") none).2⟩

end LaunchPad
